import Mathlib

/-!
Shallow embedding of the HazardLens perception-to-alert pipeline
(src/backend: config.py, models.py, tracker.py, zone_engine.py,
event_detector.py, analytics.py, pipeline.py).

Modelling conventions:
* Python floats are modelled as exact rationals (ℚ).
* Python dicts are modelled as insertion-ordered association lists
  (`List (κ × α)`): assignment to an existing key keeps its position,
  assignment to a fresh key appends (CPython dict semantics).
* Euclidean distances (scipy.spatial.distance.cdist) are represented by
  their squares, and every threshold comparison uses the squared
  threshold: for nonnegative reals, d > t ↔ d² > t², and sorting or
  argmin by d coincides with sorting or argmin by d², so the embedding
  is observation-equivalent to the source.
* Display-only fields (Event.id uuid, Event.timestamp, Event.description,
  FrameResult.annotated_frame_b64) and image operations (annotation,
  JPEG/base64 encoding) are elided: no claim observes them.
* The object detector (detector.py, an external YOLO model, out of scope
  per the spec) is modelled as an oracle: a frame carries the detection
  list the detector would return for it.  Likewise shapely's
  Polygon.contains (an external geometry library) is a parameter
  `PolyContains` of the zone engine.
-/

namespace HazardLens

/-- config.py `Settings`: the tunables the embedded components read
(defaults as in config.py). -/
structure Settings where
  SKIP_FRAMES : Nat := 3
  MAX_TRACK_DISTANCE : ℚ := 80
  TRAJECTORY_LENGTH : Nat := 60
  PROXIMITY_THRESHOLD : ℚ := 100
  LOITER_SECONDS : ℚ := 8
  LOITER_COOLDOWN : ℚ := 30
  NEAR_MISS_COOLDOWN : ℚ := 5
  FALLEN_FRAME_COUNT : Nat := 5


/-- The config.py module-level `settings = Settings()` instance. -/
def defaultSettings : Settings := {}

/-- models.py `PPEStatus`. -/
inductive PPEStatus where
  | hardhat_on
  | hardhat_off
  | unknown
deriving DecidableEq

/-- models.py `Severity`. -/
inductive Severity where
  | info
  | warning
  | critical
deriving DecidableEq

/-- models.py `ObjectClass`. -/
inductive ObjectClass where
  | person
  | bicycle
  | car
  | truck
deriving DecidableEq

/-- A bounding box (x1, y1, x2, y2). -/
abbrev BBox : Type := ℚ × ℚ × ℚ × ℚ

/-- models.py `Detection`. -/
structure Detection where
  class_name : ObjectClass
  confidence : ℚ
  bbox : BBox
  ppe_status : PPEStatus := .unknown
deriving DecidableEq

/-- models.py `TrackedObject`. -/
structure TrackedObject where
  track_id : Nat
  class_name : ObjectClass
  bbox : BBox
  centroid : ℚ × ℚ
  confidence : ℚ
  ppe_status : PPEStatus := .unknown
  velocity : ℚ × ℚ := (0, 0)
  trajectory : List (ℚ × ℚ) := []
  is_fallen : Bool := false
  in_zones : List String := []
deriving DecidableEq

/-- models.py `ZoneConfig` (display color elided). -/
structure ZoneConfig where
  id : String
  name : String
  zone_type : String := "restricted"
  polygon : List (ℚ × ℚ)
deriving DecidableEq

/-- models.py `Event` (uuid, wall-clock timestamp and the human-readable
description string are display-only and elided). -/
structure Event where
  job_id : String := ""
  frame_number : Nat := 0
  event_type : String
  severity : Severity
  track_id : Option Nat := none
  zone_id : Option String := none
  bbox : Option BBox := none
deriving DecidableEq

/-- models.py `FrameResult` (annotated_frame_b64 elided). -/
structure FrameResult where
  frame_number : Nat
  detections : List Detection := []
  tracked_objects : List TrackedObject := []
  events : List Event := []
  risk_score : ℚ := 0
  compliance_rate : ℚ := 1
deriving DecidableEq

/-! Association-list operations with CPython dict semantics. -/

/-- `d[k] = v`: replace in place if the key exists, else append. -/
def upsert {κ α : Type} [DecidableEq κ] : List (κ × α) → κ → α → List (κ × α)
  | [], k, v => [(k, v)]
  | (k0, v0) :: t, k, v =>
      if k0 = k then (k, v) :: t else (k0, v0) :: upsert t k v

/-- `d.get(k, dflt)`. -/
def lookupD {κ α : Type} [DecidableEq κ] (l : List (κ × α)) (k : κ) (dflt : α) : α :=
  match l with
  | [] => dflt
  | (k0, v0) :: t => if k0 = k then v0 else lookupD t k dflt

/-- `d.get(k)` / `d[k]` as an Option. -/
def lookup? {κ α : Type} [DecidableEq κ] (l : List (κ × α)) (k : κ) : Option α :=
  match l with
  | [] => none
  | (k0, v0) :: t => if k0 = k then some v0 else lookup? t k

/-- `d.pop(k, None)`. -/
def removeKey {κ α : Type} [DecidableEq κ] (l : List (κ × α)) (k : κ) : List (κ × α) :=
  l.filter (fun kv => kv.1 ≠ k)

/-- Squared Euclidean distance between two points; stands for the
cdist / shapely distances of the source (see the header note). -/
def dist2 (p q : ℚ × ℚ) : ℚ :=
  (p.1 - q.1) * (p.1 - q.1) + (p.2 - q.2) * (p.2 - q.2)

/-! ## tracker.py `CentroidTracker` -/

/-- tracker.py `CentroidTracker.__init__` state: `_next_id`, `_objects`
(an OrderedDict: insertion-ordered), `_disappeared`, `_max_disappeared`. -/
structure TrackerState where
  next_id : Nat := 0
  objects : List (Nat × TrackedObject) := []
  disappeared : List (Nat × Nat) := []
  max_disappeared : Nat := 15

instance : Inhabited Detection :=
  ⟨{ class_name := .person, confidence := 0, bbox := (0, 0, 0, 0) }⟩

/-- Centroid of a detection's bounding box (tracker.py lines 36-44):
the midpoint ((x1+x2)/2, (y1+y2)/2). -/
def detCentroid (d : Detection) : ℚ × ℚ :=
  ((d.bbox.1 + d.bbox.2.2.1) / 2, (d.bbox.2.1 + d.bbox.2.2.2) / 2)

/-- The fallen test of tracker.py `_register`/`_update_object`:
person class and bounding-box width > 1.3 × height. -/
def fallenFlag (cls : ObjectClass) (b : BBox) : Bool :=
  decide (cls = ObjectClass.person) &&
    decide ((b.2.2.2 - b.2.1) * 1.3 < b.2.2.1 - b.1)

/-- tracker.py `CentroidTracker._register`: a fresh monotonically
increasing id, zero velocity, single-point trajectory, disappearance
counter 0. -/
def register (st : TrackerState) (det : Detection) (centroid : ℚ × ℚ) : TrackerState :=
  let tid := st.next_id
  { st with
    next_id := tid + 1
    objects := upsert st.objects tid
      { track_id := tid
        class_name := det.class_name
        bbox := det.bbox
        centroid := centroid
        confidence := det.confidence
        ppe_status := det.ppe_status
        velocity := (0, 0)
        trajectory := [centroid]
        is_fallen := fallenFlag det.class_name det.bbox
        in_zones := [] }
    disappeared := upsert st.disappeared tid 0 }

/-- tracker.py `CentroidTracker._update_object`: velocity is the
centroid delta, the trajectory is appended and truncated to the last
TRAJECTORY_LENGTH points, the fallen flag is recomputed, `in_zones` is
carried over, the disappearance counter resets to 0.  (The `none`
branch is unreachable: the method is only called with a key of
`_objects`, where Python indexes `self._objects[tid]` directly.) -/
def update_object (s : Settings) (st : TrackerState) (tid : Nat) (det : Detection)
    (centroid : ℚ × ℚ) : TrackerState :=
  match lookup? st.objects tid with
  | none => st
  | some obj =>
    let v := (centroid.1 - obj.centroid.1, centroid.2 - obj.centroid.2)
    let traj0 := obj.trajectory ++ [centroid]
    let traj := if s.TRAJECTORY_LENGTH < traj0.length
      then traj0.drop (traj0.length - s.TRAJECTORY_LENGTH) else traj0
    { st with
      objects := upsert st.objects tid
        { track_id := tid
          class_name := det.class_name
          bbox := det.bbox
          centroid := centroid
          confidence := det.confidence
          ppe_status := det.ppe_status
          velocity := v
          trajectory := traj
          is_fallen := fallenFlag det.class_name det.bbox
          in_zones := obj.in_zones }
      disappeared := upsert st.disappeared tid 0 }

/-- First index attaining the minimum of `f` on `[0, n)` — the
behaviour of `np.argmin` (ties broken towards the first occurrence). -/
def argminQ (f : Nat → ℚ) (n : Nat) : Nat :=
  (List.range n).foldl (fun best c => if f c < f best then c else best) 0

/-- Minimum of `f` on `[0, n)` (meaningful for `n ≥ 1`):
`D.min(axis=1)` for one row. -/
def minQ (f : Nat → ℚ) (n : Nat) : ℚ :=
  (List.range n).foldl (fun m c => min m (f c)) (f 0)

/-- One step of the greedy matching loop of tracker.py lines 68-78:
skip already-used rows/cols, skip pairs over the maximum linking
distance (squared comparison, see header), else commit the match. -/
def matchStep (s : Settings) (objIds : List Nat) (detections : List Detection)
    (cents : List (ℚ × ℚ)) (D : Nat → Nat → ℚ)
    (acc : TrackerState × List Nat × List Nat) (row : Nat) :
    TrackerState × List Nat × List Nat :=
  let (st, usedR, usedC) := acc
  let col := argminQ (D row) detections.length
  if row ∈ usedR ∨ col ∈ usedC then acc
  else if s.MAX_TRACK_DISTANCE * s.MAX_TRACK_DISTANCE < D row col then acc
  else
    let tid := objIds.getD row 0
    (update_object s st tid (detections.getD col default) (cents.getD col (0, 0)),
     usedR ++ [row], usedC ++ [col])

/-- Body of the loop over `unused_rows` (tracker.py lines 83-88): the
unmatched track's disappearance counter is incremented (defaulting to 0
if absent, the source's `.get(tid, 0)`); past the maximum the track is
evicted from both maps. -/
def evictStep (objIds usedR : List Nat) (a : TrackerState) (row : Nat) : TrackerState :=
  if row ∈ usedR then a else
  let tid := objIds.getD row 0
  let d := lookupD a.disappeared tid 0 + 1
  if a.max_disappeared < d then
    { a with objects := removeKey a.objects tid,
             disappeared := removeKey a.disappeared tid }
  else { a with disappeared := upsert a.disappeared tid d }

/-- Body of the loop over `unused_cols` (tracker.py lines 90-93): every
unmatched detection is registered as a new track. -/
def regStep (detections : List Detection) (cents : List (ℚ × ℚ)) (usedC : List Nat)
    (a : TrackerState) (col : Nat) : TrackerState :=
  if col ∈ usedC then a else
  register a (detections.getD col default) (cents.getD col (0, 0))

/-- tracker.py `CentroidTracker.update`.  Notes on nondeterminism in
the source that this embedding resolves one way: `np.argsort` is an
unstable sort, modelled as a stable sort by the same key (any tie
order satisfies the claims proved below); iteration over the Python
sets `unused_rows`/`unused_cols` of small ints is modelled in
increasing index order. -/
def CentroidTracker.update (s : Settings) (st : TrackerState)
    (detections : List Detection) : TrackerState × List TrackedObject :=
  if detections.isEmpty then
    -- tracker.py lines 24-33: increment every disappearance counter,
    -- evict the tracks whose counter exceeds the maximum
    let inc := st.disappeared.map (fun kv => (kv.1, kv.2 + 1))
    let removed := (inc.filter (fun kv => decide (st.max_disappeared < kv.2))).map Prod.fst
    let st1 := { st with
      objects := st.objects.filter (fun kv => decide (¬ kv.1 ∈ removed))
      disappeared := inc.filter (fun kv => decide (kv.2 ≤ st.max_disappeared)) }
    (st1, st1.objects.map Prod.snd)
  else
    let cents := detections.map detCentroid
    if st.objects.isEmpty then
      -- lines 46-49: no existing tracks, register every detection
      let st1 := (detections.zip cents).foldl (fun a dc => register a dc.1 dc.2) st
      (st1, st1.objects.map Prod.snd)
    else
      let objIds := st.objects.map Prod.fst
      let objCents := st.objects.map (fun kv => kv.2.centroid)
      let nC := detections.length
      let D : Nat → Nat → ℚ := fun r c => dist2 (objCents.getD r (0, 0)) (cents.getD c (0, 0))
      -- lines 62-63: rows sorted by min row distance; cols by row argmin
      let rows := (List.range objIds.length).mergeSort
        (fun a b => decide (minQ (D a) nC ≤ minQ (D b) nC))
      let m := rows.foldl (matchStep s objIds detections cents D) (st, [], [])
      let st1 := m.1
      let usedR := m.2.1
      let usedC := m.2.2
      -- lines 80-88: unmatched tracks disappear a frame, evict over threshold
      let st2 := (List.range objIds.length).foldl (evictStep objIds usedR) st1
      -- lines 90-93: unmatched detections become new tracks
      let st3 := (List.range nC).foldl (regStep detections cents usedC) st2
      (st3, st3.objects.map Prod.snd)

/-- State invariant maintained by `CentroidTracker.update` (claim C3):
object and disappearance keys are duplicate-free, every key is below
the id counter `next_id`, every object key has a disappearance entry,
and every disappearance counter is at most the eviction threshold. -/
def TrackerInv (st : TrackerState) : Prop :=
  (st.objects.map Prod.fst).Nodup ∧
  (st.disappeared.map Prod.fst).Nodup ∧
  (∀ k ∈ st.objects.map Prod.fst, k < st.next_id) ∧
  (∀ k ∈ st.disappeared.map Prod.fst, k < st.next_id) ∧
  (∀ k ∈ st.objects.map Prod.fst, k ∈ st.disappeared.map Prod.fst) ∧
  (∀ c ∈ st.disappeared.map Prod.snd, c ≤ st.max_disappeared)

instance (st : TrackerState) : Decidable (TrackerInv st) := by
  unfold TrackerInv
  infer_instance

/-! ## zone_engine.py `ZoneEngine` -/

/-- The containment test shapely provides (`Polygon(zone.polygon)
.contains(Point(centroid))`): an external geometry library, modelled as
an oracle mapping a polygon and a point to a Bool. -/
def PolyContains : Type := List (ℚ × ℚ) → ℚ × ℚ → Bool

/-- zone_engine.py `ZoneEngine.__init__` state (`_zones` and the
parallel `_polygons` collapse to one map since the polygon is read off
the config; `_prev_occupancy` maps track id to the zone-id set seen on
the previous call).  `frame_size` backs the spec-modelled
`set_frame_size`, see below. -/
structure ZoneState where
  zones : List (String × ZoneConfig) := []
  prev_occupancy : List (Nat × List String) := []
  frame_size : Option (Nat × Nat) := none

/-- zone_engine.py `ZoneEngine.add_zone`. -/
def ZoneEngine.add_zone (st : ZoneState) (z : ZoneConfig) : ZoneState :=
  { st with zones := upsert st.zones z.id z }

/-- zone_engine.py `ZoneEngine.remove_zone`. -/
def ZoneEngine.remove_zone (st : ZoneState) (zid : String) : ZoneState × Bool :=
  match lookup? st.zones zid with
  | some _ => ({ st with zones := removeKey st.zones zid }, true)
  | none => (st, false)

/-- Modelled from the spec: `Pipeline.process_frame` (pipeline.py line
47, comment "Update zone engine with frame dimensions") calls
`self.zone_engine.set_frame_size(w, h)`, but no method of that name is
defined anywhere in the repository — zone_engine.py only defines
__init__, zones, add_zone, remove_zone, check_zones, detect_proximity
and reset.  The spec gives ZoneEngine no frame-size behaviour (its
occupancy test is pure point-in-polygon, spec §4.2), so the missing
method is modelled as recording the dimensions with no effect on any
other observable. -/
def ZoneEngine.set_frame_size (st : ZoneState) (w h : Nat) : ZoneState :=
  { st with frame_size := some (w, h) }

/-- The zone-id set check_zones computes for a centroid (zone_engine.py
lines 45-49): the ids of the configured zones whose polygon contains
it, in zone insertion order. -/
def zonesOf (pc : PolyContains) (zones : List (String × ZoneConfig))
    (c : ℚ × ℚ) : List String :=
  (zones.filter (fun z => pc z.2.polygon c)).map Prod.fst

/-- The previous-frame occupancy set recorded for an object's track id
(zone_engine.py line 52, defaulting to the empty set). -/
def prevOf (st : ZoneState) (o : TrackedObject) : List String :=
  lookupD st.prev_occupancy o.track_id []

/-- `entered = in_zones - prev` for one object (zone_engine.py line 53). -/
def enteredOf (pc : PolyContains) (st : ZoneState) (o : TrackedObject) : List String :=
  (zonesOf pc st.zones o.centroid).filter (fun z => decide (¬ z ∈ prevOf st o))

/-- `exited = prev - in_zones` for one object (zone_engine.py line 54). -/
def exitedOf (pc : PolyContains) (st : ZoneState) (o : TrackedObject) : List String :=
  (prevOf st o).filter (fun z => decide (¬ z ∈ zonesOf pc st.zones o.centroid))

/-- The body of check_zones' per-object loop (zone_engine.py lines
44-61), accumulating (updated objects, current, entries, exits). -/
def czStep (pc : PolyContains) (st : ZoneState)
    (acc : List TrackedObject × List (Nat × List String)
      × List (Nat × List String) × List (Nat × List String))
    (obj : TrackedObject) :
    List TrackedObject × List (Nat × List String)
      × List (Nat × List String) × List (Nat × List String) :=
  let in_zones := zonesOf pc st.zones obj.centroid
  let entered := enteredOf pc st obj
  let exited := exitedOf pc st obj
  (acc.1 ++ [{ obj with in_zones := in_zones }],
   upsert acc.2.1 obj.track_id in_zones,
   (if entered.isEmpty then acc.2.2.1 else upsert acc.2.2.1 obj.track_id entered),
   (if exited.isEmpty then acc.2.2.2 else upsert acc.2.2.2 obj.track_id exited))

/-- zone_engine.py `ZoneEngine.check_zones`: returns the updated engine
state, the tracked objects with their `in_zones` field rewritten (the
source mutates them in place), and (current occupancy, entries, exits)
keyed by track id.  Entries are zones present now but absent from the
previous call's recorded set; exits the reverse; the previous-occupancy
store is then replaced wholesale by the current occupancy. -/
def ZoneEngine.check_zones (pc : PolyContains) (st : ZoneState)
    (tracked_objects : List TrackedObject) :
    ZoneState × List TrackedObject × List (Nat × List String)
      × List (Nat × List String) × List (Nat × List String) :=
  let r := tracked_objects.foldl (czStep pc st)
    (([], [], [], []) : List TrackedObject × List (Nat × List String)
      × List (Nat × List String) × List (Nat × List String))
  ({ st with prev_occupancy := r.2.1 }, r.1, r.2.1, r.2.2.1, r.2.2.2)

/-- The vehicle classes of zone_engine.py `detect_proximity` (car,
truck, bicycle). -/
def isVehicle (c : ObjectClass) : Bool :=
  decide (c = .car) || decide (c = .truck) || decide (c = .bicycle)

/-- zone_engine.py `ZoneEngine.detect_proximity`: every (person id,
vehicle id, distance) pair closer than PROXIMITY_THRESHOLD, in the
nested person-major/vehicle-minor order of the source.  The third
component carries the squared distance (see header); it only feeds the
elided description string. -/
def ZoneEngine.detect_proximity (s : Settings) (tracked_objects : List TrackedObject) :
    List (Nat × Nat × ℚ) :=
  let persons := tracked_objects.filter (fun o => o.class_name = .person)
  let vehicles := tracked_objects.filter (fun o => isVehicle o.class_name)
  if persons.isEmpty || vehicles.isEmpty then []
  else persons.flatMap (fun p => vehicles.filterMap (fun v =>
    let d2 := dist2 p.centroid v.centroid
    if d2 < s.PROXIMITY_THRESHOLD * s.PROXIMITY_THRESHOLD then
      some (p.track_id, v.track_id, d2)
    else none))

/-- zone_engine.py `ZoneEngine.reset`: clears only the
previous-occupancy store; the configured zones survive. -/
def ZoneEngine.reset (st : ZoneState) : ZoneState :=
  { st with prev_occupancy := [] }

/-! ## event_detector.py `EventDetector` -/

/-- event_detector.py `EventDetector.__init__` state. -/
structure EventState where
  prev_ppe : List (Nat × PPEStatus) := []
  loiter_state : List (Nat × (ℚ × ℚ)) := []
  near_miss_cooldown : List ((Nat × Nat) × ℚ) := []
  fallen_counts : List (Nat × Nat) := []
  fallen_alerted : List (Nat × Bool) := []

/-- event_detector.py line 36 `obj_map = {o.track_id: o for o in
tracked_objects}`: a dict comprehension, so on duplicate ids the last
object wins. -/
def objMap (objs : List TrackedObject) (tid : Nat) : Option TrackedObject :=
  (objs.filter (fun o => o.track_id = tid)).getLast?

/-- event_detector.py lines 38-67, the PPE-transition rule: compare each
person's status with the last-seen one (default unknown), emit a warning
ppe_violation on on→off and an info ppe_restored on off→on, and update
the last-seen status unconditionally. -/
def ppeStep (job_id : String) (frame_number : Nat)
    (acc : List Event × List (Nat × PPEStatus)) (obj : TrackedObject) :
    List Event × List (Nat × PPEStatus) :=
  if obj.class_name ≠ .person then acc
  else
    let prev := lookupD acc.2 obj.track_id PPEStatus.unknown
    let evs :=
      if prev = .hardhat_on ∧ obj.ppe_status = .hardhat_off then
        [{ job_id := job_id, frame_number := frame_number,
           event_type := "ppe_violation", severity := .warning,
           track_id := some obj.track_id, bbox := some obj.bbox }]
      else if prev = .hardhat_off ∧ obj.ppe_status = .hardhat_on then
        [{ job_id := job_id, frame_number := frame_number,
           event_type := "ppe_restored", severity := .info,
           track_id := some obj.track_id, bbox := some obj.bbox }]
      else []
    (acc.1 ++ evs, upsert acc.2 obj.track_id obj.ppe_status)

/-- The zone type detect_events reads for a zone id, degrading to
"restricted" when the id is unknown (event_detector.py line 75). -/
def zoneTypeOf (zones : List (String × ZoneConfig)) (zid : String) : String :=
  match lookup? zones zid with
  | some z => z.zone_type
  | none => "restricted"

/-- event_detector.py lines 69-88, zone-entry events: one per (track,
zone) entry; critical for danger-type zones, warning otherwise. -/
def zoneEntryEvents (job_id : String) (frame_number : Nat)
    (objs : List TrackedObject) (zones : List (String × ZoneConfig))
    (zone_entries : List (Nat × List String)) : List Event :=
  zone_entries.flatMap (fun te => te.2.map (fun zid =>
    { job_id := job_id, frame_number := frame_number,
      event_type := "zone_entry",
      severity := if zoneTypeOf zones zid = "danger" then .critical else .warning,
      track_id := some te.1, zone_id := some zid,
      bbox := (objMap objs te.1).map (fun o => o.bbox) }))

/-- event_detector.py lines 90-106, zone-exit events: one per (track,
zone) exit, always info. -/
def zoneExitEvents (job_id : String) (frame_number : Nat)
    (objs : List TrackedObject) (zone_exits : List (Nat × List String)) : List Event :=
  zone_exits.flatMap (fun te => te.2.map (fun zid =>
    { job_id := job_id, frame_number := frame_number,
      event_type := "zone_exit", severity := .info,
      track_id := some te.1, zone_id := some zid,
      bbox := (objMap objs te.1).map (fun o => o.bbox) }))

/-- event_detector.py lines 108-141, the loitering rule (speed < 3.0 is
compared as speed² < 9, see header). -/
def loiterStep (s : Settings) (job_id : String) (frame_number : Nat) (now : ℚ)
    (acc : List Event × List (Nat × (ℚ × ℚ))) (obj : TrackedObject) :
    List Event × List (Nat × (ℚ × ℚ)) :=
  if obj.class_name ≠ .person then acc
  else if obj.in_zones.isEmpty then (acc.1, removeKey acc.2 obj.track_id)
  else
    let speed2 := obj.velocity.1 * obj.velocity.1 + obj.velocity.2 * obj.velocity.2
    if speed2 < 9 then
      match lookup? acc.2 obj.track_id with
      | none => (acc.1, upsert acc.2 obj.track_id (now, 0))
      | some st0 =>
        if s.LOITER_SECONDS ≤ now - st0.1 ∧ s.LOITER_COOLDOWN ≤ now - st0.2 then
          (acc.1 ++ [{ job_id := job_id, frame_number := frame_number,
                       event_type := "loitering", severity := .warning,
                       track_id := some obj.track_id, bbox := some obj.bbox }],
           upsert acc.2 obj.track_id (st0.1, now))
        else acc
    else (acc.1, removeKey acc.2 obj.track_id)

/-- event_detector.py lines 143-160, the near-miss rule: per (person,
vehicle) pair, fire a critical near_miss and reset that pair's cooldown
clock when the time since the pair's last alert (default 0.0) reaches
the cooldown; otherwise suppress. -/
def nearMissStep (s : Settings) (job_id : String) (frame_number : Nat) (now : ℚ)
    (objs : List TrackedObject)
    (acc : List Event × List ((Nat × Nat) × ℚ)) (pr : Nat × Nat × ℚ) :
    List Event × List ((Nat × Nat) × ℚ) :=
  let key := (pr.1, pr.2.1)
  let last := lookupD acc.2 key 0
  if s.NEAR_MISS_COOLDOWN ≤ now - last then
    (acc.1 ++ [{ job_id := job_id, frame_number := frame_number,
                 event_type := "near_miss", severity := .critical,
                 track_id := some pr.1,
                 bbox := (objMap objs pr.1).map (fun o => o.bbox) }],
     upsert acc.2 key now)
  else acc

/-- event_detector.py lines 162-189, the fallen-worker rule: a
consecutive-frame counter per person that increments while the fallen
flag is set and resets (clearing the alert latch) otherwise; one
critical fallen_worker event fires when the counter reaches
FALLEN_FRAME_COUNT with no latch set, which sets the latch. -/
def fallenStep (s : Settings) (job_id : String) (frame_number : Nat)
    (acc : List Event × List (Nat × Nat) × List (Nat × Bool)) (obj : TrackedObject) :
    List Event × List (Nat × Nat) × List (Nat × Bool) :=
  if obj.class_name ≠ .person then acc
  else
    let counts :=
      if obj.is_fallen then
        upsert acc.2.1 obj.track_id (lookupD acc.2.1 obj.track_id 0 + 1)
      else upsert acc.2.1 obj.track_id 0
    let alerted :=
      if obj.is_fallen then acc.2.2 else upsert acc.2.2 obj.track_id false
    if s.FALLEN_FRAME_COUNT ≤ lookupD counts obj.track_id 0
        ∧ ¬ lookupD alerted obj.track_id false then
      (acc.1 ++ [{ job_id := job_id, frame_number := frame_number,
                   event_type := "fallen_worker", severity := .critical,
                   track_id := some obj.track_id, bbox := some obj.bbox }],
       counts, upsert alerted obj.track_id true)
    else (acc.1, counts, alerted)

/-- event_detector.py `EventDetector.detect_events`: the five rule
sections evaluated in source order on one shared wall-clock reading
`now`, their events concatenated in that order, all keyed state threaded
through. -/
def EventDetector.detect_events (s : Settings) (st : EventState)
    (tracked_objects : List TrackedObject)
    (zone_entries zone_exits : List (Nat × List String))
    (proximity_pairs : List (Nat × Nat × ℚ))
    (zones : List (String × ZoneConfig))
    (frame_number : Nat) (now : ℚ) (job_id : String := "") :
    List Event × EventState :=
  let p := tracked_objects.foldl (ppeStep job_id frame_number) ([], st.prev_ppe)
  let entriesE := zoneEntryEvents job_id frame_number tracked_objects zones zone_entries
  let exitsE := zoneExitEvents job_id frame_number tracked_objects zone_exits
  let l := tracked_objects.foldl (loiterStep s job_id frame_number now) ([], st.loiter_state)
  let n := proximity_pairs.foldl (nearMissStep s job_id frame_number now tracked_objects)
    ([], st.near_miss_cooldown)
  let f := tracked_objects.foldl (fallenStep s job_id frame_number)
    ([], st.fallen_counts, st.fallen_alerted)
  (p.1 ++ entriesE ++ exitsE ++ l.1 ++ n.1 ++ f.1,
   { prev_ppe := p.2, loiter_state := l.2, near_miss_cooldown := n.2,
     fallen_counts := f.2.1, fallen_alerted := f.2.2 })

/-! ## analytics.py `AnalyticsEngine` -/

/-- analytics.py engine state: accumulated events and the two time
series (each point is (timestamp, value)); alert buckets keyed by
minute index since engine start. -/
structure AnalyticsState where
  events : List Event := []
  risk_history : List (ℚ × ℚ) := []
  compliance_history : List (ℚ × ℚ) := []
  alert_buckets : List (Int × Nat) := []
  start_time : ℚ := 0


/-- analytics.py `AnalyticsEngine._compute_risk`. -/
def compute_risk (tracked_objects : List TrackedObject) (recent_events : List Event)
    (compliance_rate : ℚ) : ℚ :=
  let ppe_component := (1 - compliance_rate) * 40
  let zone_violations := (recent_events.filter (fun e => e.event_type = "zone_entry")).length
  let zone_component := min ((zone_violations : ℚ) * 8) 25
  let near_misses := (recent_events.filter (fun e => e.event_type = "near_miss")).length
  let near_miss_component := min ((near_misses : ℚ) * 12.5) 25
  let persons := tracked_objects.filter (fun o => o.class_name = .person)
  let density_component := min ((persons.length : ℚ) * 1.5) 10
  min (ppe_component + zone_component + near_miss_component + density_component) 100

/-- analytics.py `AnalyticsEngine.ingest_frame`: returns
(risk_score, compliance_rate) and the updated engine state; `now` is the
wall clock at the call. -/
def ingest_frame (st : AnalyticsState) (tracked_objects : List TrackedObject)
    (events : List Event) (now : ℚ) : (ℚ × ℚ) × AnalyticsState :=
  let acc_events := st.events ++ events
  let minute_bucket : Int := ⌊(now - st.start_time) / 60⌋
  let buckets := events.foldl
    (fun b _ => upsert b minute_bucket (lookupD b minute_bucket 0 + 1))
    st.alert_buckets
  let persons := tracked_objects.filter (fun o => o.class_name = .person)
  let compliance_rate : ℚ :=
    if persons.isEmpty then 1
    else ((persons.filter (fun p => p.ppe_status = .hardhat_on)).length : ℚ) / persons.length
  let risk_score := compute_risk tracked_objects events compliance_rate
  ((risk_score, compliance_rate),
   { st with
      events := acc_events
      alert_buckets := buckets
      risk_history := st.risk_history ++ [(now, risk_score)]
      compliance_history := st.compliance_history ++ [(now, compliance_rate)] })

/-! ## pipeline.py `Pipeline` -/

/-- A video frame, abstracted to what the embedded pipeline observes of
it: its dimensions and the detection list the external detector
(detector.py, out of scope per the spec) returns for it. -/
structure Frame where
  width : Nat := 0
  height : Nat := 0
  detections : List Detection := []

/-- pipeline.py `Pipeline.__init__` state (the stateless detector and
the elided annotation/encoding steps own no state). -/
structure PipelineState where
  tracker : TrackerState := {}
  zone : ZoneState := {}
  event_detector : EventState := {}
  analytics : AnalyticsState := {}
  frame_count : Nat := 0
  last_result : Option FrameResult := none

instance : Inhabited FrameResult := ⟨{ frame_number := 0 }⟩

/-- pipeline.py `Pipeline.process_frame` lines 41-128 with the
`set_frame_size` call modelled from the spec (see
`ZoneEngine.set_frame_size`): bump the frame counter, record the frame
size, return the cached result unchanged when the frame is skipped
(counter % SKIP_FRAMES ≠ 1 and a cached result exists), otherwise drive
the frame through detect → track → zones → proximity → events →
analytics and cache the new result.  `now` is the wall clock shared by
the event detector and the analytics engine for this frame. -/
def process_frame (s : Settings) (pc : PolyContains) (st : PipelineState)
    (frame : Frame) (now : ℚ) (job_id : String := "") :
    FrameResult × PipelineState :=
  let frame_count := st.frame_count + 1
  let zone0 := ZoneEngine.set_frame_size st.zone frame.width frame.height
  if frame_count % s.SKIP_FRAMES ≠ 1 ∧ st.last_result.isSome then
    (st.last_result.getD default, { st with frame_count := frame_count, zone := zone0 })
  else
    let detections := frame.detections
    let tr := CentroidTracker.update s st.tracker detections
    let cz := ZoneEngine.check_zones pc zone0 tr.2
    let zone1 := cz.1
    let tracked := cz.2.1
    let entries := cz.2.2.2.1
    let exits := cz.2.2.2.2
    let proximity := ZoneEngine.detect_proximity s tracked
    let ev := EventDetector.detect_events s st.event_detector tracked entries exits
      proximity zone1.zones frame_count now job_id
    let an := ingest_frame st.analytics tracked ev.1 now
    let result : FrameResult :=
      { frame_number := frame_count
        detections := detections
        tracked_objects := tracked
        events := ev.1
        risk_score := an.1.1
        compliance_rate := an.1.2 }
    (result,
     { tracker := tr.1, zone := zone1, event_detector := ev.2, analytics := an.2,
       frame_count := frame_count, last_result := some result })

/-- zone_engine.py defines exactly the methods __init__, zones (a
property), add_zone, remove_zone, check_zones, detect_proximity and
reset; `set_frame_size` is not among them, and no other file of the
repository defines or injects it. -/
def zoneEngineHasSetFrameSize : Bool := false

/-- The runtime error classes the Python-level model distinguishes. -/
inductive PyError where
  | attributeError (msg : String)
deriving DecidableEq

/-- pipeline.py `Pipeline.process_frame` as the Python runtime actually
executes it: line 47 `self.zone_engine.set_frame_size(w, h)` performs an
attribute lookup on the ZoneEngine instance that fails (see
`zoneEngineHasSetFrameSize`), so the call raises AttributeError before
the frame-skip check at line 50 and before any component runs. -/
def process_frame_py (s : Settings) (pc : PolyContains) (st : PipelineState)
    (frame : Frame) (now : ℚ) (job_id : String := "") :
    Except PyError (FrameResult × PipelineState) :=
  if zoneEngineHasSetFrameSize then
    Except.ok (process_frame s pc st frame now job_id)
  else
    Except.error (.attributeError "ZoneEngine object has no attribute set_frame_size")

/-- pipeline.py `Pipeline.reset`: resets tracker, event detector,
analytics (whose reset re-reads the wall clock, `now`), the zone
engine's occupancy store (configured zones survive), the frame counter
and the cached result together. -/
def Pipeline.reset (st : PipelineState) (now : ℚ) : PipelineState :=
  { tracker := {}
    zone := ZoneEngine.reset st.zone
    event_detector := {}
    analytics := { start_time := now }
    frame_count := 0
    last_result := none }

/-- pipeline.py `Pipeline.process_video` lines 212-254 (video decoding
elided): reset the pipeline, then for each frame — given with the wall
clock at its processing — call process_frame, deliver the result to the
`on_frame` consumer and every event of `result.events` to the
`on_event` consumer.  The callbacks are modelled by collecting what
they are handed: the function returns the final pipeline state, the
delivered frame results in order, and the events delivered to
`on_event` in order. -/
def process_video (s : Settings) (pc : PolyContains) (st : PipelineState)
    (frames : List (Frame × ℚ)) (t0 : ℚ) (job_id : String := "") :
    PipelineState × List FrameResult × List Event :=
  let st0 := Pipeline.reset st t0
  frames.foldl (fun acc ft =>
    let r := process_frame s pc acc.1 ft.1 ft.2 job_id
    (r.2, acc.2.1 ++ [r.1], acc.2.2 ++ r.1.events))
    (st0, [], [])

/-! ## Concrete fixtures used by witnesses and counterexamples -/

/-- A containment oracle with no zone containing any point. -/
def noPoly : PolyContains := fun _ _ => false

/-- A 100×100 frame for which the detector returns nothing. -/
def emptyFrame : Frame := { width := 100, height := 100 }

/-- A cached previous result. -/
def cachedResult : FrameResult := { frame_number := 1 }

/-- A pipeline state one processed frame into a session, holding a
cached result. -/
def skipState : PipelineState := { frame_count := 1, last_result := some cachedResult }

/-- config.py settings with the skip interval set to 1. -/
def skip1Settings : Settings := { SKIP_FRAMES := 1 }

/-- A person detection at bbox (0,0,10,10), centroid (5,5). -/
def personDet : Detection := { class_name := .person, confidence := 1, bbox := (0, 0, 10, 10) }

/-- A person detection at bbox (200,200,210,210), centroid (205,205):
200√2 px from `personDet`, far beyond the 80px max link distance. -/
def farDet : Detection :=
  { class_name := .person, confidence := 1, bbox := (200, 200, 210, 210) }

/-- A car detection at bbox (20,0,30,10), centroid (25,5): 20px from
the person, well inside the 100px proximity threshold. -/
def carDet : Detection := { class_name := .car, confidence := 1, bbox := (20, 0, 30, 10) }

/-- A frame whose detections put a person and a car in proximity. -/
def pvFrame : Frame := { width := 100, height := 100, detections := [personDet, carDet] }

/-- The near-miss event the pipeline produces on frame 1 of `pvFrame`
runs (track 0 is the person, track 1 the car). -/
def pvNearMissEvent : Event :=
  { job_id := "", frame_number := 1, event_type := "near_miss", severity := .critical,
    track_id := some 0, zone_id := none, bbox := some (0, 0, 10, 10) }

/-- A person track with the given PPE status, as the tracker would hand
it to the event detector: not fallen (width 4 ≤ 1.3 × height 10), no
zones, zero velocity. -/
def ppePerson (tid : Nat) (st : PPEStatus) : TrackedObject :=
  { track_id := tid, class_name := .person, bbox := (0, 0, 4, 10),
    centroid := (2, 5), confidence := 1, ppe_status := st }

/-- The spec §8 scenario run: ten detect_events calls on one person,
hardhat-on for frames 1-9 and hardhat-off at frame 10, from a fresh
detector state, collecting every event produced. -/
def ppeScenarioEvents : List Event :=
  ((List.range 10).foldl (fun acc i =>
    let cur := if i < 9 then PPEStatus.hardhat_on else PPEStatus.hardhat_off
    let r := EventDetector.detect_events defaultSettings acc.2 [ppePerson 1 cur]
      [] [] [] [] (i + 1) ((i : ℚ) + 1) ""
    (acc.1 ++ r.1, r.2)) ([], ({} : EventState))).1

/-- A person track with the fallen flag as given (the tracker computes
the flag from the bounding-box aspect ratio; the event detector only
reads it): no zones, zero velocity, PPE unknown. -/
def fallenPersonObj (tid : Nat) (fl : Bool) : TrackedObject :=
  { track_id := tid, class_name := .person, bbox := (0, 0, 20, 10),
    centroid := (10, 5), confidence := 1, is_fallen := fl }

/-- Repeated detect_events calls on one person whose fallen flag runs
through `flags`, threading the detector state; collects every event
produced (the frame number and wall clock, irrelevant to the
fallen-worker rule, are fixed at 0). -/
def runFallen (s : Settings) (est : EventState) (tid : Nat) (flags : List Bool) :
    List Event × EventState :=
  flags.foldl (fun acc fl =>
    let r := EventDetector.detect_events s acc.2 [fallenPersonObj tid fl]
      [] [] [] [] 0 0 ""
    (acc.1 ++ r.1, r.2)) ([], est)

/-- The shape detect_events gives the detector state after one call on
a single person with no zones and no proximity pairs: last-seen PPE
upserted, loiter state dropped (the person is in no zone), near-miss
map untouched, and the given fallen counter/latch stores (used to state
the fallen-rule step lemmas). -/
def stepState (est : EventState) (tid : Nat) (cnt : Nat)
    (al : List (Nat × Bool)) : EventState :=
  { prev_ppe := upsert est.prev_ppe tid .unknown
    loiter_state := removeKey est.loiter_state tid
    near_miss_cooldown := est.near_miss_cooldown
    fallen_counts := upsert est.fallen_counts tid cnt
    fallen_alerted := al }

/-- A danger-type square zone fixture. -/
def dangerZone : ZoneConfig :=
  { id := "z1", name := "pit", zone_type := "danger",
    polygon := [(0, 0), (10, 0), (10, 10), (0, 10)] }

/-- A containment oracle for axis-aligned rectangles given as
[(x0,y0),(x1,y0),(x1,y1),(x0,y1)]: strict interior membership, the
behaviour shapely's `contains` gives on interior points. -/
def pcRect : PolyContains := fun poly p =>
  match poly with
  | [(x0, y0), _, (x1, y1), _] => decide (x0 < p.1 ∧ p.1 < x1 ∧ y0 < p.2 ∧ p.2 < y1)
  | _ => false

/-- A zone engine state holding just the danger zone. -/
def zoneStateFix : ZoneState := ZoneEngine.add_zone {} dangerZone

/-- A person track whose centroid (5,5) lies inside the fixture zone. -/
def objInZone : TrackedObject :=
  { track_id := 7, class_name := .person, bbox := (0, 0, 10, 10),
    centroid := (5, 5), confidence := 1 }

/-! ## Shared lemmas about the association-list operations -/

lemma lookupD_upsert {κ α : Type} [DecidableEq κ] (l : List (κ × α)) (k : κ) (v : α)
    (d : α) : lookupD (upsert l k v) k d = v := by
  induction l with
  | nil => simp [upsert, lookupD]
  | cons hd t ih =>
    by_cases h : hd.1 = k
    · simp [upsert, h, lookupD]
    · simp [upsert, h, lookupD, ih]

lemma lookupD_upsert_ne {κ α : Type} [DecidableEq κ] (l : List (κ × α)) (k k' : κ)
    (v : α) (d : α) (hne : k' ≠ k) : lookupD (upsert l k v) k' d = lookupD l k' d := by
  have hne2 : ¬ (k = k') := fun hh => hne (Eq.symm hh)
  induction l with
  | nil => simp [upsert, lookupD, hne2]
  | cons hd t ih =>
    by_cases h : hd.1 = k
    · subst h
      simp [upsert, lookupD, hne2]
    · simp only [upsert, if_neg h, lookupD]
      by_cases h2 : hd.1 = k'
      · simp [h2]
      · simp [h2, ih]

lemma upsert_of_not_mem {κ α : Type} [DecidableEq κ] (l : List (κ × α)) (k : κ) (v : α)
    (h : ¬ k ∈ l.map Prod.fst) : upsert l k v = l ++ [(k, v)] := by
  induction l with
  | nil => simp [upsert]
  | cons hd t ih =>
    simp only [List.map_cons, List.mem_cons, not_or] at h
    have hne : ¬ (hd.1 = k) := fun hh => h.1 (Eq.symm hh)
    simp [upsert, hne, ih h.2]

lemma keys_upsert_of_mem {κ α : Type} [DecidableEq κ] (l : List (κ × α)) (k : κ) (v : α)
    (h : k ∈ l.map Prod.fst) : (upsert l k v).map Prod.fst = l.map Prod.fst := by
  induction l with
  | nil => simp at h
  | cons hd t ih =>
    by_cases h1 : hd.1 = k
    · simp [upsert, h1]
    · simp only [List.map_cons, List.mem_cons] at h
      rcases h with h | h

      · exact absurd h.symm h1
      · simp [upsert, h1, ih h]

lemma keys_upsert_sub {κ α : Type} [DecidableEq κ] (l : List (κ × α)) (k k' : κ) (v : α)
    (h : k' ∈ (upsert l k v).map Prod.fst) : k' = k ∨ k' ∈ l.map Prod.fst := by
  by_cases hm : k ∈ l.map Prod.fst
  · rw [keys_upsert_of_mem l k v hm] at h
    exact Or.inr h
  · rw [upsert_of_not_mem l k v hm] at h
    simp only [List.map_append, List.mem_append, List.map_cons] at h
    rcases h with h | h
    · exact Or.inr h
    · simp at h
      exact Or.inl h

lemma mem_keys_upsert_self {κ α : Type} [DecidableEq κ] (l : List (κ × α)) (k : κ)
    (v : α) : k ∈ (upsert l k v).map Prod.fst := by
  by_cases hm : k ∈ l.map Prod.fst
  · rwa [keys_upsert_of_mem l k v hm]
  · rw [upsert_of_not_mem l k v hm]
    simp

lemma mem_keys_upsert_of_mem {κ α : Type} [DecidableEq κ] (l : List (κ × α)) (k k' : κ)
    (v : α) (h : k' ∈ l.map Prod.fst) : k' ∈ (upsert l k v).map Prod.fst := by
  by_cases hm : k ∈ l.map Prod.fst
  · rwa [keys_upsert_of_mem l k v hm]
  · rw [upsert_of_not_mem l k v hm]
    simp [h]

lemma nodup_keys_upsert {κ α : Type} [DecidableEq κ] (l : List (κ × α)) (k : κ) (v : α)
    (h : (l.map Prod.fst).Nodup) : ((upsert l k v).map Prod.fst).Nodup := by
  by_cases hm : k ∈ l.map Prod.fst
  · rwa [keys_upsert_of_mem l k v hm]
  · rw [upsert_of_not_mem l k v hm]
    simp only [List.map_append, List.map_cons, List.map_nil]
    exact List.Nodup.append h (List.nodup_singleton k) (by simpa using fun hk => hm hk)

lemma mem_upsert_of_mem_ne {κ α : Type} [DecidableEq κ] (l : List (κ × α)) (k : κ)
    (v : α) (kv : κ × α) (h : kv ∈ l) (hne : kv.1 ≠ k) : kv ∈ upsert l k v := by
  induction l with
  | nil => simp at h
  | cons hd t ih =>
    by_cases h1 : hd.1 = k
    · simp only [upsert, if_pos h1]
      rcases List.mem_cons.mp h with h | h
      · subst h
        exact absurd h1 hne
      · exact List.mem_cons_of_mem _ h
    · simp only [upsert, if_neg h1]
      rcases List.mem_cons.mp h with h | h
      · exact h ▸ List.mem_cons_self _ _
      · exact List.mem_cons_of_mem _ (ih h)

lemma keys_removeKey {κ α : Type} [DecidableEq κ] (l : List (κ × α)) (k k' : κ)
    (h : k' ∈ (removeKey l k).map Prod.fst) : k' ≠ k ∧ k' ∈ l.map Prod.fst := by
  simp only [removeKey] at h
  rcases List.mem_map.mp h with ⟨kv, hkv, hfst⟩
  have h2 := List.of_mem_filter hkv
  have h3 := List.mem_of_mem_filter hkv
  constructor
  · rw [← hfst]
    simpa using h2
  · exact hfst ▸ List.mem_map_of_mem Prod.fst h3

lemma nodup_keys_removeKey {κ α : Type} [DecidableEq κ] (l : List (κ × α)) (k : κ)
    (h : (l.map Prod.fst).Nodup) : ((removeKey l k).map Prod.fst).Nodup := by
  have hs : List.Sublist (removeKey l k) l := List.filter_sublist l
  exact List.Nodup.sublist (hs.map Prod.fst) h

lemma lookupD_eq_of_mem_nodup {κ α : Type} [DecidableEq κ] (l : List (κ × α))
    (kv : κ × α) (d : α) (h : kv ∈ l) (hnd : (l.map Prod.fst).Nodup) :
    lookupD l kv.1 d = kv.2 := by
  induction l with
  | nil => simp at h
  | cons hd t ih =>
    simp only [List.map_cons, List.nodup_cons] at hnd
    rcases List.mem_cons.mp h with h | h
    · subst h
      simp [lookupD]
    · have hne : hd.1 ≠ kv.1 := by
        intro he
        exact hnd.1 (he ▸ List.mem_map_of_mem Prod.fst h)
      simp [lookupD, hne, ih h hnd.2]

lemma lookup?_eq_none {κ α : Type} [DecidableEq κ] (l : List (κ × α)) (k : κ)
    (h : ¬ k ∈ l.map Prod.fst) : lookup? l k = none := by
  induction l with
  | nil => simp [lookup?]
  | cons hd t ih =>
    simp only [List.map_cons, List.mem_cons, not_or] at h
    have hne : ¬ (hd.1 = k) := fun hh => h.1 (Eq.symm hh)
    simp [lookup?, hne, ih h.2]

lemma lookup?_mem {κ α : Type} [DecidableEq κ] (l : List (κ × α)) (k : κ) (v : α)
    (h : lookup? l k = some v) : (k, v) ∈ l := by
  induction l with
  | nil => simp [lookup?] at h
  | cons hd t ih =>
    obtain ⟨k0, v0⟩ := hd
    by_cases h1 : k0 = k
    · simp only [lookup?, if_pos h1, Option.some.injEq] at h
      subst h1
      subst h
      exact List.mem_cons_self _ _
    · simp only [lookup?, if_neg h1] at h
      exact List.mem_cons_of_mem _ (ih h)

/-! ## C4: compliance rate and risk score -/

lemma compute_risk_bounds (t : List TrackedObject) (es : List Event) (c : ℚ)
    (_hc0 : 0 ≤ c) (hc1 : c ≤ 1) : 0 ≤ compute_risk t es c ∧ compute_risk t es c ≤ 100 := by
  simp only [compute_risk]
  constructor
  · refine le_min ?_ (by norm_num)
    have h1 : 0 ≤ (1 - c) * 40 := by nlinarith
    have h2 : (0:ℚ) ≤ min (((es.filter (fun e => e.event_type = "zone_entry")).length : ℚ) * 8) 25 :=
      le_min (by positivity) (by norm_num)
    have h3 : (0:ℚ) ≤ min (((es.filter (fun e => e.event_type = "near_miss")).length : ℚ) * 12.5) 25 :=
      le_min (by positivity) (by norm_num)
    have h4 : (0:ℚ) ≤ min (((t.filter (fun o => o.class_name = .person)).length : ℚ) * 1.5) 10 :=
      le_min (by positivity) (by norm_num)
    linarith
  · exact min_le_right _ _

/-- C4: `AnalyticsEngine.ingest_frame` returns (risk_score,
compliance_rate) where the compliance rate is (hardhat-on persons) /
(all persons), 1 when there are no person-class objects, and always in
[0,1]; and the risk score is min(100, (1−compliance)·40 +
min(8·zone_entries, 25) + min(12.5·near_misses, 25) +
min(1.5·persons, 10)), computed only from this frame's objects and
events (the formula reads nothing from the engine state), and always in
[0,100]. -/
theorem C4_ingest_frame_bounds (st : AnalyticsState)
    (tracked_objects : List TrackedObject) (events : List Event) (now : ℚ) :
    (ingest_frame st tracked_objects events now).1.2 =
      (if (tracked_objects.filter (fun o => o.class_name = .person)).isEmpty then 1
       else (((tracked_objects.filter (fun o => o.class_name = .person)).filter
                (fun p => p.ppe_status = .hardhat_on)).length : ℚ)
            / (tracked_objects.filter (fun o => o.class_name = .person)).length)
    ∧ 0 ≤ (ingest_frame st tracked_objects events now).1.2
    ∧ (ingest_frame st tracked_objects events now).1.2 ≤ 1
    ∧ (ingest_frame st tracked_objects events now).1.1 =
        min ((1 - (ingest_frame st tracked_objects events now).1.2) * 40
          + min (((events.filter (fun e => e.event_type = "zone_entry")).length : ℚ) * 8) 25
          + min (((events.filter (fun e => e.event_type = "near_miss")).length : ℚ) * 12.5) 25
          + min (((tracked_objects.filter (fun o => o.class_name = .person)).length : ℚ) * 1.5) 10)
          100
    ∧ 0 ≤ (ingest_frame st tracked_objects events now).1.1
    ∧ (ingest_frame st tracked_objects events now).1.1 ≤ 100 := by
  have hcomp : (ingest_frame st tracked_objects events now).1.2 =
      (if (tracked_objects.filter (fun o => o.class_name = .person)).isEmpty then 1
       else (((tracked_objects.filter (fun o => o.class_name = .person)).filter
                (fun p => p.ppe_status = .hardhat_on)).length : ℚ)
            / (tracked_objects.filter (fun o => o.class_name = .person)).length) := rfl
  have hrisk : (ingest_frame st tracked_objects events now).1.1 =
      compute_risk tracked_objects events (ingest_frame st tracked_objects events now).1.2 := rfl
  set persons := tracked_objects.filter (fun o => o.class_name = .person) with hp
  have h0 : 0 ≤ (ingest_frame st tracked_objects events now).1.2 := by
    rw [hcomp]
    split
    · norm_num
    · exact div_nonneg (by positivity) (by positivity)
  have h1 : (ingest_frame st tracked_objects events now).1.2 ≤ 1 := by
    rw [hcomp]
    split
    · norm_num
    · next hne =>
        have hpos : 0 < (persons.length : ℚ) := by
          have : persons ≠ [] := by simpa [List.isEmpty_iff] using hne
          have : 0 < persons.length := List.length_pos.mpr this
          exact_mod_cast this
        rw [div_le_one hpos]
        exact_mod_cast List.length_filter_le _ persons
  refine ⟨hcomp, h0, h1, ?_, ?_, ?_⟩
  · rw [hrisk]
    rfl
  · rw [hrisk]
    exact (compute_risk_bounds _ _ _ h0 h1).1
  · rw [hrisk]
    exact (compute_risk_bounds _ _ _ h0 h1).2

/-! ## C9: the frame-skip admission rule -/

lemma process_frame_skip (s : Settings) (pc : PolyContains) (st : PipelineState)
    (frame : Frame) (now : ℚ) (job_id : String) (r : FrameResult)
    (hmod : (st.frame_count + 1) % s.SKIP_FRAMES ≠ 1) (hlast : st.last_result = some r) :
    process_frame s pc st frame now job_id =
      (r, { st with frame_count := st.frame_count + 1,
                    zone := ZoneEngine.set_frame_size st.zone frame.width frame.height }) := by
  simp only [process_frame]
  rw [if_pos ⟨hmod, by simp [hlast]⟩]
  simp [hlast]

lemma process_frame_admit (s : Settings) (pc : PolyContains) (st : PipelineState)
    (frame : Frame) (now : ℚ) (job_id : String)
    (h : (st.frame_count + 1) % s.SKIP_FRAMES = 1 ∨ st.last_result = none) :
    (process_frame s pc st frame now job_id).1.frame_number = st.frame_count + 1
    ∧ (process_frame s pc st frame now job_id).2.last_result =
        some (process_frame s pc st frame now job_id).1 := by
  have hcond : ¬ ((st.frame_count + 1) % s.SKIP_FRAMES ≠ 1 ∧ st.last_result.isSome) := by
    rcases h with h | h
    · intro hc
      exact hc.1 h
    · intro hc
      rw [h] at hc
      simp at hc
  simp only [process_frame]
  rw [if_neg hcond]
  exact ⟨rfl, rfl⟩

lemma process_video_skip1_aux (s : Settings) (pc : PolyContains) (job_id : String)
    (h1 : s.SKIP_FRAMES = 1) (frames : List (Frame × ℚ)) :
    ∀ (st : PipelineState) (racc : List FrameResult) (eacc : List Event)
      (r : FrameResult), st.last_result = some r →
      (frames.foldl (fun acc ft =>
          let pr := process_frame s pc acc.1 ft.1 ft.2 job_id
          (pr.2, acc.2.1 ++ [pr.1], acc.2.2 ++ pr.1.events)) (st, racc, eacc)).2.1
        = racc ++ List.replicate frames.length r := by
  induction frames with
  | nil =>
    intro st racc eacc r hlast
    simp
  | cons f rest ih =>
    intro st racc eacc r hlast
    have hmod : (st.frame_count + 1) % s.SKIP_FRAMES ≠ 1 := by
      rw [h1]
      simp [Nat.mod_one]
    have hstep := process_frame_skip s pc st f.1 f.2 job_id r hmod hlast
    have hfst : (process_frame s pc st f.1 f.2 job_id).1 = r := by rw [hstep]
    have hlast2 : (process_frame s pc st f.1 f.2 job_id).2.last_result = some r := by
      rw [hstep]
      simpa using hlast
    have ih2 := ih (process_frame s pc st f.1 f.2 job_id).2
      (racc ++ [(process_frame s pc st f.1 f.2 job_id).1])
      (eacc ++ (process_frame s pc st f.1 f.2 job_id).1.events) r hlast2
    simp only [List.foldl_cons]
    rw [ih2, hfst]
    simp [List.replicate_succ]

/-- C9: `process_frame` admits a frame iff the incremented counter mod
SKIP_FRAMES equals 1 or no cached result exists — a skipped frame
returns the cached result unchanged (so its FrameResult carries the
last processed frame's frame_number, not the current count) and leaves
every component state untouched, while an admitted frame produces a
result numbered with the current count and caches it; consequently with
SKIP_FRAMES = 1 only the very first frame of a session is processed and
every later call returns the first frame's cached result. -/
theorem C9_frame_skip_admission (s : Settings) (pc : PolyContains) (st : PipelineState)
    (frame : Frame) (now : ℚ) (job_id : String) :
    (∀ r, (st.frame_count + 1) % s.SKIP_FRAMES ≠ 1 → st.last_result = some r →
      process_frame s pc st frame now job_id =
        (r, { st with frame_count := st.frame_count + 1,
                      zone := ZoneEngine.set_frame_size st.zone frame.width frame.height }))
    ∧ ((st.frame_count + 1) % s.SKIP_FRAMES = 1 ∨ st.last_result = none →
        (process_frame s pc st frame now job_id).1.frame_number = st.frame_count + 1
        ∧ (process_frame s pc st frame now job_id).2.last_result =
            some (process_frame s pc st frame now job_id).1)
    ∧ (∀ (frames : List (Frame × ℚ)) (t0 : ℚ), s.SKIP_FRAMES = 1 → frames ≠ [] →
        ∃ r1, (process_video s pc st frames t0 job_id).2.1 =
            List.replicate frames.length r1 ∧ r1.frame_number = 1) := by
  refine ⟨fun r hmod hlast => process_frame_skip s pc st frame now job_id r hmod hlast,
    fun h => process_frame_admit s pc st frame now job_id h, ?_⟩
  intro frames t0 h1 hne
  obtain ⟨f, rest, rfl⟩ : ∃ f rest, frames = f :: rest := by
    cases frames with
    | nil => exact absurd rfl hne
    | cons f rest => exact ⟨f, rest, rfl⟩
  set st0 := Pipeline.reset st t0 with hst0
  have hlast0 : st0.last_result = none := rfl
  have hadm := process_frame_admit s pc st0 f.1 f.2 job_id (Or.inr hlast0)
  set pr := process_frame s pc st0 f.1 f.2 job_id with hpr
  refine ⟨pr.1, ?_, ?_⟩
  · simp only [process_video, List.foldl_cons]
    have haux := process_video_skip1_aux s pc job_id h1 rest pr.2 [pr.1] pr.1.events pr.1
      hadm.2
    simp only [List.nil_append]
    rw [haux]
    simp [List.replicate_succ]
  · rw [hadm.1]
    rfl

/-- Witness for C9: the skip equation at a state holding a cached
result with counter 1 (2 % 3 ≠ 1), the admit equation on the first
frame of a fresh session, and the SKIP_FRAMES = 1 run on a one-frame
video. -/
theorem C9_frame_skip_admission_witness :
    (process_frame defaultSettings noPoly skipState emptyFrame 0 "" =
      (cachedResult, { skipState with
                       frame_count := skipState.frame_count + 1,
                       zone := ZoneEngine.set_frame_size skipState.zone
                         emptyFrame.width emptyFrame.height }))
    ∧ ((process_frame skip1Settings noPoly ({} : PipelineState) emptyFrame 0 "").1.frame_number
        = ({} : PipelineState).frame_count + 1)
    ∧ (∃ r1, (process_video skip1Settings noPoly ({} : PipelineState)
          [(emptyFrame, 0)] 0 "").2.1 = List.replicate 1 r1 ∧ r1.frame_number = 1) :=
  ⟨(C9_frame_skip_admission defaultSettings noPoly skipState emptyFrame 0 "").1 cachedResult
      (by decide) rfl,
   ((C9_frame_skip_admission skip1Settings noPoly {} emptyFrame 0 "").2.1 (Or.inr rfl)).1,
   (C9_frame_skip_admission skip1Settings noPoly {} emptyFrame 0 "").2.2 [(emptyFrame, 0)] 0 rfl
      (List.cons_ne_nil _ _)⟩

/-! ## C1: process_frame raises AttributeError on every call -/

/-- C1 (code bug): `Pipeline.process_frame` cannot return a FrameResult
— pipeline.py line 47 calls `self.zone_engine.set_frame_size(w, h)`,
a method ZoneEngine does not have (see `zoneEngineHasSetFrameSize`), so
the Python call raises AttributeError on every frame, before the
Tracker → ZoneEngine → EventDetector → AnalyticsEngine chain can run.
Evaluated here at a concrete input: the very first frame of a fresh
session. -/
theorem C1_process_frame_attribute_error :
    process_frame_py defaultSettings noPoly ({} : PipelineState) pvFrame 0 "" =
      Except.error (PyError.attributeError
        "ZoneEngine object has no attribute set_frame_size") := rfl

/-! ## C2: frame skip republishes the cached result, re-delivering events -/

/-- C2 counterexample: with the default skip interval 3, a near-miss
event produced on admitted frame 1 is handed to the `on_event` consumer
again when skipped frame 2 republishes the cached result — the same
event is delivered twice, refuting "process_video does not deliver an
event to the on_event consumer more than once". -/
theorem C2_counterexample :
    (process_video defaultSettings noPoly ({} : PipelineState)
        [(pvFrame, 100), (pvFrame, 101)] 0 "").2.2
      = [pvNearMissEvent, pvNearMissEvent] := by with_unfolding_all decide

lemma process_video_delivered_aux (s : Settings) (pc : PolyContains) (job_id : String)
    (frames : List (Frame × ℚ)) :
    ∀ (st : PipelineState) (racc : List FrameResult) (eacc : List Event),
      eacc = racc.flatMap (fun fr => fr.events) →
      (frames.foldl (fun acc ft =>
          let pr := process_frame s pc acc.1 ft.1 ft.2 job_id
          (pr.2, acc.2.1 ++ [pr.1], acc.2.2 ++ pr.1.events)) (st, racc, eacc)).2.2
        = ((frames.foldl (fun acc ft =>
            let pr := process_frame s pc acc.1 ft.1 ft.2 job_id
            (pr.2, acc.2.1 ++ [pr.1], acc.2.2 ++ pr.1.events)) (st, racc, eacc)).2.1).flatMap
            (fun fr => fr.events) := by
  induction frames with
  | nil =>
    intro st racc eacc h
    simpa using h
  | cons f rest ih =>
    intro st racc eacc h
    simp only [List.foldl_cons]
    exact ih _ _ _ (by simp [h])

/-- C2 (amended): only every Nth frame is run through
detection/tracking/zones/events/risk — an intervening frame returns the
previous admitted frame's full result unchanged and leaves every
component state untouched, so nothing is re-detected and no new events
are created; however `process_video` hands `result.events` of every
returned result to the `on_event` consumer, so the events of the last
admitted frame are delivered to `on_event` again on each following
skipped frame (up to N−1 repeat deliveries per event). -/
theorem C2_skip_republish_semantics (s : Settings) (pc : PolyContains)
    (st : PipelineState) (frame : Frame) (now : ℚ) (job_id : String) :
    (∀ r, (st.frame_count + 1) % s.SKIP_FRAMES ≠ 1 → st.last_result = some r →
      process_frame s pc st frame now job_id =
        (r, { st with frame_count := st.frame_count + 1,
                      zone := ZoneEngine.set_frame_size st.zone frame.width frame.height }))
    ∧ (∀ (frames : List (Frame × ℚ)) (t0 : ℚ),
        (process_video s pc st frames t0 job_id).2.2 =
          ((process_video s pc st frames t0 job_id).2.1).flatMap (fun fr => fr.events)) := by
  refine ⟨fun r hmod hlast => process_frame_skip s pc st frame now job_id r hmod hlast, ?_⟩
  intro frames t0
  simp only [process_video]
  exact process_video_delivered_aux s pc job_id frames _ [] [] rfl

/-- Witness for C2: the skip equation applied at a concrete cached
state, and the delivered-equals-flattened-results equation on the
concrete two-frame near-miss run. -/
theorem C2_skip_republish_semantics_witness :
    (process_frame defaultSettings noPoly skipState pvFrame 0 "" =
      (cachedResult, { skipState with
                       frame_count := skipState.frame_count + 1,
                       zone := ZoneEngine.set_frame_size skipState.zone
                         pvFrame.width pvFrame.height }))
    ∧ ((process_video defaultSettings noPoly ({} : PipelineState)
          [(pvFrame, 100), (pvFrame, 101)] 0 "").2.2 =
        ((process_video defaultSettings noPoly ({} : PipelineState)
          [(pvFrame, 100), (pvFrame, 101)] 0 "").2.1).flatMap (fun fr => fr.events)) :=
  ⟨(C2_skip_republish_semantics defaultSettings noPoly skipState pvFrame 0 "").1 cachedResult
      (by decide) rfl,
   (C2_skip_republish_semantics defaultSettings noPoly {} pvFrame 0 "").2
      [(pvFrame, 100), (pvFrame, 101)] 0⟩

/-! ## C6: near-miss cooldown -/

/-- C6: for a (person, vehicle) pair reported in proximity, the first
qualifying frame emits exactly one critical near_miss event and resets
the pair's cooldown clock to that frame's time; any further frame
reporting the same pair within the cooldown window emits nothing and
leaves the detector state unchanged; and the next frame at or past the
cooldown since the alert emits exactly one more. -/
theorem C6_near_miss_cooldown (s : Settings) (est : EventState) (p v : Nat) (d : ℚ)
    (f1 f2 f3 : Nat) (t1 t2 t3 : ℚ) (job : String)
    (h1 : s.NEAR_MISS_COOLDOWN ≤ t1 - lookupD est.near_miss_cooldown (p, v) 0)
    (h2 : t2 - t1 < s.NEAR_MISS_COOLDOWN)
    (h3 : s.NEAR_MISS_COOLDOWN ≤ t3 - t1) :
    (EventDetector.detect_events s est [] [] [] [(p, v, d)] [] f1 t1 job).1 =
      [{ job_id := job, frame_number := f1, event_type := "near_miss",
         severity := .critical, track_id := some p, bbox := none }]
    ∧ lookupD (EventDetector.detect_events s est [] [] [] [(p, v, d)] [] f1 t1
        job).2.near_miss_cooldown (p, v) 0 = t1
    ∧ (EventDetector.detect_events s
        (EventDetector.detect_events s est [] [] [] [(p, v, d)] [] f1 t1 job).2
        [] [] [] [(p, v, d)] [] f2 t2 job).1 = []
    ∧ (EventDetector.detect_events s
        (EventDetector.detect_events s est [] [] [] [(p, v, d)] [] f1 t1 job).2
        [] [] [] [(p, v, d)] [] f2 t2 job).2 =
      (EventDetector.detect_events s est [] [] [] [(p, v, d)] [] f1 t1 job).2
    ∧ (EventDetector.detect_events s
        (EventDetector.detect_events s
          (EventDetector.detect_events s est [] [] [] [(p, v, d)] [] f1 t1 job).2
          [] [] [] [(p, v, d)] [] f2 t2 job).2
        [] [] [] [(p, v, d)] [] f3 t3 job).1 =
      [{ job_id := job, frame_number := f3, event_type := "near_miss",
         severity := .critical, track_id := some p, bbox := none }] := by
  have e1 : EventDetector.detect_events s est [] [] [] [(p, v, d)] [] f1 t1 job =
      ([{ job_id := job, frame_number := f1, event_type := "near_miss",
          severity := .critical, track_id := some p, bbox := none }],
       { est with near_miss_cooldown := upsert est.near_miss_cooldown (p, v) t1 }) := by
    simp [EventDetector.detect_events, zoneEntryEvents, zoneExitEvents, nearMissStep,
      objMap, h1]
  have hlk : lookupD (upsert est.near_miss_cooldown (p, v) t1) (p, v) 0 = t1 :=
    lookupD_upsert est.near_miss_cooldown (p, v) t1 0
  have hcond2 : ¬ (s.NEAR_MISS_COOLDOWN ≤ t2 - t1) := not_le.mpr h2
  have e2 : EventDetector.detect_events s
      ({ est with near_miss_cooldown := upsert est.near_miss_cooldown (p, v) t1 })
      [] [] [] [(p, v, d)] [] f2 t2 job =
      ([], { est with near_miss_cooldown := upsert est.near_miss_cooldown (p, v) t1 }) := by
    simp [EventDetector.detect_events, zoneEntryEvents, zoneExitEvents, nearMissStep,
      hlk, hcond2]
  have e3 : EventDetector.detect_events s
      ({ est with near_miss_cooldown := upsert est.near_miss_cooldown (p, v) t1 })
      [] [] [] [(p, v, d)] [] f3 t3 job =
      ([{ job_id := job, frame_number := f3, event_type := "near_miss",
          severity := .critical, track_id := some p, bbox := none }],
       { est with near_miss_cooldown := upsert (upsert est.near_miss_cooldown (p, v) t1) (p, v) t3 }) := by
    simp [EventDetector.detect_events, zoneEntryEvents, zoneExitEvents, nearMissStep,
      objMap, hlk, h3]
  refine ⟨?_, ?_, ?_, ?_, ?_⟩
  · rw [e1]
  · rw [e1]
    exact hlk
  · rw [e1, e2]
  · rw [e1, e2]
  · rw [e1, e2, e3]

/-- Witness for C6: pair (0, 1) at distance² 400, fresh state, times
10 (fires), 12 (suppressed, within the 5s default cooldown), 20
(fires again). -/
theorem C6_near_miss_cooldown_witness :
    (EventDetector.detect_events defaultSettings ({} : EventState)
        [] [] [] [(0, 1, 400)] [] 1 10 "").1 =
      [{ job_id := "", frame_number := 1, event_type := "near_miss",
         severity := .critical, track_id := some 0, bbox := none }]
    ∧ (EventDetector.detect_events defaultSettings
        (EventDetector.detect_events defaultSettings ({} : EventState)
          [] [] [] [(0, 1, 400)] [] 1 10 "").2
        [] [] [] [(0, 1, 400)] [] 2 12 "").1 = []
    ∧ (EventDetector.detect_events defaultSettings
        (EventDetector.detect_events defaultSettings
          (EventDetector.detect_events defaultSettings ({} : EventState)
            [] [] [] [(0, 1, 400)] [] 1 10 "").2
          [] [] [] [(0, 1, 400)] [] 2 12 "").2
        [] [] [] [(0, 1, 400)] [] 3 20 "").1 =
      [{ job_id := "", frame_number := 3, event_type := "near_miss",
         severity := .critical, track_id := some 0, bbox := none }] := by
  have h := C6_near_miss_cooldown defaultSettings {} 0 1 400 1 2 3 10 12 20 ""
    (by norm_num [defaultSettings, lookupD]) (by norm_num [defaultSettings])
    (by norm_num [defaultSettings])
  exact ⟨h.1, h.2.2.1, h.2.2.2.2⟩

/-! ## C8: PPE transition events -/

/-- C8: for a person track, a hardhat-on→hardhat-off transition between
consecutive detect_events calls emits exactly one warning ppe_violation
and hardhat-off→hardhat-on exactly one info ppe_restored; any other
combination — in particular a first sighting, whose last-seen status
defaults to unknown — emits neither; and the last-seen status is
updated to the current status on every call regardless.  The final
conjunct is the spec §8 scenario: hardhat-on for frames 1–9 and
hardhat-off at frame 10 yields exactly one ppe_violation, at frame
10. -/
theorem C8_ppe_transitions (s : Settings) (est : EventState) (tid : Nat)
    (cur : PPEStatus) (f : Nat) (now : ℚ) (job : String) :
    ((EventDetector.detect_events s est [ppePerson tid cur] [] [] [] [] f now job).1.filter
        (fun e => e.event_type = "ppe_violation") =
      (if lookupD est.prev_ppe tid .unknown = .hardhat_on ∧ cur = .hardhat_off then
        [{ job_id := job, frame_number := f, event_type := "ppe_violation",
           severity := .warning, track_id := some tid, bbox := some (0, 0, 4, 10) }]
       else []))
    ∧ ((EventDetector.detect_events s est [ppePerson tid cur] [] [] [] [] f now job).1.filter
        (fun e => e.event_type = "ppe_restored") =
      (if lookupD est.prev_ppe tid .unknown = .hardhat_off ∧ cur = .hardhat_on then
        [{ job_id := job, frame_number := f, event_type := "ppe_restored",
           severity := .info, track_id := some tid, bbox := some (0, 0, 4, 10) }]
       else []))
    ∧ lookupD (EventDetector.detect_events s est [ppePerson tid cur] [] [] [] [] f now
        job).2.prev_ppe tid .unknown = cur
    ∧ ppeScenarioEvents =
      [{ job_id := "", frame_number := 10, event_type := "ppe_violation",
         severity := .warning, track_id := some 1, bbox := some (0, 0, 4, 10) }] := by
  refine ⟨?_, ?_, ?_, by with_unfolding_all decide⟩
  · simp only [EventDetector.detect_events, List.foldl_cons, List.foldl_nil, ppeStep,
      loiterStep, nearMissStep, fallenStep, zoneEntryEvents, zoneExitEvents,
      List.flatMap_nil, ppePerson]
    simp only [List.nil_append, List.append_nil]
    split_ifs <;> simp_all [List.filter_append]
  · simp only [EventDetector.detect_events, List.foldl_cons, List.foldl_nil, ppeStep,
      loiterStep, nearMissStep, fallenStep, zoneEntryEvents, zoneExitEvents,
      List.flatMap_nil, ppePerson]
    simp only [List.nil_append, List.append_nil]
    split_ifs <;> simp_all [List.filter_append]
  · simp only [EventDetector.detect_events, List.foldl_cons, List.foldl_nil, ppeStep,
      loiterStep, nearMissStep, fallenStep, zoneEntryEvents, zoneExitEvents,
      List.flatMap_nil, ppePerson]
    split_ifs <;> simp_all [lookupD_upsert]

/-! ## C7: fallen-worker counter and latch -/

lemma fallen_step_eq (s : Settings) (est : EventState) (tid : Nat) (fl : Bool)
    (hK : 1 ≤ s.FALLEN_FRAME_COUNT) :
    EventDetector.detect_events s est [fallenPersonObj tid fl] [] [] [] [] 0 0 "" =
      ((if fl ∧ lookupD est.fallen_alerted tid false = false
           ∧ s.FALLEN_FRAME_COUNT ≤ lookupD est.fallen_counts tid 0 + 1
        then [{ job_id := "", frame_number := 0, event_type := "fallen_worker",
                severity := .critical, track_id := some tid, bbox := some (0, 0, 20, 10) }]
        else []),
       { prev_ppe := upsert est.prev_ppe tid .unknown
         loiter_state := removeKey est.loiter_state tid
         near_miss_cooldown := est.near_miss_cooldown
         fallen_counts := upsert est.fallen_counts tid
           (if fl then lookupD est.fallen_counts tid 0 + 1 else 0)
         fallen_alerted :=
           if fl then
             (if lookupD est.fallen_alerted tid false = false
                 ∧ s.FALLEN_FRAME_COUNT ≤ lookupD est.fallen_counts tid 0 + 1
              then upsert est.fallen_alerted tid true else est.fallen_alerted)
           else upsert est.fallen_alerted tid false }) := by
  have hK0 : ¬ (s.FALLEN_FRAME_COUNT ≤ 0) := by omega
  cases fl with
  | false =>
    simp only [EventDetector.detect_events, List.foldl_cons, List.foldl_nil, ppeStep,
      loiterStep, nearMissStep, fallenStep, zoneEntryEvents, zoneExitEvents,
      List.flatMap_nil, fallenPersonObj]
    simp [lookupD_upsert, hK0]
  | true =>
    simp only [EventDetector.detect_events, List.foldl_cons, List.foldl_nil, ppeStep,
      loiterStep, nearMissStep, fallenStep, zoneEntryEvents, zoneExitEvents,
      List.flatMap_nil, fallenPersonObj]
    by_cases ha : lookupD est.fallen_alerted tid false = false
    · by_cases hc : s.FALLEN_FRAME_COUNT ≤ lookupD est.fallen_counts tid 0 + 1
      · simp [lookupD_upsert, ha, hc]
      · simp [lookupD_upsert, ha, hc]
    · simp [lookupD_upsert, ha]

lemma runFallen_acc (s : Settings) (tid : Nat) (flags : List Bool) :
    ∀ (est : EventState) (a : List Event),
      (flags.foldl (fun acc fl =>
        let r := EventDetector.detect_events s acc.2 [fallenPersonObj tid fl]
          [] [] [] [] 0 0 ""
        (acc.1 ++ r.1, r.2)) (a, est))
      = (a ++ (runFallen s est tid flags).1, (runFallen s est tid flags).2) := by
  induction flags with
  | nil =>
    intro est a
    simp [runFallen]
  | cons fl rest ih =>
    intro est a
    simp only [runFallen, List.foldl_cons]
    rw [ih, ih]
    simp

lemma runFallen_cons (s : Settings) (tid : Nat) (fl : Bool) (rest : List Bool)
    (est : EventState) :
    runFallen s est tid (fl :: rest) =
      ((EventDetector.detect_events s est [fallenPersonObj tid fl] [] [] [] [] 0 0 "").1
         ++ (runFallen s (EventDetector.detect_events s est [fallenPersonObj tid fl]
              [] [] [] [] 0 0 "").2 tid rest).1,
       (runFallen s (EventDetector.detect_events s est [fallenPersonObj tid fl]
          [] [] [] [] 0 0 "").2 tid rest).2) := by
  simp only [runFallen, List.foldl_cons]
  rw [runFallen_acc]
  simp [runFallen]

lemma runFallen_concat (s : Settings) (tid : Nat) (xs ys : List Bool) (est : EventState) :
    runFallen s est tid (xs ++ ys) =
      ((runFallen s est tid xs).1
         ++ (runFallen s (runFallen s est tid xs).2 tid ys).1,
       (runFallen s (runFallen s est tid xs).2 tid ys).2) := by
  simp only [runFallen, List.foldl_append]
  rw [runFallen_acc]
  simp [runFallen]

lemma fallen_step_true_fire (s : Settings) (est : EventState) (tid : Nat)
    (hK : 1 ≤ s.FALLEN_FRAME_COUNT)
    (hA : lookupD est.fallen_alerted tid false = false)
    (hC : s.FALLEN_FRAME_COUNT ≤ lookupD est.fallen_counts tid 0 + 1) :
    EventDetector.detect_events s est [fallenPersonObj tid true] [] [] [] [] 0 0 "" =
      ([{ job_id := "", frame_number := 0, event_type := "fallen_worker",
          severity := .critical, track_id := some tid, bbox := some (0, 0, 20, 10) }],
       stepState est tid (lookupD est.fallen_counts tid 0 + 1)
         (upsert est.fallen_alerted tid true)) := by
  rw [fallen_step_eq s est tid true hK]
  simp [stepState, hA, hC]

lemma fallen_step_true_quiet (s : Settings) (est : EventState) (tid : Nat)
    (hK : 1 ≤ s.FALLEN_FRAME_COUNT)
    (hQ : ¬ (lookupD est.fallen_alerted tid false = false
        ∧ s.FALLEN_FRAME_COUNT ≤ lookupD est.fallen_counts tid 0 + 1)) :
    EventDetector.detect_events s est [fallenPersonObj tid true] [] [] [] [] 0 0 "" =
      ([], stepState est tid (lookupD est.fallen_counts tid 0 + 1) est.fallen_alerted) := by
  rw [fallen_step_eq s est tid true hK]
  simp [stepState, hQ]

lemma fallen_step_false (s : Settings) (est : EventState) (tid : Nat)
    (hK : 1 ≤ s.FALLEN_FRAME_COUNT) :
    EventDetector.detect_events s est [fallenPersonObj tid false] [] [] [] [] 0 0 "" =
      ([], stepState est tid 0 (upsert est.fallen_alerted tid false)) := by
  rw [fallen_step_eq s est tid false hK]
  simp [stepState]

lemma runFallen_replicate_true (s : Settings) (tid : Nat)
    (hK : 1 ≤ s.FALLEN_FRAME_COUNT) :
    ∀ (k : Nat) (est : EventState),
      ((runFallen s est tid (List.replicate k true)).1.length =
        (if lookupD est.fallen_alerted tid false = false ∧ 1 ≤ k
            ∧ s.FALLEN_FRAME_COUNT ≤ lookupD est.fallen_counts tid 0 + k
         then 1 else 0))
      ∧ lookupD (runFallen s est tid (List.replicate k true)).2.fallen_counts tid 0 =
          lookupD est.fallen_counts tid 0 + k
      ∧ (lookupD (runFallen s est tid (List.replicate k true)).2.fallen_alerted tid false
           = true ↔
         (lookupD est.fallen_alerted tid false = true ∨
          (1 ≤ k ∧ s.FALLEN_FRAME_COUNT ≤ lookupD est.fallen_counts tid 0 + k))) := by
  intro k
  induction k with
  | zero =>
    intro est
    simp [runFallen]
  | succ k ih =>
    intro est
    by_cases hA : lookupD est.fallen_alerted tid false = false
    · by_cases hC : s.FALLEN_FRAME_COUNT ≤ lookupD est.fallen_counts tid 0 + 1
      · -- the alert fires on this frame and latches
        rw [List.replicate_succ, runFallen_cons, fallen_step_true_fire s est tid hK hA hC]
        dsimp only
        simp only [stepState]
        obtain ⟨ih1, ih2, ih3⟩ := ih (stepState est tid
          (lookupD est.fallen_counts tid 0 + 1) (upsert est.fallen_alerted tid true))
        simp only [stepState, lookupD_upsert] at ih1 ih2 ih3
        simp only [Bool.true_eq_false, false_and, if_false] at ih1
        simp only [eq_self_iff_true, true_or, iff_true] at ih3
        refine ⟨?_, ?_, ?_⟩
        · rw [List.length_append, ih1]
          simp only [List.length_cons, List.length_nil]
          rw [if_pos ⟨hA, by omega, by omega⟩]
        · rw [ih2]
          omega
        · rw [ih3]
          simp only [true_iff]
          exact Or.inr ⟨by omega, by omega⟩
      · -- counter below threshold: no event, latch stays clear
        rw [List.replicate_succ, runFallen_cons,
          fallen_step_true_quiet s est tid hK (by tauto)]
        dsimp only
        simp only [stepState]
        obtain ⟨ih1, ih2, ih3⟩ := ih (stepState est tid
          (lookupD est.fallen_counts tid 0 + 1) est.fallen_alerted)
        simp only [stepState, lookupD_upsert] at ih1 ih2 ih3
        refine ⟨?_, ?_, ?_⟩
        · rw [List.nil_append, ih1]
          simp only [hA, eq_self_iff_true, true_and]
          split_ifs <;> omega
        · rw [ih2]
          omega
        · rw [ih3]
          simp only [hA, Bool.false_eq_true, false_or]
          omega
    · -- already latched: no event can fire
      have hA2 : lookupD est.fallen_alerted tid false = true := by
        simpa using hA
      rw [List.replicate_succ, runFallen_cons,
        fallen_step_true_quiet s est tid hK (by tauto)]
      dsimp only
      simp only [stepState]
      obtain ⟨ih1, ih2, ih3⟩ := ih (stepState est tid
        (lookupD est.fallen_counts tid 0 + 1) est.fallen_alerted)
      simp only [stepState, lookupD_upsert] at ih1 ih2 ih3
      refine ⟨?_, ?_, ?_⟩
      · rw [List.nil_append, ih1]
        simp [hA2]
      · rw [ih2]
        omega
      · rw [ih3]
        simp [hA2]

lemma runFallen_events_shape (s : Settings) (tid : Nat)
    (hK : 1 ≤ s.FALLEN_FRAME_COUNT) :
    ∀ (flags : List Bool) (est : EventState),
      ∀ e ∈ (runFallen s est tid flags).1,
        e = { job_id := "", frame_number := 0, event_type := "fallen_worker",
              severity := .critical, track_id := some tid, bbox := some (0, 0, 20, 10) } := by
  intro flags
  induction flags with
  | nil =>
    intro est e he
    simp [runFallen] at he
  | cons fl rest ih =>
    intro est e he
    rw [runFallen_cons] at he
    rcases List.mem_append.mp he with h | h
    · rw [fallen_step_eq s est tid fl hK] at h
      dsimp only at h
      split at h
      · simpa using h
      · simp at h
    · exact ih _ e h

/-- C7: the fallen-worker rule from a fresh state — a run of n
consecutive fallen frames produces exactly one critical fallen_worker
alert iff n reaches the configured threshold; after a non-fallen frame
(which resets the counter to 0 and clears the latch — last two
conjuncts) a second run of m fallen frames produces exactly one more
alert iff m reaches the threshold; and every event such a run produces
is the critical fallen_worker event for that track. -/
theorem C7_fallen_worker_latch (s : Settings) (tid : Nat) (n m : Nat)
    (hK : 1 ≤ s.FALLEN_FRAME_COUNT) :
    ((runFallen s {} tid (List.replicate n true)).1.length =
      if s.FALLEN_FRAME_COUNT ≤ n then 1 else 0)
    ∧ ((runFallen s {} tid
        (List.replicate n true ++ false :: List.replicate m true)).1.length =
      (if s.FALLEN_FRAME_COUNT ≤ n then 1 else 0) +
      (if s.FALLEN_FRAME_COUNT ≤ m then 1 else 0))
    ∧ (∀ e ∈ (runFallen s {} tid
          (List.replicate n true ++ false :: List.replicate m true)).1,
        e.event_type = "fallen_worker" ∧ e.severity = .critical ∧ e.track_id = some tid)
    ∧ lookupD (runFallen s {} tid
        (List.replicate n true ++ [false])).2.fallen_counts tid 0 = 0
    ∧ lookupD (runFallen s {} tid
        (List.replicate n true ++ [false])).2.fallen_alerted tid false = false := by
  have hz1 : lookupD ({} : EventState).fallen_alerted tid false = false := rfl
  have hz2 : lookupD ({} : EventState).fallen_counts tid 0 = 0 := rfl
  obtain ⟨hn1, hn2, _hn3⟩ := runFallen_replicate_true s tid hK n ({} : EventState)
  simp only [hz1, hz2] at hn1 hn2
  have hcount1 : (runFallen s {} tid (List.replicate n true)).1.length =
      if s.FALLEN_FRAME_COUNT ≤ n then 1 else 0 := by
    rw [hn1]
    simp only [eq_self_iff_true, true_and, Nat.zero_add]
    split_ifs <;> omega
  have hfalse : runFallen s (runFallen s {} tid (List.replicate n true)).2 tid [false] =
      ([], stepState (runFallen s {} tid (List.replicate n true)).2 tid 0
        (upsert (runFallen s {} tid (List.replicate n true)).2.fallen_alerted tid false)) := by
    rw [show ([false] : List Bool) = false :: [] from rfl, runFallen_cons,
      fallen_step_false s _ tid hK]
    dsimp only
    simp [runFallen]
  have hs2c : lookupD (stepState (runFallen s {} tid (List.replicate n true)).2 tid 0
      (upsert (runFallen s {} tid (List.replicate n true)).2.fallen_alerted tid
        false)).fallen_counts tid 0 = 0 := by
    simp [stepState, lookupD_upsert]
  have hs2a : lookupD (stepState (runFallen s {} tid (List.replicate n true)).2 tid 0
      (upsert (runFallen s {} tid (List.replicate n true)).2.fallen_alerted tid
        false)).fallen_alerted tid false = false := by
    simp [stepState, lookupD_upsert]
  obtain ⟨hm1, _hm2, _hm3⟩ := runFallen_replicate_true s tid hK m
    (stepState (runFallen s {} tid (List.replicate n true)).2 tid 0
      (upsert (runFallen s {} tid (List.replicate n true)).2.fallen_alerted tid false))
  simp only [hs2c, hs2a] at hm1
  have hcount2 : (runFallen s
      (stepState (runFallen s {} tid (List.replicate n true)).2 tid 0
        (upsert (runFallen s {} tid (List.replicate n true)).2.fallen_alerted tid false))
      tid (List.replicate m true)).1.length =
      if s.FALLEN_FRAME_COUNT ≤ m then 1 else 0 := by
    rw [hm1]
    simp only [eq_self_iff_true, true_and, Nat.zero_add]
    split_ifs <;> omega
  refine ⟨hcount1, ?_, ?_, ?_, ?_⟩
  · rw [show List.replicate n true ++ false :: List.replicate m true =
        List.replicate n true ++ (false :: List.replicate m true) from rfl,
      runFallen_concat]
    dsimp only
    rw [List.length_append, hcount1, runFallen_cons, fallen_step_false s _ tid hK]
    dsimp only
    rw [List.nil_append, hcount2]
  · intro e he
    have := runFallen_events_shape s tid hK
      (List.replicate n true ++ false :: List.replicate m true) {} e he
    rw [this]
    exact ⟨rfl, rfl, rfl⟩
  · rw [runFallen_concat]
    dsimp only
    rw [hfalse]
    dsimp only
    exact hs2c
  · rw [runFallen_concat]
    dsimp only
    rw [hfalse]
    dsimp only
    exact hs2a

/-- Witness for C7 at the default threshold 5: a 5-frame fall produces
one alert, and a 5-frame fall, a recovery frame, then a 6-frame fall
produce two alerts in total. -/
theorem C7_fallen_worker_latch_witness :
    ((runFallen defaultSettings {} 7 (List.replicate 5 true)).1.length = 1)
    ∧ ((runFallen defaultSettings {} 7
        (List.replicate 5 true ++ false :: List.replicate 6 true)).1.length = 2) := by
  have h := C7_fallen_worker_latch defaultSettings 7 5 6 (by norm_num [defaultSettings])
  constructor
  · rw [h.1]
    norm_num [defaultSettings]
  · rw [h.2.1]
    norm_num [defaultSettings]

/-! ## C5 and C10: zone occupancy diffing and zone events -/

lemma append_ite_single_filter {β γ : Type} (acc : List γ) (P : β → Bool) (f : β → γ)
    (o : β) (rest : List β) :
    acc ++ ((if P o then [] else [f o]) ++ (rest.filter (fun x => ¬ P x)).map f) =
    acc ++ ((o :: rest).filter (fun x => ¬ P x)).map f := by
  by_cases h : P o
  · simp [List.filter_cons, h]
  · simp [List.filter_cons, h]

lemma check_zones_foldl (pc : PolyContains) (st : ZoneState) :
    ∀ (objs : List TrackedObject) (accO : List TrackedObject)
      (accC accE accX : List (Nat × List String)),
      (objs.map (fun o => o.track_id)).Nodup →
      (∀ o ∈ objs, ¬ o.track_id ∈ accC.map Prod.fst) →
      (∀ o ∈ objs, ¬ o.track_id ∈ accE.map Prod.fst) →
      (∀ o ∈ objs, ¬ o.track_id ∈ accX.map Prod.fst) →
      objs.foldl (czStep pc st) (accO, accC, accE, accX) =
        (accO ++ objs.map (fun o => { o with in_zones := zonesOf pc st.zones o.centroid }),
         accC ++ objs.map (fun o => (o.track_id, zonesOf pc st.zones o.centroid)),
         accE ++ (objs.filter (fun o => ¬ (enteredOf pc st o).isEmpty)).map
           (fun o => (o.track_id, enteredOf pc st o)),
         accX ++ (objs.filter (fun o => ¬ (exitedOf pc st o).isEmpty)).map
           (fun o => (o.track_id, exitedOf pc st o))) := by
  intro objs
  induction objs with
  | nil =>
    intro accO accC accE accX _ _ _ _
    simp
  | cons o rest ih =>
    intro accO accC accE accX hnd hC hE hX
    have hndr : (rest.map (fun o => o.track_id)).Nodup := by
      simpa using (List.nodup_cons.mp (by simpa using hnd)).2
    have hho : ¬ o.track_id ∈ rest.map (fun o => o.track_id) :=
      (List.nodup_cons.mp (by simpa using hnd)).1
    have hCo := hC o (List.mem_cons_self o rest)
    have hEo := hE o (List.mem_cons_self o rest)
    have hXo := hX o (List.mem_cons_self o rest)
    simp only [List.foldl_cons, czStep]
    rw [upsert_of_not_mem accC o.track_id _ hCo]
    have hstepE : (if (enteredOf pc st o).isEmpty then accE
        else upsert accE o.track_id (enteredOf pc st o)) =
        accE ++ (if (enteredOf pc st o).isEmpty then []
          else [(o.track_id, enteredOf pc st o)]) := by
      split_ifs with h
      · simp
      · rw [upsert_of_not_mem accE o.track_id _ hEo]
    have hstepX : (if (exitedOf pc st o).isEmpty then accX
        else upsert accX o.track_id (exitedOf pc st o)) =
        accX ++ (if (exitedOf pc st o).isEmpty then []
          else [(o.track_id, exitedOf pc st o)]) := by
      split_ifs with h
      · simp
      · rw [upsert_of_not_mem accX o.track_id _ hXo]
    rw [hstepE, hstepX]
    rw [ih _ _ _ _ hndr ?hC2 ?hE2 ?hX2]
    · simp only [Prod.mk.injEq, List.map_cons]
      refine ⟨?_, ?_, ?_, ?_⟩
      · simp
      · simp
      · rw [List.append_assoc]
        exact append_ite_single_filter accE (fun x => (enteredOf pc st x).isEmpty)
          (fun x => (x.track_id, enteredOf pc st x)) o rest
      · rw [List.append_assoc]
        exact append_ite_single_filter accX (fun x => (exitedOf pc st x).isEmpty)
          (fun x => (x.track_id, exitedOf pc st x)) o rest
    case hC2 =>
      intro o' ho'
      simp only [List.map_append, List.mem_append]
      rintro (h | h)
      · exact hC o' (List.mem_cons_of_mem _ ho') h
      · simp only [List.map_cons, List.map_nil, List.mem_singleton] at h
        exact hho (h ▸ List.mem_map_of_mem (fun o => o.track_id) ho')
    case hE2 =>
      intro o' ho'
      simp only [List.map_append, List.mem_append]
      rintro (h | h)
      · exact hE o' (List.mem_cons_of_mem _ ho') h
      · rcases List.mem_map.mp h with ⟨kv, hkv, hfst⟩
        split at hkv
        · simp at hkv
        · simp only [List.mem_singleton] at hkv
          subst hkv
          dsimp only at hfst
          exact hho (by rw [hfst]; exact List.mem_map_of_mem (fun o => o.track_id) ho')
    case hX2 =>
      intro o' ho'
      simp only [List.map_append, List.mem_append]
      rintro (h | h)
      · exact hX o' (List.mem_cons_of_mem _ ho') h
      · rcases List.mem_map.mp h with ⟨kv, hkv, hfst⟩
        split at hkv
        · simp at hkv
        · simp only [List.mem_singleton] at hkv
          subst hkv
          dsimp only at hfst
          exact hho (by rw [hfst]; exact List.mem_map_of_mem (fun o => o.track_id) ho')

lemma check_zones_spec (pc : PolyContains) (st : ZoneState)
    (objs : List TrackedObject) (hnd : (objs.map (fun o => o.track_id)).Nodup) :
    ZoneEngine.check_zones pc st objs =
      ({ st with prev_occupancy :=
          objs.map (fun o => (o.track_id, zonesOf pc st.zones o.centroid)) },
       objs.map (fun o => { o with in_zones := zonesOf pc st.zones o.centroid }),
       objs.map (fun o => (o.track_id, zonesOf pc st.zones o.centroid)),
       (objs.filter (fun o => ¬ (enteredOf pc st o).isEmpty)).map
         (fun o => (o.track_id, enteredOf pc st o)),
       (objs.filter (fun o => ¬ (exitedOf pc st o).isEmpty)).map
         (fun o => (o.track_id, exitedOf pc st o))) := by
  simp only [ZoneEngine.check_zones]
  rw [check_zones_foldl pc st objs [] [] [] [] hnd (by simp) (by simp) (by simp)]
  simp

lemma ppe_fold_events (job : String) (f : Nat) :
    ∀ (objs : List TrackedObject) (acc : List Event × List (Nat × PPEStatus)),
      ∀ e ∈ (objs.foldl (ppeStep job f) acc).1,
        e ∈ acc.1 ∨ e.event_type = "ppe_violation" ∨ e.event_type = "ppe_restored" := by
  intro objs
  induction objs with
  | nil =>
    intro acc e he
    exact Or.inl he
  | cons o rest ih =>
    intro acc e he
    rw [List.foldl_cons] at he
    rcases ih _ e he with h | h
    · simp only [ppeStep] at h
      split at h
      · exact Or.inl h
      · rcases List.mem_append.mp h with h | h
        · exact Or.inl h
        · split at h
          · simp only [List.mem_singleton] at h
            subst h
            exact Or.inr (Or.inl rfl)
          · split at h
            · simp only [List.mem_singleton] at h
              subst h
              exact Or.inr (Or.inr rfl)
            · simp at h
    · exact Or.inr h

lemma loiter_fold_events (s : Settings) (job : String) (f : Nat) (now : ℚ) :
    ∀ (objs : List TrackedObject) (acc : List Event × List (Nat × (ℚ × ℚ))),
      ∀ e ∈ (objs.foldl (loiterStep s job f now) acc).1,
        e ∈ acc.1 ∨ e.event_type = "loitering" := by
  intro objs
  induction objs with
  | nil =>
    intro acc e he
    exact Or.inl he
  | cons o rest ih =>
    intro acc e he
    rw [List.foldl_cons] at he
    rcases ih _ e he with h | h
    · simp only [loiterStep] at h
      split at h
      · exact Or.inl h
      · split at h
        · exact Or.inl h
        · split at h
          · split at h
            · exact Or.inl h
            · split at h
              · rcases List.mem_append.mp h with h | h
                · exact Or.inl h
                · simp only [List.mem_singleton] at h
                  subst h
                  exact Or.inr rfl
              · exact Or.inl h
          · exact Or.inl h
    · exact Or.inr h

lemma nearMiss_fold_events (s : Settings) (job : String) (f : Nat) (now : ℚ)
    (objs : List TrackedObject) :
    ∀ (prs : List (Nat × Nat × ℚ)) (acc : List Event × List ((Nat × Nat) × ℚ)),
      ∀ e ∈ (prs.foldl (nearMissStep s job f now objs) acc).1,
        e ∈ acc.1 ∨ e.event_type = "near_miss" := by
  intro prs
  induction prs with
  | nil =>
    intro acc e he
    exact Or.inl he
  | cons pr rest ih =>
    intro acc e he
    rw [List.foldl_cons] at he
    rcases ih _ e he with h | h
    · simp only [nearMissStep] at h
      split at h
      · rcases List.mem_append.mp h with h | h
        · exact Or.inl h
        · simp only [List.mem_singleton] at h
          subst h
          exact Or.inr rfl
      · exact Or.inl h
    · exact Or.inr h

lemma fallen_fold_events (s : Settings) (job : String) (f : Nat) :
    ∀ (objs : List TrackedObject) (acc : List Event × List (Nat × Nat) × List (Nat × Bool)),
      ∀ e ∈ (objs.foldl (fallenStep s job f) acc).1,
        e ∈ acc.1 ∨ e.event_type = "fallen_worker" := by
  intro objs
  induction objs with
  | nil =>
    intro acc e he
    exact Or.inl he
  | cons o rest ih =>
    intro acc e he
    rw [List.foldl_cons] at he
    rcases ih _ e he with h | h
    · simp only [fallenStep] at h
      split at h
      · exact Or.inl h
      · split at h
        all_goals (
          split at h
          · dsimp only at h
            rcases List.mem_append.mp h with h2 | h2
            · exact Or.inl h2
            · simp only [List.mem_singleton] at h2
              subst h2
              exact Or.inr rfl
          · dsimp only at h
            exact Or.inl h)
    · exact Or.inr h

lemma zoneEntryEvents_mem (job : String) (f : Nat) (objs : List TrackedObject)
    (zones : List (String × ZoneConfig)) (entries : List (Nat × List String)) :
    ∀ e ∈ zoneEntryEvents job f objs zones entries,
      e.event_type = "zone_entry"
      ∧ e.severity = (if zoneTypeOf zones (e.zone_id.getD "") = "danger"
          then Severity.critical else Severity.warning)
      ∧ (∃ te ∈ entries, e.track_id = some te.1) := by
  intro e he
  simp only [zoneEntryEvents, List.mem_flatMap, List.mem_map] at he
  obtain ⟨te, hte, zid, _hzid, rfl⟩ := he
  exact ⟨rfl, by simp, te, hte, rfl⟩

lemma zoneExitEvents_mem (job : String) (f : Nat) (objs : List TrackedObject)
    (exits : List (Nat × List String)) :
    ∀ e ∈ zoneExitEvents job f objs exits,
      e.event_type = "zone_exit" ∧ e.severity = Severity.info
      ∧ (∃ te ∈ exits, e.track_id = some te.1) := by
  intro e he
  simp only [zoneExitEvents, List.mem_flatMap, List.mem_map] at he
  obtain ⟨te, hte, zid, _hzid, rfl⟩ := he
  exact ⟨rfl, rfl, te, hte, rfl⟩

lemma length_filter_flatMap {α β : Type} (l : List α) (g : α → List β) (p : β → Bool) :
    ((l.flatMap g).filter p).length = (l.map (fun a => ((g a).filter p).length)).sum := by
  induction l with
  | nil => simp
  | cons a t ih => simp [List.flatMap_cons, List.filter_append, ih]

lemma filter_eq_length_of_nodup (z : String) :
    ∀ (zids : List String), zids.Nodup →
      (zids.filter (fun x => x = z)).length = if z ∈ zids then 1 else 0 := by
  intro zids
  induction zids with
  | nil => simp
  | cons x rest ih =>
    intro hnd
    rcases List.nodup_cons.mp hnd with ⟨hx, hndr⟩
    by_cases hxz : x = z
    · subst hxz
      have : (rest.filter (fun y => y = x)).length = 0 := by
        rw [ih hndr, if_neg hx]
      simp [List.filter_cons, this]
    · simp [List.filter_cons, hxz, ih hndr, Ne.symm hxz]

lemma entry_te_count (job : String) (f : Nat) (objs : List TrackedObject)
    (zones : List (String × ZoneConfig)) (tid : Nat) (z : String) (t : Nat) :
    ∀ (zids : List String),
      ((zids.map (fun zid =>
          ({ job_id := job, frame_number := f, event_type := "zone_entry",
             severity := if zoneTypeOf zones zid = "danger" then .critical else .warning,
             track_id := some t, zone_id := some zid,
             bbox := (objMap objs t).map (fun o => o.bbox) } : Event))).filter
        (fun e => e.event_type = "zone_entry" ∧ e.track_id = some tid
          ∧ e.zone_id = some z)).length
      = if t = tid then (zids.filter (fun x => x = z)).length else 0 := by
  intro zids
  induction zids with
  | nil => simp
  | cons zid rest ih =>
    simp only [List.map_cons, List.filter_cons]
    by_cases ht : t = tid
    · subst ht
      rw [if_pos rfl] at ih
      rw [if_pos rfl]
      by_cases hz : zid = z
      · subst hz
        rw [if_pos (by simp)]
        simp only [List.length_cons]
        rw [ih]
        simp [List.filter_cons]
      · rw [if_neg (by simp [hz]), if_neg (by simp [hz])]
        exact ih
    · rw [if_neg ht] at ih
      rw [if_neg ht]
      rw [if_neg (by simp [ht])]
      exact ih

lemma exit_te_count (job : String) (f : Nat) (objs : List TrackedObject)
    (tid : Nat) (z : String) (t : Nat) :
    ∀ (zids : List String),
      ((zids.map (fun zid =>
          ({ job_id := job, frame_number := f, event_type := "zone_exit",
             severity := .info, track_id := some t, zone_id := some zid,
             bbox := (objMap objs t).map (fun o => o.bbox) } : Event))).filter
        (fun e => e.event_type = "zone_exit" ∧ e.track_id = some tid
          ∧ e.zone_id = some z)).length
      = if t = tid then (zids.filter (fun x => x = z)).length else 0 := by
  intro zids
  induction zids with
  | nil => simp
  | cons zid rest ih =>
    simp only [List.map_cons, List.filter_cons]
    by_cases ht : t = tid
    · subst ht
      rw [if_pos rfl] at ih
      rw [if_pos rfl]
      by_cases hz : zid = z
      · subst hz
        rw [if_pos (by simp)]
        simp only [List.length_cons]
        rw [ih]
        simp [List.filter_cons]
      · rw [if_neg (by simp [hz]), if_neg (by simp [hz])]
        exact ih
    · rw [if_neg ht] at ih
      rw [if_neg ht]
      rw [if_neg (by simp [ht])]
      exact ih

lemma sum_if_key_zero (tid : Nat) (g : Nat × List String → Nat) :
    ∀ (entries : List (Nat × List String)), ¬ tid ∈ entries.map Prod.fst →
      (entries.map (fun te => if te.1 = tid then g te else 0)).sum = 0 := by
  intro entries
  induction entries with
  | nil => simp
  | cons te rest ih =>
    intro h
    simp only [List.map_cons, List.mem_cons, not_or] at h
    have hne : te.1 ≠ tid := fun hh => h.1 hh.symm
    simp [hne, ih h.2]

lemma sum_if_key (tid : Nat) (g : Nat × List String → Nat) :
    ∀ (entries : List (Nat × List String)), (entries.map Prod.fst).Nodup →
      (entries.map (fun te => if te.1 = tid then g te else 0)).sum =
        (match lookup? entries tid with
         | some zids => g (tid, zids)
         | none => 0) := by
  intro entries
  induction entries with
  | nil => simp [lookup?]
  | cons te rest ih =>
    intro hnd
    rw [List.map_cons] at hnd
    rcases List.nodup_cons.mp hnd with ⟨hk, hndr⟩
    by_cases h : te.1 = tid
    · subst h
      simp only [List.map_cons, List.sum_cons, if_pos rfl, lookup?, if_pos rfl]
      rw [sum_if_key_zero te.1 g rest hk]
      simp
    · simp only [List.map_cons, List.sum_cons, if_neg h, lookup?, if_neg h]
      rw [ih hndr]
      simp

lemma zoneEntryEvents_count (job : String) (f : Nat) (objs : List TrackedObject)
    (zones : List (String × ZoneConfig)) (entries : List (Nat × List String))
    (tid : Nat) (z : String) (hnd : (entries.map Prod.fst).Nodup) :
    ((zoneEntryEvents job f objs zones entries).filter
      (fun e => e.event_type = "zone_entry" ∧ e.track_id = some tid
        ∧ e.zone_id = some z)).length =
    (match lookup? entries tid with
     | some zids => (zids.filter (fun x => x = z)).length
     | none => 0) := by
  rw [zoneEntryEvents, length_filter_flatMap]
  have hmap : entries.map (fun te =>
      (((te.2.map (fun zid =>
        ({ job_id := job, frame_number := f, event_type := "zone_entry",
           severity := if zoneTypeOf zones zid = "danger" then .critical else .warning,
           track_id := some te.1, zone_id := some zid,
           bbox := (objMap objs te.1).map (fun o => o.bbox) } : Event)))).filter
        (fun e => e.event_type = "zone_entry" ∧ e.track_id = some tid
          ∧ e.zone_id = some z)).length) =
      entries.map (fun te => if te.1 = tid then (te.2.filter (fun x => x = z)).length else 0) := by
    apply List.map_congr_left
    intro te _
    exact entry_te_count job f objs zones tid z te.1 te.2
  rw [hmap, sum_if_key tid (fun te => (te.2.filter (fun x => x = z)).length) entries hnd]

lemma zoneExitEvents_count (job : String) (f : Nat) (objs : List TrackedObject)
    (exits : List (Nat × List String))
    (tid : Nat) (z : String) (hnd : (exits.map Prod.fst).Nodup) :
    ((zoneExitEvents job f objs exits).filter
      (fun e => e.event_type = "zone_exit" ∧ e.track_id = some tid
        ∧ e.zone_id = some z)).length =
    (match lookup? exits tid with
     | some zids => (zids.filter (fun x => x = z)).length
     | none => 0) := by
  rw [zoneExitEvents, length_filter_flatMap]
  have hmap : exits.map (fun te =>
      (((te.2.map (fun zid =>
        ({ job_id := job, frame_number := f, event_type := "zone_exit",
           severity := .info, track_id := some te.1, zone_id := some zid,
           bbox := (objMap objs te.1).map (fun o => o.bbox) } : Event)))).filter
        (fun e => e.event_type = "zone_exit" ∧ e.track_id = some tid
          ∧ e.zone_id = some z)).length) =
      exits.map (fun te => if te.1 = tid then (te.2.filter (fun x => x = z)).length else 0) := by
    apply List.map_congr_left
    intro te _
    exact exit_te_count job f objs tid z te.1 te.2
  rw [hmap, sum_if_key tid (fun te => (te.2.filter (fun x => x = z)).length) exits hnd]

lemma detect_events_entry_filter (s : Settings) (est : EventState)
    (objs : List TrackedObject) (entries exits : List (Nat × List String))
    (zones : List (String × ZoneConfig)) (fn : Nat) (now : ℚ) (job : String)
    (tid : Nat) (z : String) :
    ((EventDetector.detect_events s est objs entries exits [] zones fn now job).1.filter
        (fun e => e.event_type = "zone_entry" ∧ e.track_id = some tid ∧ e.zone_id = some z))
      = (zoneEntryEvents job fn objs zones entries).filter
          (fun e => e.event_type = "zone_entry" ∧ e.track_id = some tid
            ∧ e.zone_id = some z) := by
  have hP : ((objs.foldl (ppeStep job fn) ([], est.prev_ppe)).1.filter
      (fun e => e.event_type = "zone_entry" ∧ e.track_id = some tid
        ∧ e.zone_id = some z)) = [] := by
    rw [List.filter_eq_nil_iff]
    intro e he
    rcases ppe_fold_events job fn objs ([], est.prev_ppe) e he with h | h | h
    · simp at h
    · simp [h]
    · simp [h]
  have hXn : ((zoneExitEvents job fn objs exits).filter
      (fun e => e.event_type = "zone_entry" ∧ e.track_id = some tid
        ∧ e.zone_id = some z)) = [] := by
    rw [List.filter_eq_nil_iff]
    intro e he
    have := (zoneExitEvents_mem job fn objs exits e he).1
    simp [this]
  have hL : ((objs.foldl (loiterStep s job fn now) ([], est.loiter_state)).1.filter
      (fun e => e.event_type = "zone_entry" ∧ e.track_id = some tid
        ∧ e.zone_id = some z)) = [] := by
    rw [List.filter_eq_nil_iff]
    intro e he
    rcases loiter_fold_events s job fn now objs ([], est.loiter_state) e he with h | h
    · simp at h
    · simp [h]
  have hF : ((objs.foldl (fallenStep s job fn)
      ([], est.fallen_counts, est.fallen_alerted)).1.filter
      (fun e => e.event_type = "zone_entry" ∧ e.track_id = some tid
        ∧ e.zone_id = some z)) = [] := by
    rw [List.filter_eq_nil_iff]
    intro e he
    rcases fallen_fold_events s job fn objs ([], est.fallen_counts, est.fallen_alerted)
        e he with h | h
    · simp at h
    · simp [h]
  simp only [EventDetector.detect_events, List.foldl_nil]
  simp only [List.filter_append, hP, hXn, hL, hF]
  simp

lemma detect_events_exit_filter (s : Settings) (est : EventState)
    (objs : List TrackedObject) (entries exits : List (Nat × List String))
    (zones : List (String × ZoneConfig)) (fn : Nat) (now : ℚ) (job : String)
    (tid : Nat) (z : String) :
    ((EventDetector.detect_events s est objs entries exits [] zones fn now job).1.filter
        (fun e => e.event_type = "zone_exit" ∧ e.track_id = some tid ∧ e.zone_id = some z))
      = (zoneExitEvents job fn objs exits).filter
          (fun e => e.event_type = "zone_exit" ∧ e.track_id = some tid
            ∧ e.zone_id = some z) := by
  have hP : ((objs.foldl (ppeStep job fn) ([], est.prev_ppe)).1.filter
      (fun e => e.event_type = "zone_exit" ∧ e.track_id = some tid
        ∧ e.zone_id = some z)) = [] := by
    rw [List.filter_eq_nil_iff]
    intro e he
    rcases ppe_fold_events job fn objs ([], est.prev_ppe) e he with h | h | h
    · simp at h
    · simp [h]
    · simp [h]
  have hEn : ((zoneEntryEvents job fn objs zones entries).filter
      (fun e => e.event_type = "zone_exit" ∧ e.track_id = some tid
        ∧ e.zone_id = some z)) = [] := by
    rw [List.filter_eq_nil_iff]
    intro e he
    have := (zoneEntryEvents_mem job fn objs zones entries e he).1
    simp [this]
  have hL : ((objs.foldl (loiterStep s job fn now) ([], est.loiter_state)).1.filter
      (fun e => e.event_type = "zone_exit" ∧ e.track_id = some tid
        ∧ e.zone_id = some z)) = [] := by
    rw [List.filter_eq_nil_iff]
    intro e he
    rcases loiter_fold_events s job fn now objs ([], est.loiter_state) e he with h | h
    · simp at h
    · simp [h]
  have hF : ((objs.foldl (fallenStep s job fn)
      ([], est.fallen_counts, est.fallen_alerted)).1.filter
      (fun e => e.event_type = "zone_exit" ∧ e.track_id = some tid
        ∧ e.zone_id = some z)) = [] := by
    rw [List.filter_eq_nil_iff]
    intro e he
    rcases fallen_fold_events s job fn objs ([], est.fallen_counts, est.fallen_alerted)
        e he with h | h
    · simp at h
    · simp [h]
  simp only [EventDetector.detect_events, List.foldl_nil]
  simp only [List.filter_append, hP, hEn, hL, hF]
  simp

lemma keys_filtered_map_sub (rest : List TrackedObject) (P : TrackedObject → Bool)
    (g : TrackedObject → List String) (k : Nat)
    (h : k ∈ ((rest.filter P).map (fun o => (o.track_id, g o))).map Prod.fst) :
    k ∈ rest.map (fun o => o.track_id) := by
  rcases List.mem_map.mp h with ⟨kv, hkv, hfst⟩
  rcases List.mem_map.mp hkv with ⟨o, ho, rfl⟩
  exact hfst ▸ List.mem_map_of_mem (fun o => o.track_id) (List.mem_of_mem_filter ho)

lemma lookup_filtered_map (P : TrackedObject → Bool) (g : TrackedObject → List String) :
    ∀ (objs : List TrackedObject) (obj : TrackedObject),
      (objs.map (fun o => o.track_id)).Nodup → obj ∈ objs →
      lookup? ((objs.filter P).map (fun o => (o.track_id, g o))) obj.track_id =
        (if P obj then some (g obj) else none) := by
  intro objs
  induction objs with
  | nil =>
    intro obj _ h
    simp at h
  | cons o rest ih =>
    intro obj hnd hobj
    rw [List.map_cons] at hnd
    rcases List.nodup_cons.mp hnd with ⟨hk, hndr⟩
    rcases List.mem_cons.mp hobj with h | h
    · subst h
      rw [List.filter_cons]
      by_cases hp : P obj
      · rw [if_pos (by simpa using hp)]
        simp [lookup?, hp]
      · rw [if_neg (by simpa using hp), if_neg hp]
        apply lookup?_eq_none
        intro hc
        exact hk (keys_filtered_map_sub rest P g obj.track_id hc)
    · have hne : o.track_id ≠ obj.track_id := by
        intro he
        exact hk (he ▸ List.mem_map_of_mem (fun o => o.track_id) h)
      rw [List.filter_cons]
      by_cases hp : P o
      · rw [if_pos (by simpa using hp)]
        simp only [List.map_cons, lookup?, if_neg hne]
        exact ih obj hndr h
      · rw [if_neg (by simpa using hp)]
        exact ih obj hndr h

lemma zonesOf_nodup (pc : PolyContains) (zones : List (String × ZoneConfig))
    (c : ℚ × ℚ) (hznd : (zones.map Prod.fst).Nodup) :
    (zonesOf pc zones c).Nodup := by
  have hs : List.Sublist (zones.filter (fun z => pc z.2.polygon c)) zones :=
    List.filter_sublist zones
  exact List.Nodup.sublist (hs.map Prod.fst) hznd

lemma filtered_map_keys_nodup (objs : List TrackedObject) (P : TrackedObject → Bool)
    (g : TrackedObject → List String)
    (hnd : (objs.map (fun o => o.track_id)).Nodup) :
    (((objs.filter P).map (fun o => (o.track_id, g o))).map Prod.fst).Nodup := by
  rw [List.map_map]
  have heq : (Prod.fst ∘ fun o => (o.track_id, g o)) = fun (o : TrackedObject) => o.track_id := rfl
  rw [heq]
  exact List.Nodup.sublist ((List.filter_sublist objs).map (fun o => o.track_id)) hnd

lemma cz_entry_count (s : Settings) (pc : PolyContains) (st : ZoneState)
    (objs : List TrackedObject) (obj : TrackedObject) (z : String) (est : EventState)
    (fn : Nat) (now : ℚ) (job : String)
    (hnd : (objs.map (fun o => o.track_id)).Nodup)
    (hobj : obj ∈ objs)
    (hznd : (st.zones.map Prod.fst).Nodup) :
    ((EventDetector.detect_events s est (ZoneEngine.check_zones pc st objs).2.1
        (ZoneEngine.check_zones pc st objs).2.2.2.1
        (ZoneEngine.check_zones pc st objs).2.2.2.2
        [] st.zones fn now job).1.filter
      (fun e => e.event_type = "zone_entry" ∧ e.track_id = some obj.track_id
        ∧ e.zone_id = some z)).length
    = if z ∈ zonesOf pc st.zones obj.centroid ∧ ¬ z ∈ prevOf st obj then 1 else 0 := by
  have hmem : ∀ y, y ∈ enteredOf pc st obj ↔
      (y ∈ zonesOf pc st.zones obj.centroid ∧ ¬ y ∈ prevOf st obj) := by
    intro y
    simp [enteredOf, List.mem_filter]
  rw [check_zones_spec pc st objs hnd]
  dsimp only
  rw [detect_events_entry_filter, zoneEntryEvents_count _ _ _ _ _ _ _
    (filtered_map_keys_nodup objs _ _ hnd)]
  rw [lookup_filtered_map (fun o => ¬ (enteredOf pc st o).isEmpty)
    (fun o => enteredOf pc st o) objs obj hnd hobj]
  by_cases hne : (enteredOf pc st obj).isEmpty
  · rw [if_neg (by simpa using hne)]
    have hempty : enteredOf pc st obj = [] := List.isEmpty_iff.mp hne
    rw [if_neg]
    rintro ⟨h1, h2⟩
    have hz := (hmem z).mpr ⟨h1, h2⟩
    rw [hempty] at hz
    simp at hz
  · rw [if_pos (by simpa using hne)]
    dsimp only
    have hentnd : (enteredOf pc st obj).Nodup :=
      List.Nodup.filter _ (zonesOf_nodup pc st.zones obj.centroid hznd)
    rw [filter_eq_length_of_nodup z (enteredOf pc st obj) hentnd]
    exact if_congr (hmem z) rfl rfl

lemma cz_exit_count (s : Settings) (pc : PolyContains) (st : ZoneState)
    (objs : List TrackedObject) (obj : TrackedObject) (z : String) (est : EventState)
    (fn : Nat) (now : ℚ) (job : String)
    (hnd : (objs.map (fun o => o.track_id)).Nodup)
    (hobj : obj ∈ objs)
    (hprevnd : (prevOf st obj).Nodup) :
    ((EventDetector.detect_events s est (ZoneEngine.check_zones pc st objs).2.1
        (ZoneEngine.check_zones pc st objs).2.2.2.1
        (ZoneEngine.check_zones pc st objs).2.2.2.2
        [] st.zones fn now job).1.filter
      (fun e => e.event_type = "zone_exit" ∧ e.track_id = some obj.track_id
        ∧ e.zone_id = some z)).length
    = if z ∈ prevOf st obj ∧ ¬ z ∈ zonesOf pc st.zones obj.centroid then 1 else 0 := by
  have hmem : ∀ y, y ∈ exitedOf pc st obj ↔
      (y ∈ prevOf st obj ∧ ¬ y ∈ zonesOf pc st.zones obj.centroid) := by
    intro y
    simp [exitedOf, List.mem_filter]
  rw [check_zones_spec pc st objs hnd]
  dsimp only
  rw [detect_events_exit_filter, zoneExitEvents_count _ _ _ _ _ _
    (filtered_map_keys_nodup objs _ _ hnd)]
  rw [lookup_filtered_map (fun o => ¬ (exitedOf pc st o).isEmpty)
    (fun o => exitedOf pc st o) objs obj hnd hobj]
  by_cases hne : (exitedOf pc st obj).isEmpty
  · rw [if_neg (by simpa using hne)]
    have hempty : exitedOf pc st obj = [] := List.isEmpty_iff.mp hne
    rw [if_neg]
    rintro ⟨h1, h2⟩
    have hz := (hmem z).mpr ⟨h1, h2⟩
    rw [hempty] at hz
    simp at hz
  · rw [if_pos (by simpa using hne)]
    dsimp only
    have hexnd : (exitedOf pc st obj).Nodup := List.Nodup.filter _ hprevnd
    rw [filter_eq_length_of_nodup z (exitedOf pc st obj) hexnd]
    exact if_congr (hmem z) rfl rfl

lemma lookupD_eq_of_lookup?_none {κ α : Type} [DecidableEq κ] (l : List (κ × α)) (k : κ)
    (d : α) (h : lookup? l k = none) : lookupD l k d = d := by
  induction l with
  | nil => rfl
  | cons hd t ih =>
    by_cases hk : hd.1 = k
    · simp [lookup?, hk] at h
    · simp only [lookup?, if_neg hk] at h
      simp [lookupD, hk, ih h]

lemma detect_events_zone_mem (s : Settings) (est : EventState)
    (objs : List TrackedObject) (entries exits : List (Nat × List String))
    (zones : List (String × ZoneConfig)) (fn : Nat) (now : ℚ) (job : String) :
    ∀ e ∈ (EventDetector.detect_events s est objs entries exits [] zones fn now job).1,
      (e.event_type = "zone_entry" →
        (e.severity = (if zoneTypeOf zones (e.zone_id.getD "") = "danger"
            then Severity.critical else Severity.warning)
         ∧ ∃ te ∈ entries, e.track_id = some te.1))
      ∧ (e.event_type = "zone_exit" →
        (e.severity = Severity.info ∧ ∃ te ∈ exits, e.track_id = some te.1)) := by
  intro e he
  simp only [EventDetector.detect_events, List.foldl_nil] at he
  simp only [List.mem_append] at he
  rcases he with ((((h | h) | h) | h) | h) | h
  · rcases ppe_fold_events job fn objs ([], est.prev_ppe) e h with h2 | h2 | h2
    · simp at h2
    · refine ⟨fun ht => ?_, fun ht => ?_⟩ <;> (rw [ht] at h2; simp at h2)
    · refine ⟨fun ht => ?_, fun ht => ?_⟩ <;> (rw [ht] at h2; simp at h2)
  · obtain ⟨hty, hsev, hte⟩ := zoneEntryEvents_mem job fn objs zones entries e h
    refine ⟨fun _ => ⟨hsev, hte⟩, fun ht => ?_⟩
    rw [ht] at hty
    simp at hty
  · obtain ⟨hty, hsev, hte⟩ := zoneExitEvents_mem job fn objs exits e h
    refine ⟨fun ht => ?_, fun _ => ⟨hsev, hte⟩⟩
    rw [ht] at hty
    simp at hty
  · rcases loiter_fold_events s job fn now objs ([], est.loiter_state) e h with h2 | h2
    · simp at h2
    · refine ⟨fun ht => ?_, fun ht => ?_⟩ <;> (rw [ht] at h2; simp at h2)
  · simp at h
  · rcases fallen_fold_events s job fn objs ([], est.fallen_counts, est.fallen_alerted)
        e h with h2 | h2
    · simp at h2
    · refine ⟨fun ht => ?_, fun ht => ?_⟩ <;> (rw [ht] at h2; simp at h2)

/-- C5: with a fixed zone configuration, for any track among the
objects handed to consecutive `check_zones` calls, the following hold
of one check_zones → detect_events step: exactly one zone_entry event
is produced for (track, zone) iff the track's centroid is in the zone
now but was not in the previous call's recorded set, and exactly one
zone_exit event iff the reverse — in particular no event while the
track stays inside, however many frames that lasts, since the recorded
set is then replaced by the current one (last conjunct); entries into a
danger-type zone are critical and all others warning, and exits are
always info. -/
theorem C5_zone_entry_exit_exactly_once (s : Settings) (pc : PolyContains)
    (st : ZoneState) (objs : List TrackedObject) (obj : TrackedObject) (z : String)
    (est : EventState) (fn : Nat) (now : ℚ) (job : String)
    (hnd : (objs.map (fun o => o.track_id)).Nodup)
    (hobj : obj ∈ objs)
    (hznd : (st.zones.map Prod.fst).Nodup)
    (hprevnd : (prevOf st obj).Nodup) :
    (((EventDetector.detect_events s est (ZoneEngine.check_zones pc st objs).2.1
        (ZoneEngine.check_zones pc st objs).2.2.2.1
        (ZoneEngine.check_zones pc st objs).2.2.2.2
        [] st.zones fn now job).1.filter
      (fun e => e.event_type = "zone_entry" ∧ e.track_id = some obj.track_id
        ∧ e.zone_id = some z)).length
      = if z ∈ zonesOf pc st.zones obj.centroid ∧ ¬ z ∈ prevOf st obj then 1 else 0)
    ∧ (((EventDetector.detect_events s est (ZoneEngine.check_zones pc st objs).2.1
        (ZoneEngine.check_zones pc st objs).2.2.2.1
        (ZoneEngine.check_zones pc st objs).2.2.2.2
        [] st.zones fn now job).1.filter
      (fun e => e.event_type = "zone_exit" ∧ e.track_id = some obj.track_id
        ∧ e.zone_id = some z)).length
      = if z ∈ prevOf st obj ∧ ¬ z ∈ zonesOf pc st.zones obj.centroid then 1 else 0)
    ∧ (∀ e ∈ (EventDetector.detect_events s est (ZoneEngine.check_zones pc st objs).2.1
        (ZoneEngine.check_zones pc st objs).2.2.2.1
        (ZoneEngine.check_zones pc st objs).2.2.2.2
        [] st.zones fn now job).1,
        (e.event_type = "zone_entry" →
          e.severity = (if zoneTypeOf st.zones (e.zone_id.getD "") = "danger"
            then Severity.critical else Severity.warning))
        ∧ (e.event_type = "zone_exit" → e.severity = Severity.info))
    ∧ lookupD (ZoneEngine.check_zones pc st objs).1.prev_occupancy obj.track_id [] =
        zonesOf pc st.zones obj.centroid := by
  refine ⟨cz_entry_count s pc st objs obj z est fn now job hnd hobj hznd,
    cz_exit_count s pc st objs obj z est fn now job hnd hobj hprevnd, ?_, ?_⟩
  · intro e he
    have h := detect_events_zone_mem s est (ZoneEngine.check_zones pc st objs).2.1
      (ZoneEngine.check_zones pc st objs).2.2.2.1
      (ZoneEngine.check_zones pc st objs).2.2.2.2 st.zones fn now job e he
    exact ⟨fun ht => (h.1 ht).1, fun ht => (h.2 ht).1⟩
  · rw [check_zones_spec pc st objs hnd]
    dsimp only
    have hkeys : ((objs.map (fun o =>
        (o.track_id, zonesOf pc st.zones o.centroid))).map Prod.fst).Nodup := by
      rw [List.map_map]
      exact hnd
    exact lookupD_eq_of_mem_nodup _ (obj.track_id, zonesOf pc st.zones obj.centroid) []
      (List.mem_map_of_mem _ hobj) hkeys

/-- Witness for C5: a person track at (5,5) entering the danger-zone
fixture from a fresh occupancy store — exactly one entry event, and the
store records the zone set. -/
theorem C5_zone_entry_exit_exactly_once_witness :
    ((EventDetector.detect_events defaultSettings {}
        (ZoneEngine.check_zones pcRect zoneStateFix [objInZone]).2.1
        (ZoneEngine.check_zones pcRect zoneStateFix [objInZone]).2.2.2.1
        (ZoneEngine.check_zones pcRect zoneStateFix [objInZone]).2.2.2.2
        [] zoneStateFix.zones 1 0 "").1.filter
      (fun e => e.event_type = "zone_entry" ∧ e.track_id = some objInZone.track_id
        ∧ e.zone_id = some "z1")).length = 1
    ∧ lookupD (ZoneEngine.check_zones pcRect zoneStateFix [objInZone]).1.prev_occupancy
        objInZone.track_id [] = zonesOf pcRect zoneStateFix.zones objInZone.centroid := by
  have h := C5_zone_entry_exit_exactly_once defaultSettings pcRect zoneStateFix [objInZone]
    objInZone "z1" ({} : EventState) 1 0 ""
    (by decide) (List.mem_singleton.mpr rfl) (by decide) (by decide)
  refine ⟨?_, h.2.2.2⟩
  rw [h.1]
  with_unfolding_all decide

/-- C10: after check_zones the previous-occupancy store holds exactly
the track ids passed in that call (in order), so a track absent from a
call loses its recorded occupancy; no zone_exit event is ever produced
for a track id that is not among the passed objects; and a track whose
id has no recorded occupancy and that (re)appears inside a zone yields
exactly one fresh zone_entry event, as if it had never been there. -/
theorem C10_prev_occupancy_exact (s : Settings) (pc : PolyContains)
    (st : ZoneState) (objs : List TrackedObject) (est : EventState)
    (fn : Nat) (now : ℚ) (job : String)
    (hnd : (objs.map (fun o => o.track_id)).Nodup) :
    ((ZoneEngine.check_zones pc st objs).1.prev_occupancy.map Prod.fst =
      objs.map (fun o => o.track_id))
    ∧ (∀ tid, ¬ tid ∈ objs.map (fun o => o.track_id) →
        ∀ e ∈ (EventDetector.detect_events s est
            (ZoneEngine.check_zones pc st objs).2.1
            (ZoneEngine.check_zones pc st objs).2.2.2.1
            (ZoneEngine.check_zones pc st objs).2.2.2.2
            [] st.zones fn now job).1,
          e.event_type = "zone_exit" → e.track_id ≠ some tid)
    ∧ (∀ obj z, obj ∈ objs → lookup? st.prev_occupancy obj.track_id = none →
        (st.zones.map Prod.fst).Nodup → z ∈ zonesOf pc st.zones obj.centroid →
        ((EventDetector.detect_events s est
            (ZoneEngine.check_zones pc st objs).2.1
            (ZoneEngine.check_zones pc st objs).2.2.2.1
            (ZoneEngine.check_zones pc st objs).2.2.2.2
            [] st.zones fn now job).1.filter
          (fun e => e.event_type = "zone_entry" ∧ e.track_id = some obj.track_id
            ∧ e.zone_id = some z)).length = 1) := by
  refine ⟨?_, ?_, ?_⟩
  · rw [check_zones_spec pc st objs hnd]
    dsimp only
    rw [List.map_map]
    rfl
  · intro tid htid e he hty
    have h := (detect_events_zone_mem s est _ _ _ st.zones fn now job e he).2 hty
    obtain ⟨_, te, hte, htrack⟩ := h
    rw [check_zones_spec pc st objs hnd] at hte
    dsimp only at hte
    rcases List.mem_map.mp hte with ⟨o, ho, rfl⟩
    have hmem : o.track_id ∈ objs.map (fun o => o.track_id) :=
      List.mem_map_of_mem _ (List.mem_of_mem_filter ho)
    intro hc
    rw [htrack] at hc
    simp only [Option.some.injEq] at hc
    exact htid (hc ▸ hmem)
  · intro obj z hobj hnone hznd hz
    have hprev : prevOf st obj = [] :=
      lookupD_eq_of_lookup?_none st.prev_occupancy obj.track_id [] hnone
    rw [cz_entry_count s pc st objs obj z est fn now job hnd hobj hznd,
      if_pos ⟨hz, by rw [hprev]; simp⟩]

/-- Witness for C10: one track id 7 checked in, store keys become [7];
no zone_exit event names the absent id 99; and the fresh track inside
the fixture zone gets exactly one entry event. -/
theorem C10_prev_occupancy_exact_witness :
    ((ZoneEngine.check_zones pcRect zoneStateFix [objInZone]).1.prev_occupancy.map
      Prod.fst = [7])
    ∧ ((EventDetector.detect_events defaultSettings {}
        (ZoneEngine.check_zones pcRect zoneStateFix [objInZone]).2.1
        (ZoneEngine.check_zones pcRect zoneStateFix [objInZone]).2.2.2.1
        (ZoneEngine.check_zones pcRect zoneStateFix [objInZone]).2.2.2.2
        [] zoneStateFix.zones 1 0 "").1.filter
      (fun e => e.event_type = "zone_exit" ∧ e.track_id = some 99) = [])
    ∧ ((EventDetector.detect_events defaultSettings {}
        (ZoneEngine.check_zones pcRect zoneStateFix [objInZone]).2.1
        (ZoneEngine.check_zones pcRect zoneStateFix [objInZone]).2.2.2.1
        (ZoneEngine.check_zones pcRect zoneStateFix [objInZone]).2.2.2.2
        [] zoneStateFix.zones 1 0 "").1.filter
      (fun e => e.event_type = "zone_entry" ∧ e.track_id = some objInZone.track_id
        ∧ e.zone_id = some "z1")).length = 1 := by
  have h := C10_prev_occupancy_exact defaultSettings pcRect zoneStateFix [objInZone]
    ({} : EventState) 1 0 "" (by decide)
  refine ⟨?_, ?_, ?_⟩
  · rw [h.1]
    rfl
  · rw [List.filter_eq_nil_iff]
    intro e he hc
    simp only [decide_eq_true_eq] at hc
    exact h.2.1 99 (by decide) e he hc.1 hc.2
  · exact h.2.2 objInZone "z1" (List.mem_singleton.mpr rfl) rfl (by decide)
      (by with_unfolding_all decide)

/-! ## C3: association-list helpers for the tracker invariant -/

lemma lookup?_upsert {κ α : Type} [DecidableEq κ] (l : List (κ × α)) (k : κ) (v : α) :
    lookup? (upsert l k v) k = some v := by
  induction l with
  | nil => simp [upsert, lookup?]
  | cons hd t ih =>
    by_cases h : hd.1 = k
    · simp [upsert, h, lookup?]
    · simp [upsert, h, lookup?, ih]

lemma lookup?_upsert_ne {κ α : Type} [DecidableEq κ] (l : List (κ × α)) (k k' : κ)
    (v : α) (hne : k' ≠ k) : lookup? (upsert l k v) k' = lookup? l k' := by
  have hne2 : ¬ (k = k') := fun hh => hne (Eq.symm hh)
  induction l with
  | nil => simp [upsert, lookup?, hne2]
  | cons hd t ih =>
    by_cases h : hd.1 = k
    · subst h
      simp [upsert, lookup?, hne2]
    · simp only [upsert, if_neg h, lookup?]
      by_cases h2 : hd.1 = k'
      · simp [h2]
      · simp [h2, ih]

lemma snd_upsert_mem {κ α : Type} [DecidableEq κ] (l : List (κ × α)) (k : κ) (v : α)
    (c : α) (h : c ∈ (upsert l k v).map Prod.snd) : c ∈ l.map Prod.snd ∨ c = v := by
  induction l with
  | nil =>
    simp [upsert] at h
    exact Or.inr h
  | cons hd t ih =>
    by_cases h1 : hd.1 = k
    · simp only [upsert, if_pos h1, List.map_cons, List.mem_cons] at h
      rcases h with h | h
      · exact Or.inr h
      · exact Or.inl (by simp only [List.map_cons, List.mem_cons]; exact Or.inr h)
    · simp only [upsert, if_neg h1, List.map_cons, List.mem_cons] at h
      rcases h with h | h
      · exact Or.inl (by simp only [List.map_cons, List.mem_cons]; exact Or.inl h)
      · rcases ih h with h2 | h2
        · exact Or.inl (by simp only [List.map_cons, List.mem_cons]; exact Or.inr h2)
        · exact Or.inr h2

lemma snd_removeKey_sub {κ α : Type} [DecidableEq κ] (l : List (κ × α)) (k : κ)
    (c : α) (h : c ∈ (removeKey l k).map Prod.snd) : c ∈ l.map Prod.snd := by
  rcases List.mem_map.mp h with ⟨kv, hkv, hsnd⟩
  exact hsnd ▸ List.mem_map_of_mem _ (List.mem_of_mem_filter hkv)

lemma mem_keys_removeKey_of_ne {κ α : Type} [DecidableEq κ] (l : List (κ × α))
    (k k' : κ) (hne : k' ≠ k) (h : k' ∈ l.map Prod.fst) :
    k' ∈ (removeKey l k).map Prod.fst := by
  rcases List.mem_map.mp h with ⟨kv, hkv, hfst⟩
  refine hfst ▸ List.mem_map_of_mem _ (List.mem_filter.mpr ⟨hkv, ?_⟩)
  have : kv.1 ≠ k := hfst ▸ hne
  simpa using this

lemma lookupD_mem_of_mem_keys {κ α : Type} [DecidableEq κ] (l : List (κ × α)) (k : κ)
    (d : α) (h : k ∈ l.map Prod.fst) : (k, lookupD l k d) ∈ l := by
  induction l with
  | nil => simp at h
  | cons hd t ih =>
    by_cases h1 : hd.1 = k
    · subst h1
      simp only [lookupD, if_pos rfl]
      exact List.mem_cons_self _ _
    · simp only [List.map_cons, List.mem_cons] at h
      rcases h with h | h
      · exact absurd h.symm h1
      · simp only [lookupD, if_neg h1]
        exact List.mem_cons_of_mem _ (ih h)

lemma register_keys (st : TrackerState) (det : Detection) (c : ℚ × ℚ)
    (h : ¬ st.next_id ∈ st.objects.map Prod.fst) :
    (register st det c).objects.map Prod.fst = st.objects.map Prod.fst ++ [st.next_id] := by
  simp [register, upsert_of_not_mem _ _ _ h]

lemma register_dkeys (st : TrackerState) (det : Detection) (c : ℚ × ℚ)
    (h : ¬ st.next_id ∈ st.disappeared.map Prod.fst) :
    (register st det c).disappeared.map Prod.fst =
      st.disappeared.map Prod.fst ++ [st.next_id] := by
  simp [register, upsert_of_not_mem _ _ _ h]

lemma register_dvals (st : TrackerState) (det : Detection) (c : ℚ × ℚ)
    (h : ¬ st.next_id ∈ st.disappeared.map Prod.fst) :
    (register st det c).disappeared.map Prod.snd = st.disappeared.map Prod.snd ++ [0] := by
  simp [register, upsert_of_not_mem _ _ _ h]

lemma register_next (st : TrackerState) (det : Detection) (c : ℚ × ℚ) :
    (register st det c).next_id = st.next_id + 1 := rfl

lemma register_max (st : TrackerState) (det : Detection) (c : ℚ × ℚ) :
    (register st det c).max_disappeared = st.max_disappeared := rfl

lemma register_lookup_self (st : TrackerState) (det : Detection) (c : ℚ × ℚ) :
    ∃ o, lookup? (register st det c).objects st.next_id = some o ∧
      o.track_id = st.next_id ∧ o.velocity = (0, 0) ∧ o.trajectory = [o.centroid] :=
  ⟨_, lookup?_upsert st.objects st.next_id _, rfl, rfl, rfl⟩

lemma register_lookup_ne (st : TrackerState) (det : Detection) (c : ℚ × ℚ) (k : Nat)
    (h : k ≠ st.next_id) :
    lookup? (register st det c).objects k = lookup? st.objects k :=
  lookup?_upsert_ne st.objects st.next_id k _ h

lemma register_inv (st : TrackerState) (det : Detection) (c : ℚ × ℚ)
    (h : TrackerInv st) : TrackerInv (register st det c) := by
  obtain ⟨h1, h2, h3, h4, h5, h6⟩ := h
  have hno : ¬ st.next_id ∈ st.objects.map Prod.fst := fun hm => lt_irrefl _ (h3 _ hm)
  have hnd : ¬ st.next_id ∈ st.disappeared.map Prod.fst := fun hm => lt_irrefl _ (h4 _ hm)
  refine ⟨?_, ?_, ?_, ?_, ?_, ?_⟩
  · rw [register_keys st det c hno]
    exact List.Nodup.append h1 (List.nodup_singleton _) (by simpa using fun hk => hno hk)
  · rw [register_dkeys st det c hnd]
    exact List.Nodup.append h2 (List.nodup_singleton _) (by simpa using fun hk => hnd hk)
  · rw [register_keys st det c hno, register_next]
    intro k hk
    rcases List.mem_append.mp hk with hk | hk
    · exact Nat.lt_succ_of_lt (h3 _ hk)
    · simp only [List.mem_singleton] at hk
      exact hk ▸ Nat.lt_succ_self _
  · rw [register_dkeys st det c hnd, register_next]
    intro k hk
    rcases List.mem_append.mp hk with hk | hk
    · exact Nat.lt_succ_of_lt (h4 _ hk)
    · simp only [List.mem_singleton] at hk
      exact hk ▸ Nat.lt_succ_self _
  · rw [register_keys st det c hno, register_dkeys st det c hnd]
    intro k hk
    rcases List.mem_append.mp hk with hk | hk
    · exact List.mem_append.mpr (Or.inl (h5 _ hk))
    · exact List.mem_append.mpr (Or.inr hk)
  · rw [register_dvals st det c hnd, register_max]
    intro cc hcc
    rcases List.mem_append.mp hcc with hcc | hcc
    · exact h6 _ hcc
    · simp only [List.mem_singleton] at hcc
      exact hcc ▸ Nat.zero_le _

lemma update_object_keys (s : Settings) (st : TrackerState) (tid : Nat)
    (det : Detection) (c : ℚ × ℚ) :
    (update_object s st tid det c).objects.map Prod.fst = st.objects.map Prod.fst := by
  cases hl : lookup? st.objects tid with
  | none => simp [update_object, hl]
  | some obj =>
    have hmem : tid ∈ st.objects.map Prod.fst :=
      List.mem_map_of_mem Prod.fst (lookup?_mem _ _ _ hl)
    simp only [update_object, hl]
    exact keys_upsert_of_mem _ _ _ hmem

lemma update_object_next (s : Settings) (st : TrackerState) (tid : Nat)
    (det : Detection) (c : ℚ × ℚ) :
    (update_object s st tid det c).next_id = st.next_id := by
  cases hl : lookup? st.objects tid <;> simp [update_object, hl]

lemma update_object_max (s : Settings) (st : TrackerState) (tid : Nat)
    (det : Detection) (c : ℚ × ℚ) :
    (update_object s st tid det c).max_disappeared = st.max_disappeared := by
  cases hl : lookup? st.objects tid <;> simp [update_object, hl]

lemma update_object_inv (s : Settings) (st : TrackerState) (tid : Nat)
    (det : Detection) (c : ℚ × ℚ) (h : TrackerInv st) :
    TrackerInv (update_object s st tid det c) := by
  obtain ⟨h1, h2, h3, h4, h5, h6⟩ := h
  cases hl : lookup? st.objects tid with
  | none =>
    simp only [update_object, hl]
    exact ⟨h1, h2, h3, h4, h5, h6⟩
  | some obj =>
    have hmem : tid ∈ st.objects.map Prod.fst :=
      List.mem_map_of_mem Prod.fst (lookup?_mem _ _ _ hl)
    simp only [update_object, hl]
    refine ⟨?_, ?_, ?_, ?_, ?_, ?_⟩
    · rw [keys_upsert_of_mem _ _ _ hmem]
      exact h1
    · exact nodup_keys_upsert _ _ _ h2
    · rw [keys_upsert_of_mem _ _ _ hmem]
      exact h3
    · intro k hk
      rcases keys_upsert_sub _ _ _ _ hk with hk | hk
      · subst hk
        exact h3 _ hmem
      · exact h4 _ hk
    · intro k hk
      rw [keys_upsert_of_mem _ _ _ hmem] at hk
      exact mem_keys_upsert_of_mem _ _ _ _ (h5 _ hk)
    · intro cc hcc
      rcases snd_upsert_mem _ _ _ _ hcc with hcc | hcc
      · exact h6 _ hcc
      · rw [hcc]
        exact Nat.zero_le _

lemma matchStep_inv (s : Settings) (ids : List Nat) (dets : List Detection)
    (cents : List (ℚ × ℚ)) (D : Nat → Nat → ℚ)
    (acc : TrackerState × List Nat × List Nat) (row : Nat) (h : TrackerInv acc.1) :
    TrackerInv (matchStep s ids dets cents D acc row).1 ∧
    (matchStep s ids dets cents D acc row).1.next_id = acc.1.next_id ∧
    (matchStep s ids dets cents D acc row).1.max_disappeared = acc.1.max_disappeared ∧
    (matchStep s ids dets cents D acc row).1.objects.map Prod.fst =
      acc.1.objects.map Prod.fst := by
  obtain ⟨st, uR, uC⟩ := acc
  simp only [matchStep]
  split
  · exact ⟨h, rfl, rfl, rfl⟩
  · split
    · exact ⟨h, rfl, rfl, rfl⟩
    · exact ⟨update_object_inv _ _ _ _ _ h, update_object_next _ _ _ _ _,
        update_object_max _ _ _ _ _, update_object_keys _ _ _ _ _⟩

lemma matchFold_inv (s : Settings) (ids : List Nat) (dets : List Detection)
    (cents : List (ℚ × ℚ)) (D : Nat → Nat → ℚ) :
    ∀ (rows : List Nat) (acc : TrackerState × List Nat × List Nat), TrackerInv acc.1 →
    TrackerInv (rows.foldl (matchStep s ids dets cents D) acc).1 ∧
    (rows.foldl (matchStep s ids dets cents D) acc).1.next_id = acc.1.next_id ∧
    (rows.foldl (matchStep s ids dets cents D) acc).1.max_disappeared =
      acc.1.max_disappeared ∧
    (rows.foldl (matchStep s ids dets cents D) acc).1.objects.map Prod.fst =
      acc.1.objects.map Prod.fst := by
  intro rows
  induction rows with
  | nil =>
    intro acc h
    exact ⟨h, rfl, rfl, rfl⟩
  | cons r t ih =>
    intro acc h
    simp only [List.foldl_cons]
    obtain ⟨hi, hn, hm, hk⟩ := matchStep_inv s ids dets cents D acc r h
    obtain ⟨hi2, hn2, hm2, hk2⟩ := ih _ hi
    exact ⟨hi2, hn2.trans hn, hm2.trans hm, hk2.trans hk⟩

lemma evictStep_inv (objIds usedR : List Nat) (n : Nat)
    (hids : ∀ row : Nat, objIds.getD row 0 < n)
    (a : TrackerState) (row : Nat) (h : TrackerInv a) (hn : n ≤ a.next_id) :
    TrackerInv (evictStep objIds usedR a row) ∧
    (evictStep objIds usedR a row).next_id = a.next_id ∧
    (evictStep objIds usedR a row).max_disappeared = a.max_disappeared ∧
    (∀ k ∈ (evictStep objIds usedR a row).objects.map Prod.fst,
      k ∈ a.objects.map Prod.fst) := by
  obtain ⟨h1, h2, h3, h4, h5, h6⟩ := h
  simp only [evictStep]
  split
  · exact ⟨⟨h1, h2, h3, h4, h5, h6⟩, rfl, rfl, fun k hk => hk⟩
  · split
    · -- eviction: the track leaves both maps
      refine ⟨⟨?_, ?_, ?_, ?_, ?_, ?_⟩, rfl, rfl, ?_⟩
      · exact nodup_keys_removeKey _ _ h1
      · exact nodup_keys_removeKey _ _ h2
      · intro k hk
        exact h3 _ (keys_removeKey _ _ _ hk).2
      · intro k hk
        exact h4 _ (keys_removeKey _ _ _ hk).2
      · intro k hk
        obtain ⟨hne, hk2⟩ := keys_removeKey _ _ _ hk
        exact mem_keys_removeKey_of_ne _ _ _ hne (h5 _ hk2)
      · intro cc hcc
        exact h6 _ (snd_removeKey_sub _ _ _ hcc)
      · intro k hk
        exact (keys_removeKey _ _ _ hk).2
    · -- no eviction: the disappearance counter is bumped
      refine ⟨⟨h1, ?_, h3, ?_, ?_, ?_⟩, rfl, rfl, fun k hk => hk⟩
      · exact nodup_keys_upsert _ _ _ h2
      · intro k hk
        rcases keys_upsert_sub _ _ _ _ hk with hk | hk
        · subst hk
          exact Nat.lt_of_lt_of_le (hids row) hn
        · exact h4 _ hk
      · intro k hk
        exact mem_keys_upsert_of_mem _ _ _ _ (h5 _ hk)
      · intro cc hcc
        rcases snd_upsert_mem _ _ _ _ hcc with hcc | hcc
        · exact h6 _ hcc
        · rw [hcc]
          exact Nat.le_of_not_lt (by assumption)

lemma evictFold_inv (objIds usedR : List Nat) (n : Nat)
    (hids : ∀ row : Nat, objIds.getD row 0 < n) :
    ∀ (rows : List Nat) (a : TrackerState), TrackerInv a → n ≤ a.next_id →
    TrackerInv (rows.foldl (evictStep objIds usedR) a) ∧
    (rows.foldl (evictStep objIds usedR) a).next_id = a.next_id ∧
    (rows.foldl (evictStep objIds usedR) a).max_disappeared = a.max_disappeared ∧
    (∀ k ∈ (rows.foldl (evictStep objIds usedR) a).objects.map Prod.fst,
      k ∈ a.objects.map Prod.fst) := by
  intro rows
  induction rows with
  | nil =>
    intro a h _
    exact ⟨h, rfl, rfl, fun k hk => hk⟩
  | cons r t ih =>
    intro a h hn
    simp only [List.foldl_cons]
    obtain ⟨hi, hnx, hm, hk⟩ := evictStep_inv objIds usedR n hids a r h hn
    obtain ⟨hi2, hnx2, hm2, hk2⟩ := ih _ hi (hnx ▸ hn)
    exact ⟨hi2, hnx2.trans hnx, hm2.trans hm, fun k hkk => hk _ (hk2 _ hkk)⟩

lemma regLikeFold_inv {α : Type} (f : TrackerState → α → TrackerState)
    (hf : ∀ a x, f a x = a ∨ ∃ det c, f a x = register a det c) :
    ∀ (l : List α) (a : TrackerState), TrackerInv a →
    TrackerInv (l.foldl f a) ∧
    a.next_id ≤ (l.foldl f a).next_id ∧
    (l.foldl f a).max_disappeared = a.max_disappeared ∧
    (∀ k ∈ (l.foldl f a).objects.map Prod.fst,
      k ∈ a.objects.map Prod.fst ∨ a.next_id ≤ k) ∧
    (∀ k ∈ a.objects.map Prod.fst,
      lookup? (l.foldl f a).objects k = lookup? a.objects k) ∧
    (∀ k, k ∈ (l.foldl f a).objects.map Prod.fst → ¬ k ∈ a.objects.map Prod.fst →
      ∃ o, lookup? (l.foldl f a).objects k = some o ∧ o.track_id = k ∧
        o.velocity = (0, 0) ∧ o.trajectory = [o.centroid]) := by
  intro l
  induction l with
  | nil =>
    intro a h
    refine ⟨h, le_refl _, rfl, fun k hk => Or.inl hk, fun k _ => rfl, ?_⟩
    intro k hk hk2
    exact absurd hk hk2
  | cons x t ih =>
    intro a h
    simp only [List.foldl_cons]
    rcases hf a x with hx | ⟨det, c, hx⟩
    · rw [hx]
      exact ih a h
    · rw [hx]
      have hno : ¬ a.next_id ∈ a.objects.map Prod.fst := fun hm => lt_irrefl _ (h.2.2.1 _ hm)
      have hkeys := register_keys a det c hno
      obtain ⟨hi2, hn2, hm2, hk2, hl2, hfr2⟩ := ih _ (register_inv a det c h)
      refine ⟨hi2, ?_, hm2.trans (register_max a det c), ?_, ?_, ?_⟩
      · refine le_trans (Nat.le_succ _) (le_trans (le_of_eq ?_) hn2)
        exact (register_next a det c).symm
      · intro k hk
        rcases hk2 _ hk with hk | hk
        · rw [hkeys] at hk
          rcases List.mem_append.mp hk with hk | hk
          · exact Or.inl hk
          · simp only [List.mem_singleton] at hk
            exact Or.inr (le_of_eq hk.symm)
        · rw [register_next] at hk
          exact Or.inr (le_trans (Nat.le_succ _) hk)
      · intro k hk
        have hmem2 : k ∈ (register a det c).objects.map Prod.fst := by
          rw [hkeys]
          exact List.mem_append.mpr (Or.inl hk)
        have hne : k ≠ a.next_id := fun he => hno (he ▸ hk)
        rw [hl2 _ hmem2]
        exact register_lookup_ne a det c k hne
      · intro k hk hk2
        by_cases hmem2 : k ∈ (register a det c).objects.map Prod.fst
        · have hke : k = a.next_id := by
            rw [hkeys] at hmem2
            rcases List.mem_append.mp hmem2 with hm | hm
            · exact absurd hm hk2
            · simpa using hm
          subst hke
          obtain ⟨o, ho, ho1, ho2, ho3⟩ := register_lookup_self a det c
          exact ⟨o, (hl2 _ hmem2).trans ho, ho1, ho2, ho3⟩
        · exact hfr2 _ hk hmem2

lemma mem_removed_iff (dis : List (Nat × Nat)) (M : Nat) (k : Nat)
    (hnd : (dis.map Prod.fst).Nodup) (hk : k ∈ dis.map Prod.fst) :
    k ∈ ((dis.map (fun kv => (kv.1, kv.2 + 1))).filter
        (fun kv => decide (M < kv.2))).map Prod.fst ↔
      M < lookupD dis k 0 + 1 := by
  constructor
  · intro h
    rcases List.mem_map.mp h with ⟨e, he, hfst⟩
    have h2 := List.of_mem_filter he
    have h3 := List.mem_of_mem_filter he
    rcases List.mem_map.mp h3 with ⟨kv0, hkv0, hkv0e⟩
    have hl : lookupD dis kv0.1 0 = kv0.2 := lookupD_eq_of_mem_nodup dis kv0 0 hkv0 hnd
    have hfst2 : kv0.1 = k := by
      rw [← hkv0e] at hfst
      exact hfst
    rw [← hfst2, hl]
    rw [← hkv0e] at h2
    simpa using h2
  · intro h
    refine List.mem_map.mpr ⟨(k, lookupD dis k 0 + 1), ?_, rfl⟩
    refine List.mem_filter.mpr ⟨?_, by simpa using h⟩
    exact List.mem_map.mpr ⟨(k, lookupD dis k 0), lookupD_mem_of_mem_keys dis k 0 hk, rfl⟩

lemma keys_filter_sub {κ α : Type} (l : List (κ × α)) (p : κ × α → Bool) (k : κ)
    (h : k ∈ (l.filter p).map Prod.fst) : k ∈ l.map Prod.fst := by
  rcases List.mem_map.mp h with ⟨kv, hkv, hfst⟩
  exact hfst ▸ List.mem_map_of_mem _ (List.mem_of_mem_filter hkv)

lemma mem_keys_kept (dis : List (Nat × Nat)) (M : Nat) (k : Nat)
    (hk : k ∈ dis.map Prod.fst) (h : lookupD dis k 0 + 1 ≤ M) :
    k ∈ ((dis.map (fun kv => (kv.1, kv.2 + 1))).filter
        (fun kv => decide (kv.2 ≤ M))).map Prod.fst := by
  refine List.mem_map.mpr ⟨(k, lookupD dis k 0 + 1), ?_, rfl⟩
  refine List.mem_filter.mpr ⟨?_, by simpa using h⟩
  exact List.mem_map.mpr ⟨(k, lookupD dis k 0), lookupD_mem_of_mem_keys dis k 0 hk, rfl⟩

lemma update_nil_spec (s : Settings) (st : TrackerState) (h : TrackerInv st) :
    TrackerInv (CentroidTracker.update s st []).1 ∧
    (CentroidTracker.update s st []).1.next_id = st.next_id ∧
    (CentroidTracker.update s st []).1.max_disappeared = st.max_disappeared ∧
    (∀ k ∈ (CentroidTracker.update s st []).1.objects.map Prod.fst,
      k ∈ st.objects.map Prod.fst) ∧
    (CentroidTracker.update s st []).1.objects =
      st.objects.filter (fun kv =>
        decide (lookupD st.disappeared kv.1 0 + 1 ≤ st.max_disappeared)) := by
  obtain ⟨h1, h2, h3, h4, h5, h6⟩ := h
  have hupd1 : (CentroidTracker.update s st []).1 =
      { st with
        objects := st.objects.filter (fun kv => decide (¬ kv.1 ∈
          ((st.disappeared.map (fun kv => (kv.1, kv.2 + 1))).filter
            (fun kv => decide (st.max_disappeared < kv.2))).map Prod.fst)),
        disappeared := (st.disappeared.map (fun kv => (kv.1, kv.2 + 1))).filter
          (fun kv => decide (kv.2 ≤ st.max_disappeared)) } := rfl
  have hkinc : (st.disappeared.map (fun kv => (kv.1, kv.2 + 1))).map Prod.fst =
      st.disappeared.map Prod.fst := by
    rw [List.map_map]
    exact List.map_congr_left (fun x _ => rfl)
  have hfeq : st.objects.filter (fun kv => decide (¬ kv.1 ∈
        ((st.disappeared.map (fun kv => (kv.1, kv.2 + 1))).filter
          (fun kv => decide (st.max_disappeared < kv.2))).map Prod.fst)) =
      st.objects.filter (fun kv =>
        decide (lookupD st.disappeared kv.1 0 + 1 ≤ st.max_disappeared)) := by
    apply List.filter_congr
    intro kv hkv
    have hkm : kv.1 ∈ st.disappeared.map Prod.fst :=
      h5 _ (List.mem_map_of_mem _ hkv)
    have hiff := mem_removed_iff st.disappeared st.max_disappeared kv.1 h2 hkm
    rw [decide_eq_decide]
    constructor
    · intro hna
      exact Nat.le_of_not_lt (fun hlt => hna (hiff.mpr hlt))
    · intro hle hm
      exact absurd (hiff.mp hm) (Nat.not_lt.mpr hle)
  rw [hupd1]
  refine ⟨⟨?_, ?_, ?_, ?_, ?_, ?_⟩, rfl, rfl, ?_, hfeq⟩
  · exact List.Nodup.sublist ((List.filter_sublist _).map Prod.fst) h1
  · have hs : List.Sublist
        (((st.disappeared.map (fun kv => (kv.1, kv.2 + 1))).filter
          (fun kv => decide (kv.2 ≤ st.max_disappeared))).map Prod.fst)
        ((st.disappeared.map (fun kv => (kv.1, kv.2 + 1))).map Prod.fst) :=
      (List.filter_sublist _).map Prod.fst
    rw [hkinc] at hs
    exact List.Nodup.sublist hs h2
  · intro k hk
    exact h3 _ (keys_filter_sub _ _ _ hk)
  · intro k hk
    have hk2 := keys_filter_sub _ _ _ hk
    rw [hkinc] at hk2
    exact h4 _ hk2
  · intro k hk
    rcases List.mem_map.mp hk with ⟨kv, hkvf, hfst⟩
    have hkvo := List.mem_of_mem_filter hkvf
    have hpred := List.of_mem_filter hkvf
    simp only [decide_eq_true_eq] at hpred
    have hkm : kv.1 ∈ st.disappeared.map Prod.fst :=
      h5 _ (List.mem_map_of_mem _ hkvo)
    have hiff := mem_removed_iff st.disappeared st.max_disappeared kv.1 h2 hkm
    have hle : lookupD st.disappeared kv.1 0 + 1 ≤ st.max_disappeared :=
      Nat.le_of_not_lt (fun hlt => hpred (hiff.mpr hlt))
    exact hfst ▸ mem_keys_kept st.disappeared st.max_disappeared kv.1 hkm hle
  · intro cc hcc
    rcases List.mem_map.mp hcc with ⟨e, he, hsnd⟩
    have hpred := List.of_mem_filter he
    simp only [decide_eq_true_eq] at hpred
    exact hsnd ▸ hpred
  · intro k hk
    exact keys_filter_sub _ _ _ hk

lemma lookupD_removeKey_ne {κ α : Type} [DecidableEq κ] (l : List (κ × α)) (k k' : κ)
    (d : α) (hne : k' ≠ k) : lookupD (removeKey l k) k' d = lookupD l k' d := by
  induction l with
  | nil => rfl
  | cons hd t ih =>
    by_cases h1 : hd.1 = k
    · have h2 : ¬ (hd.1 = k') := fun hh => hne (hh.symm.trans h1)
      simp only [removeKey, List.filter_cons] at ih ⊢
      rw [if_neg (by simp [h1])]
      simp only [lookupD, if_neg h2]
      exact ih
    · simp only [removeKey, List.filter_cons] at ih ⊢
      rw [if_pos (by simpa using h1)]
      by_cases h2 : hd.1 = k'
      · simp [lookupD, h2]
      · simp only [lookupD, if_neg h2]
        exact ih

lemma lookup?_removeKey_ne {κ α : Type} [DecidableEq κ] (l : List (κ × α)) (k k' : κ)
    (hne : k' ≠ k) : lookup? (removeKey l k) k' = lookup? l k' := by
  induction l with
  | nil => rfl
  | cons hd t ih =>
    by_cases h1 : hd.1 = k
    · have h2 : ¬ (hd.1 = k') := fun hh => hne (hh.symm.trans h1)
      simp only [removeKey, List.filter_cons] at ih ⊢
      rw [if_neg (by simp [h1])]
      simp only [lookup?, if_neg h2]
      exact ih
    · simp only [removeKey, List.filter_cons] at ih ⊢
      rw [if_pos (by simpa using h1)]
      by_cases h2 : hd.1 = k'
      · simp [lookup?, h2]
      · simp only [lookup?, if_neg h2]
        exact ih

lemma lookup?_some_of_mem_keys {κ α : Type} [DecidableEq κ] (l : List (κ × α)) (k : κ)
    (h : k ∈ l.map Prod.fst) : ∃ v, lookup? l k = some v := by
  induction l with
  | nil => simp at h
  | cons hd t ih =>
    by_cases h1 : hd.1 = k
    · exact ⟨hd.2, by simp [lookup?, h1]⟩
    · simp only [List.map_cons, List.mem_cons] at h
      rcases h with h | h
      · exact absurd h.symm h1
      · simpa [lookup?, h1] using ih h

lemma argminQ_lt (f : Nat → ℚ) (n : Nat) (h : 0 < n) : argminQ f n < n := by
  have step : ∀ (l : List Nat) (b : Nat), b < n → (∀ x ∈ l, x < n) →
      l.foldl (fun best c => if f c < f best then c else best) b < n := by
    intro l
    induction l with
    | nil =>
      intro b hb _
      exact hb
    | cons x t ih =>
      intro b hb hl
      simp only [List.foldl_cons]
      by_cases hc : f x < f b
      · rw [if_pos hc]
        exact ih _ (hl x (List.mem_cons_self _ _)) (fun y hy => hl y (List.mem_cons_of_mem _ hy))
      · rw [if_neg hc]
        exact ih _ hb (fun y hy => hl y (List.mem_cons_of_mem _ hy))
  exact step _ 0 h (fun x hx => List.mem_range.mp hx)

lemma update_object_untouched (s : Settings) (st : TrackerState) (tid2 : Nat)
    (det : Detection) (c : ℚ × ℚ) (tid : Nat) (hne : tid2 ≠ tid) :
    lookupD (update_object s st tid2 det c).disappeared tid 0 =
      lookupD st.disappeared tid 0 ∧
    lookup? (update_object s st tid2 det c).objects tid = lookup? st.objects tid := by
  have hne2 : tid ≠ tid2 := fun hh => hne hh.symm
  cases hl : lookup? st.objects tid2 with
  | none => simp [update_object, hl]
  | some obj =>
    simp only [update_object, hl]
    exact ⟨lookupD_upsert_ne _ _ _ _ _ hne2, lookup?_upsert_ne _ _ _ _ hne2⟩

lemma matchFold_untouched (s : Settings) (ids : List Nat) (dets : List Detection)
    (cents : List (ℚ × ℚ)) (D : Nat → Nat → ℚ) (tid : Nat) (len : Nat)
    (h0 : 0 < dets.length)
    (hfar : ∀ row, row < len → ids.getD row 0 = tid →
      ∀ c, c < dets.length → s.MAX_TRACK_DISTANCE * s.MAX_TRACK_DISTANCE < D row c) :
    ∀ (rows : List Nat), (∀ row ∈ rows, row < len) →
    ∀ (acc : TrackerState × List Nat × List Nat),
    lookupD (rows.foldl (matchStep s ids dets cents D) acc).1.disappeared tid 0 =
      lookupD acc.1.disappeared tid 0 ∧
    lookup? (rows.foldl (matchStep s ids dets cents D) acc).1.objects tid =
      lookup? acc.1.objects tid := by
  intro rows
  induction rows with
  | nil =>
    intro _ acc
    exact ⟨rfl, rfl⟩
  | cons r t ih =>
    intro hr acc
    simp only [List.foldl_cons]
    obtain ⟨st0, uR, uC⟩ := acc
    have ht : ∀ row ∈ t, row < len := fun row hrow => hr row (List.mem_cons_of_mem _ hrow)
    by_cases h1 : r ∈ uR ∨ argminQ (D r) dets.length ∈ uC
    · have hstep : matchStep s ids dets cents D (st0, uR, uC) r = (st0, uR, uC) := by
        simp only [matchStep, if_pos h1]
      rw [hstep]
      exact ih ht (st0, uR, uC)
    · by_cases h2 : s.MAX_TRACK_DISTANCE * s.MAX_TRACK_DISTANCE <
          D r (argminQ (D r) dets.length)
      · have hstep : matchStep s ids dets cents D (st0, uR, uC) r = (st0, uR, uC) := by
          simp only [matchStep, if_neg h1, if_pos h2]
        rw [hstep]
        exact ih ht (st0, uR, uC)
      · have hstep : matchStep s ids dets cents D (st0, uR, uC) r =
            (update_object s st0 (ids.getD r 0)
              (dets.getD (argminQ (D r) dets.length) default)
              (cents.getD (argminQ (D r) dets.length) (0, 0)),
             uR ++ [r], uC ++ [argminQ (D r) dets.length]) := by
          simp only [matchStep, if_neg h1, if_neg h2]
        rw [hstep]
        have hne : ids.getD r 0 ≠ tid := by
          intro he
          exact h2 (hfar r (hr r (List.mem_cons_self _ _)) he _
            (argminQ_lt (D r) dets.length h0))
        obtain ⟨hu1, hu2⟩ := update_object_untouched s st0 (ids.getD r 0)
          (dets.getD (argminQ (D r) dets.length) default)
          (cents.getD (argminQ (D r) dets.length) (0, 0)) tid hne
        obtain ⟨hi1, hi2⟩ := ih ht
          (update_object s st0 (ids.getD r 0)
            (dets.getD (argminQ (D r) dets.length) default)
            (cents.getD (argminQ (D r) dets.length) (0, 0)),
           uR ++ [r], uC ++ [argminQ (D r) dets.length])
        exact ⟨hi1.trans hu1, hi2.trans hu2⟩

lemma matchFold_unusedR (s : Settings) (ids : List Nat) (dets : List Detection)
    (cents : List (ℚ × ℚ)) (D : Nat → Nat → ℚ) (r0 : Nat) (h0 : 0 < dets.length)
    (hfar : ∀ c, c < dets.length →
      s.MAX_TRACK_DISTANCE * s.MAX_TRACK_DISTANCE < D r0 c) :
    ∀ (rows : List Nat) (acc : TrackerState × List Nat × List Nat),
    ¬ r0 ∈ acc.2.1 → ¬ r0 ∈ (rows.foldl (matchStep s ids dets cents D) acc).2.1 := by
  intro rows
  induction rows with
  | nil =>
    intro acc h
    exact h
  | cons r t ih =>
    intro acc h
    simp only [List.foldl_cons]
    obtain ⟨st0, uR, uC⟩ := acc
    by_cases h1 : r ∈ uR ∨ argminQ (D r) dets.length ∈ uC
    · have hstep : matchStep s ids dets cents D (st0, uR, uC) r = (st0, uR, uC) := by
        simp only [matchStep, if_pos h1]
      rw [hstep]
      exact ih _ h
    · by_cases h2 : s.MAX_TRACK_DISTANCE * s.MAX_TRACK_DISTANCE <
          D r (argminQ (D r) dets.length)
      · have hstep : matchStep s ids dets cents D (st0, uR, uC) r = (st0, uR, uC) := by
          simp only [matchStep, if_neg h1, if_pos h2]
        rw [hstep]
        exact ih _ h
      · have hstep : matchStep s ids dets cents D (st0, uR, uC) r =
            (update_object s st0 (ids.getD r 0)
              (dets.getD (argminQ (D r) dets.length) default)
              (cents.getD (argminQ (D r) dets.length) (0, 0)),
             uR ++ [r], uC ++ [argminQ (D r) dets.length]) := by
          simp only [matchStep, if_neg h1, if_neg h2]
        rw [hstep]
        refine ih _ ?_
        intro hmem
        rcases List.mem_append.mp hmem with hmem | hmem
        · exact h hmem
        · simp only [List.mem_singleton] at hmem
          subst hmem
          exact h2 (hfar _ (argminQ_lt (D r0) dets.length h0))

lemma matchFold_usedC_far (s : Settings) (ids : List Nat) (dets : List Detection)
    (cents : List (ℚ × ℚ)) (D : Nat → Nat → ℚ) (len : Nat) :
    ∀ (rows : List Nat), (∀ row ∈ rows, row < len) →
    ∀ (acc : TrackerState × List Nat × List Nat),
    (∀ c ∈ acc.2.2, ∃ r, r < len ∧
      D r c ≤ s.MAX_TRACK_DISTANCE * s.MAX_TRACK_DISTANCE) →
    ∀ c ∈ (rows.foldl (matchStep s ids dets cents D) acc).2.2,
      ∃ r, r < len ∧ D r c ≤ s.MAX_TRACK_DISTANCE * s.MAX_TRACK_DISTANCE := by
  intro rows
  induction rows with
  | nil =>
    intro _ acc hacc
    exact hacc
  | cons r t ih =>
    intro hr acc hacc
    simp only [List.foldl_cons]
    obtain ⟨st0, uR, uC⟩ := acc
    have ht : ∀ row ∈ t, row < len := fun row hrow => hr row (List.mem_cons_of_mem _ hrow)
    by_cases h1 : r ∈ uR ∨ argminQ (D r) dets.length ∈ uC
    · have hstep : matchStep s ids dets cents D (st0, uR, uC) r = (st0, uR, uC) := by
        simp only [matchStep, if_pos h1]
      rw [hstep]
      exact ih ht _ hacc
    · by_cases h2 : s.MAX_TRACK_DISTANCE * s.MAX_TRACK_DISTANCE <
          D r (argminQ (D r) dets.length)
      · have hstep : matchStep s ids dets cents D (st0, uR, uC) r = (st0, uR, uC) := by
          simp only [matchStep, if_neg h1, if_pos h2]
        rw [hstep]
        exact ih ht _ hacc
      · have hstep : matchStep s ids dets cents D (st0, uR, uC) r =
            (update_object s st0 (ids.getD r 0)
              (dets.getD (argminQ (D r) dets.length) default)
              (cents.getD (argminQ (D r) dets.length) (0, 0)),
             uR ++ [r], uC ++ [argminQ (D r) dets.length]) := by
          simp only [matchStep, if_neg h1, if_neg h2]
        rw [hstep]
        refine ih ht _ ?_
        intro c hc
        rcases List.mem_append.mp hc with hc | hc
        · exact hacc c hc
        · simp only [List.mem_singleton] at hc
          subst hc
          exact ⟨r, hr r (List.mem_cons_self _ _), le_of_not_lt h2⟩

lemma evictStep_untouched (objIds usedR : List Nat) (a : TrackerState) (row : Nat)
    (tid : Nat) (hne : objIds.getD row 0 ≠ tid) :
    lookupD (evictStep objIds usedR a row).disappeared tid 0 =
      lookupD a.disappeared tid 0 ∧
    lookup? (evictStep objIds usedR a row).objects tid = lookup? a.objects tid ∧
    (evictStep objIds usedR a row).max_disappeared = a.max_disappeared ∧
    (¬ tid ∈ a.objects.map Prod.fst →
      ¬ tid ∈ (evictStep objIds usedR a row).objects.map Prod.fst) := by
  have hne2 : tid ≠ objIds.getD row 0 := fun hh => hne hh.symm
  simp only [evictStep]
  split
  · exact ⟨rfl, rfl, rfl, fun h => h⟩
  · split
    · refine ⟨lookupD_removeKey_ne _ _ _ _ hne2, lookup?_removeKey_ne _ _ _ hne2,
        rfl, ?_⟩
      intro h hm
      exact h (keys_removeKey _ _ _ hm).2
    · exact ⟨lookupD_upsert_ne _ _ _ _ _ hne2, rfl, rfl, fun h => h⟩

lemma evictFold_untouched (objIds usedR : List Nat) (tid : Nat) :
    ∀ (l : List Nat) (a : TrackerState), (∀ row ∈ l, objIds.getD row 0 ≠ tid) →
    lookupD (l.foldl (evictStep objIds usedR) a).disappeared tid 0 =
      lookupD a.disappeared tid 0 ∧
    lookup? (l.foldl (evictStep objIds usedR) a).objects tid =
      lookup? a.objects tid ∧
    (¬ tid ∈ a.objects.map Prod.fst →
      ¬ tid ∈ (l.foldl (evictStep objIds usedR) a).objects.map Prod.fst) := by
  intro l
  induction l with
  | nil =>
    intro a _
    exact ⟨rfl, rfl, fun h => h⟩
  | cons x t ih =>
    intro a hl
    simp only [List.foldl_cons]
    obtain ⟨hu1, hu2, _, hu4⟩ := evictStep_untouched objIds usedR a x tid
      (hl x (List.mem_cons_self _ _))
    obtain ⟨hi1, hi2, hi3⟩ := ih (evictStep objIds usedR a x)
      (fun row hrow => hl row (List.mem_cons_of_mem _ hrow))
    exact ⟨hi1.trans hu1, hi2.trans hu2, fun h => hi3 (hu4 h)⟩

lemma evictFold_hit (objIds usedR : List Nat) (r0 tid : Nat)
    (htid : objIds.getD r0 0 = tid)
    (hinj : ∀ row, row < objIds.length → objIds.getD row 0 = tid → row = r0)
    (hused : ¬ r0 ∈ usedR) :
    ∀ (l : List Nat), l.Nodup → (∀ row ∈ l, row < objIds.length) → r0 ∈ l →
    ∀ (a : TrackerState),
    (a.max_disappeared < lookupD a.disappeared tid 0 + 1 →
      ¬ tid ∈ (l.foldl (evictStep objIds usedR) a).objects.map Prod.fst) ∧
    (lookupD a.disappeared tid 0 + 1 ≤ a.max_disappeared →
      lookupD (l.foldl (evictStep objIds usedR) a).disappeared tid 0 =
        lookupD a.disappeared tid 0 + 1 ∧
      lookup? (l.foldl (evictStep objIds usedR) a).objects tid =
        lookup? a.objects tid) := by
  intro l
  induction l with
  | nil =>
    intro _ _ hr0
    simp at hr0
  | cons x t ih =>
    intro hnd hlt hr0 a
    simp only [List.foldl_cons]
    rw [List.nodup_cons] at hnd
    by_cases hx : x = r0
    · rw [hx]
      have hstep : evictStep objIds usedR a r0 =
          (if a.max_disappeared < lookupD a.disappeared tid 0 + 1 then
            { a with objects := removeKey a.objects tid,
                     disappeared := removeKey a.disappeared tid }
          else { a with disappeared := upsert a.disappeared tid (lookupD a.disappeared tid 0 + 1) }) := by
        simp only [evictStep, if_neg hused, htid]
      rw [hstep]
      have htfree : ∀ row ∈ t, objIds.getD row 0 ≠ tid := by
        intro row hrow he
        have hre := hinj row (hlt row (List.mem_cons_of_mem _ hrow)) he
        rw [hre] at hrow
        rw [hx] at hnd
        exact hnd.1 hrow
      by_cases hcond : a.max_disappeared < lookupD a.disappeared tid 0 + 1
      · rw [if_pos hcond]
        constructor
        · intro _
          obtain ⟨_, _, hi3⟩ := evictFold_untouched objIds usedR tid t
            { a with objects := removeKey a.objects tid,
                     disappeared := removeKey a.disappeared tid } htfree
          refine hi3 ?_
          intro hm
          exact (keys_removeKey _ _ _ hm).1 rfl
        · intro hle
          exact absurd hcond (Nat.not_lt.mpr hle)
      · rw [if_neg hcond]
        constructor
        · intro hlt2
          exact absurd hlt2 hcond
        · intro _
          obtain ⟨hi1, hi2, _⟩ := evictFold_untouched objIds usedR tid t
            { a with disappeared := upsert a.disappeared tid (lookupD a.disappeared tid 0 + 1) } htfree
          exact ⟨hi1.trans (lookupD_upsert _ _ _ _), hi2⟩
    · have hr0t : r0 ∈ t := by
        rcases List.mem_cons.mp hr0 with hh | hh
        · exact absurd hh.symm hx
        · exact hh
      have hne_x : objIds.getD x 0 ≠ tid := by
        intro he
        exact hx (hinj x (hlt x (List.mem_cons_self _ _)) he)
      obtain ⟨hu1, hu2, hu3, _⟩ := evictStep_untouched objIds usedR a x tid hne_x
      obtain ⟨hiA, hiB⟩ := ih hnd.2 (fun row hrow => hlt row (List.mem_cons_of_mem _ hrow))
        hr0t (evictStep objIds usedR a x)
      constructor
      · intro hlt2
        rw [← hu3, ← hu1] at hlt2
        exact hiA hlt2
      · intro hle
        rw [← hu3, ← hu1] at hle
        obtain ⟨hb1, hb2⟩ := hiB hle
        exact ⟨hb1.trans (by rw [hu1]), hb2.trans hu2⟩

lemma regLikeFold_disappeared {α : Type} (f : TrackerState → α → TrackerState)
    (hf : ∀ a x, f a x = a ∨ ∃ det c, f a x = register a det c) (tid : Nat) :
    ∀ (l : List α) (a : TrackerState), tid < a.next_id →
    lookupD (l.foldl f a).disappeared tid 0 = lookupD a.disappeared tid 0 := by
  intro l
  induction l with
  | nil =>
    intro a _
    rfl
  | cons x t ih =>
    intro a hlt
    simp only [List.foldl_cons]
    rcases hf a x with hx | ⟨det, c, hx⟩
    · rw [hx]
      exact ih a hlt
    · rw [hx]
      have h1 : lookupD (register a det c).disappeared tid 0 =
          lookupD a.disappeared tid 0 :=
        lookupD_upsert_ne _ _ _ _ _ (Nat.ne_of_lt hlt)
      have h2 := ih (register a det c) (by rw [register_next]; exact Nat.lt_succ_of_lt hlt)
      exact h2.trans h1

lemma regPairFold_mem :
    ∀ (l : List (Detection × (ℚ × ℚ))) (a : TrackerState), TrackerInv a →
    ∀ dc ∈ l, ∃ k, a.next_id ≤ k ∧ ∃ o,
      lookup? (l.foldl (fun a dc => register a dc.1 dc.2) a).objects k = some o ∧
      o.centroid = dc.2 ∧ o.class_name = dc.1.class_name ∧ o.bbox = dc.1.bbox ∧
      o.velocity = (0, 0) ∧ o.trajectory = [o.centroid] := by
  intro l
  induction l with
  | nil =>
    intro a _ dc hdc
    simp at hdc
  | cons x t ih =>
    intro a hInv dc hdc
    simp only [List.foldl_cons]
    have hInv2 : TrackerInv (register a x.1 x.2) := register_inv _ _ _ hInv
    rcases List.mem_cons.mp hdc with hdcx | hdct
    · rw [← hdcx]
      have hno : ¬ a.next_id ∈ a.objects.map Prod.fst :=
        fun hm => lt_irrefl _ (hInv.2.2.1 _ hm)
      have hmem : a.next_id ∈ (register a dc.1 dc.2).objects.map Prod.fst := by
        rw [register_keys a dc.1 dc.2 hno]
        simp
      have hl5 := (regLikeFold_inv (fun a dc => register a dc.1 dc.2)
        (fun a dc => Or.inr ⟨dc.1, dc.2, rfl⟩) t (register a dc.1 dc.2)
        (register_inv _ _ _ hInv)).2.2.2.2.1
      exact ⟨a.next_id, le_refl _, _,
        (hl5 _ hmem).trans (lookup?_upsert a.objects a.next_id _), rfl, rfl, rfl, rfl, rfl⟩
    · obtain ⟨k, hk, rest⟩ := ih (register a x.1 x.2) hInv2 dc hdct
      exact ⟨k, le_trans (Nat.le_succ _)
        (le_trans (le_of_eq (register_next a x.1 x.2).symm) hk), rest⟩

lemma regStepFold_mem (dets : List Detection) (cents : List (ℚ × ℚ)) (usedC : List Nat) :
    ∀ (l : List Nat) (a : TrackerState), TrackerInv a →
    ∀ c0 ∈ l, ¬ c0 ∈ usedC → ∃ k, a.next_id ≤ k ∧ ∃ o,
      lookup? (l.foldl (regStep dets cents usedC) a).objects k = some o ∧
      o.centroid = cents.getD c0 (0, 0) ∧
      o.class_name = (dets.getD c0 default).class_name ∧
      o.bbox = (dets.getD c0 default).bbox ∧
      o.velocity = (0, 0) ∧ o.trajectory = [o.centroid] := by
  have hfR : ∀ (b : TrackerState) (y : Nat), regStep dets cents usedC b y = b ∨
      ∃ det cc, regStep dets cents usedC b y = register b det cc := by
    intro b y
    by_cases hy : y ∈ usedC
    · exact Or.inl (by simp [regStep, hy])
    · exact Or.inr ⟨dets.getD y default, cents.getD y (0, 0), by simp [regStep, hy]⟩
  intro l
  induction l with
  | nil =>
    intro a _ c0 hc0 _
    simp at hc0
  | cons x t ih =>
    intro a hInv c0 hc0 hcu
    simp only [List.foldl_cons]
    rcases List.mem_cons.mp hc0 with hc0x | hc0t
    · rw [← hc0x]
      have hstep : regStep dets cents usedC a c0 =
          register a (dets.getD c0 default) (cents.getD c0 (0, 0)) := by
        simp [regStep, hcu]
      rw [hstep]
      have hno : ¬ a.next_id ∈ a.objects.map Prod.fst :=
        fun hm => lt_irrefl _ (hInv.2.2.1 _ hm)
      have hmem : a.next_id ∈ (register a (dets.getD c0 default)
          (cents.getD c0 (0, 0))).objects.map Prod.fst := by
        rw [register_keys _ _ _ hno]
        simp
      have hl5 := (regLikeFold_inv (regStep dets cents usedC) hfR t
        (register a (dets.getD c0 default) (cents.getD c0 (0, 0)))
        (register_inv _ _ _ hInv)).2.2.2.2.1
      exact ⟨a.next_id, le_refl _, _,
        (hl5 _ hmem).trans (lookup?_upsert a.objects a.next_id _), rfl, rfl, rfl, rfl, rfl⟩
    · rcases hfR a x with hx | ⟨det, cc, hx⟩
      · rw [hx]
        exact ih a hInv c0 hc0t hcu
      · rw [hx]
        obtain ⟨k, hk, rest⟩ := ih (register a det cc) (register_inv _ _ _ hInv) c0 hc0t hcu
        exact ⟨k, le_trans (Nat.le_succ _)
          (le_trans (le_of_eq (register_next a det cc).symm) hk), rest⟩

lemma getD_map_of_lt {α β : Type} (f : α → β) (l : List α) (i : Nat) (d : β)
    (h : i < l.length) : (l.map f).getD i d = f (l[i]) := by
  have h2 : i < (l.map f).length := by simpa using h
  rw [List.getD_eq_getElem _ _ h2, List.getElem_map]

lemma zip_getD_mem {α β : Type} (l1 : List α) (l2 : List β) (i : Nat)
    (d1 : α) (d2 : β) (h : i < l1.length) (hl : l2.length = l1.length) :
    (l1.getD i d1, l2.getD i d2) ∈ l1.zip l2 := by
  induction l1 generalizing l2 i with
  | nil => simp at h
  | cons a t1 ih =>
    cases l2 with
    | nil => simp at hl
    | cons b t2 =>
      cases i with
      | zero =>
        simp only [List.zip_cons_cons, List.getD_cons_zero]
        exact List.mem_cons_self _ _
      | succ n =>
        simp only [List.zip_cons_cons, List.getD_cons_succ]
        refine List.mem_cons_of_mem _ (ih t2 n ?_ ?_)
        · simpa using h
        · simpa using hl

/-- C3: `CentroidTracker.update` maintains the tracker invariants: track
ids stay duplicate-free and below the monotonically non-decreasing id
counter, every surviving disappearance counter is at most the eviction
threshold (so a track whose counter would exceed it is gone), every
object key after a call is either an old key or a fresh id at least the
old counter value (so an evicted id is never reused), every genuinely
new key maps to a freshly registered track whose id equals its key,
with zero velocity and a single-point trajectory; the call is total and
returns exactly the tracked objects of the final state (no exception
path exists in the embedding); with no detections, exactly the tracks
whose incremented disappearance counter stays within the threshold are
kept; the threshold defaults to 15; a detection farther than the max
link distance from every existing track (vacuously, any detection when
no track exists) is actually registered: some fresh id at least the old
counter maps to a track carrying exactly that detection's centroid,
class, and box, with zero velocity and a single-point trajectory; and
on a frame with detections, a track farther than the max link distance
from every detection has its disappearance counter incremented, being
evicted exactly when the incremented counter exceeds the threshold and
otherwise kept unchanged. -/
theorem C3_tracker_update_invariants (s : Settings) (st : TrackerState)
    (detections : List Detection) (h : TrackerInv st) :
    TrackerInv (CentroidTracker.update s st detections).1
    ∧ st.next_id ≤ (CentroidTracker.update s st detections).1.next_id
    ∧ (CentroidTracker.update s st detections).1.max_disappeared = st.max_disappeared
    ∧ (∀ k ∈ (CentroidTracker.update s st detections).1.objects.map Prod.fst,
        k ∈ st.objects.map Prod.fst ∨ st.next_id ≤ k)
    ∧ (∀ k, k ∈ (CentroidTracker.update s st detections).1.objects.map Prod.fst →
        ¬ k ∈ st.objects.map Prod.fst →
        ∃ o, lookup? (CentroidTracker.update s st detections).1.objects k = some o ∧
          o.track_id = k ∧ o.velocity = (0, 0) ∧ o.trajectory = [o.centroid])
    ∧ (CentroidTracker.update s st detections).2 =
        (CentroidTracker.update s st detections).1.objects.map Prod.snd
    ∧ (detections = [] →
        (CentroidTracker.update s st detections).1.objects =
          st.objects.filter (fun kv =>
            decide (lookupD st.disappeared kv.1 0 + 1 ≤ st.max_disappeared)))
    ∧ ({} : TrackerState).max_disappeared = 15
    ∧ (∀ c0, c0 < detections.length →
        (∀ kv ∈ st.objects, s.MAX_TRACK_DISTANCE * s.MAX_TRACK_DISTANCE <
          dist2 kv.2.centroid (detCentroid (detections.getD c0 default))) →
        ∃ k, st.next_id ≤ k ∧ ∃ o,
          lookup? (CentroidTracker.update s st detections).1.objects k = some o ∧
          o.centroid = detCentroid (detections.getD c0 default) ∧
          o.class_name = (detections.getD c0 default).class_name ∧
          o.bbox = (detections.getD c0 default).bbox ∧
          o.velocity = (0, 0) ∧ o.trajectory = [o.centroid])
    ∧ (∀ kv ∈ st.objects, detections ≠ [] →
        (∀ det ∈ detections, s.MAX_TRACK_DISTANCE * s.MAX_TRACK_DISTANCE <
          dist2 kv.2.centroid (detCentroid det)) →
        (st.max_disappeared < lookupD st.disappeared kv.1 0 + 1 →
          ¬ kv.1 ∈ (CentroidTracker.update s st detections).1.objects.map Prod.fst) ∧
        (lookupD st.disappeared kv.1 0 + 1 ≤ st.max_disappeared →
          lookupD (CentroidTracker.update s st detections).1.disappeared kv.1 0 =
            lookupD st.disappeared kv.1 0 + 1 ∧
          lookup? (CentroidTracker.update s st detections).1.objects kv.1 =
            lookup? st.objects kv.1)) := by
  obtain ⟨nid, objs, dis, maxd⟩ := st
  cases detections with
  | nil =>
    obtain ⟨hI, hn, hm, hsub, hfe⟩ := update_nil_spec s ⟨nid, objs, dis, maxd⟩ h
    refine ⟨hI, le_of_eq hn.symm, hm, ?_, ?_, rfl, ?_, rfl, ?_, ?_⟩
    · intro k hk
      exact Or.inl (hsub _ hk)
    · intro k hk hk0
      exact absurd (hsub _ hk) hk0
    · intro _
      exact hfe
    · intro c0 hc0 _
      simp at hc0
    · intro kv _ hne _
      exact absurd rfl hne
  | cons d ds =>
    cases objs with
    | nil =>
      let cents := (d :: ds).map detCentroid
      let st1b := ((d :: ds).zip cents).foldl (fun a dc => register a dc.1 dc.2)
        (⟨nid, [], dis, maxd⟩ : TrackerState)
      have hupd1 : (CentroidTracker.update s ⟨nid, [], dis, maxd⟩ (d :: ds)).1 = st1b := rfl
      have hupd2 : (CentroidTracker.update s ⟨nid, [], dis, maxd⟩ (d :: ds)).2 =
          st1b.objects.map Prod.snd := rfl
      have hfZ : ∀ (a : TrackerState) (dc : Detection × (ℚ × ℚ)),
          (fun (a : TrackerState) (dc : Detection × (ℚ × ℚ)) =>
            register a dc.1 dc.2) a dc = a ∨
          ∃ det cc, (fun (a : TrackerState) (dc : Detection × (ℚ × ℚ)) =>
            register a dc.1 dc.2) a dc = register a det cc :=
        fun a dc => Or.inr ⟨dc.1, dc.2, rfl⟩
      have hR := regLikeFold_inv _ hfZ ((d :: ds).zip cents) ⟨nid, [], dis, maxd⟩ h
      rw [hupd1, hupd2]
      refine ⟨hR.1, hR.2.1, hR.2.2.1, hR.2.2.2.1, hR.2.2.2.2.2, rfl, ?_, rfl, ?_, ?_⟩
      · intro hc
        exact absurd hc (List.cons_ne_nil _ _)
      · intro c0 hc0 _
        have hdc : ((d :: ds).getD c0 default, cents.getD c0 (0, 0)) ∈
            (d :: ds).zip cents :=
          zip_getD_mem _ _ _ _ _ hc0 (List.length_map _ _)
        obtain ⟨k, hk, o2, ho, hoc, hocls, hob, hov, hot⟩ :=
          regPairFold_mem ((d :: ds).zip cents) ⟨nid, [], dis, maxd⟩ h _ hdc
        refine ⟨k, hk, o2, ho, ?_, hocls, hob, hov, hot⟩
        rw [hoc]
        have hcget : cents.getD c0 (0, 0) = detCentroid ((d :: ds)[c0]) :=
          getD_map_of_lt detCentroid (d :: ds) c0 (0, 0) hc0
        rw [hcget, List.getD_eq_getElem _ _ hc0]
      · intro kv hkv
        simp at hkv
    | cons o os =>
      have h3 : ∀ k ∈ (o :: os).map Prod.fst, k < nid := h.2.2.1
      have hpos : 0 < nid :=
        Nat.lt_of_le_of_lt (Nat.zero_le o.1)
          (h3 o.1 (List.mem_map_of_mem Prod.fst (List.mem_cons_self o os)))
      have hids : ∀ row : Nat, ((o :: os).map Prod.fst).getD row 0 < nid := by
        intro row
        by_cases hr : row < ((o :: os).map Prod.fst).length
        · have hmem : ((o :: os).map Prod.fst).getD row 0 ∈ (o :: os).map Prod.fst := by
            rw [List.getD_eq_getElem _ _ hr]
            exact List.getElem_mem _
          exact h3 _ hmem
        · rw [List.getD_eq_default _ _ (Nat.le_of_not_lt hr)]
          exact hpos
      let cents := (d :: ds).map detCentroid
      let objIds := (o :: os).map Prod.fst
      let objCents := (o :: os).map (fun kv => kv.2.centroid)
      let nC := (d :: ds).length
      let D : Nat → Nat → ℚ :=
        fun r c => dist2 (objCents.getD r (0, 0)) (cents.getD c (0, 0))
      let rows := (List.range objIds.length).mergeSort
        (fun a b => decide (minQ (D a) nC ≤ minQ (D b) nC))
      let m := rows.foldl (matchStep s objIds (d :: ds) cents D)
        ((⟨nid, o :: os, dis, maxd⟩ : TrackerState), ([] : List Nat), ([] : List Nat))
      let st1 := m.1
      let usedR := m.2.1
      let usedC := m.2.2
      let st2 := (List.range objIds.length).foldl (evictStep objIds usedR) st1
      let st3 := (List.range nC).foldl (regStep (d :: ds) cents usedC) st2
      have hupd1 : (CentroidTracker.update s ⟨nid, o :: os, dis, maxd⟩ (d :: ds)).1 =
          st3 := rfl
      have hupd2 : (CentroidTracker.update s ⟨nid, o :: os, dis, maxd⟩ (d :: ds)).2 =
          st3.objects.map Prod.snd := rfl
      have hM := matchFold_inv s objIds (d :: ds) cents D rows
        ((⟨nid, o :: os, dis, maxd⟩ : TrackerState), ([] : List Nat), ([] : List Nat)) h
      have hI1 : TrackerInv st1 := hM.1
      have hn1 : st1.next_id = nid := hM.2.1
      have hm1 : st1.max_disappeared = maxd := hM.2.2.1
      have hk1 : st1.objects.map Prod.fst = (o :: os).map Prod.fst := hM.2.2.2
      have hE := evictFold_inv objIds usedR nid hids (List.range objIds.length) st1 hI1
        (le_of_eq hn1.symm)
      have hI2 : TrackerInv st2 := hE.1
      have hn2 : st2.next_id = st1.next_id := hE.2.1
      have hm2 : st2.max_disappeared = st1.max_disappeared := hE.2.2.1
      have hk2 : ∀ k ∈ st2.objects.map Prod.fst, k ∈ st1.objects.map Prod.fst := hE.2.2.2
      have hfR : ∀ (a : TrackerState) (x : Nat),
          regStep (d :: ds) cents usedC a x = a ∨
          ∃ det cc, regStep (d :: ds) cents usedC a x = register a det cc := by
        intro a x
        by_cases hx : x ∈ usedC
        · exact Or.inl (by simp [regStep, hx])
        · exact Or.inr ⟨(d :: ds).getD x default, cents.getD x (0, 0),
            by simp [regStep, hx]⟩
      have hR := regLikeFold_inv (regStep (d :: ds) cents usedC) hfR (List.range nC) st2 hI2
      have hI3 : TrackerInv st3 := hR.1
      have hn3 : st2.next_id ≤ st3.next_id := hR.2.1
      have hm3 : st3.max_disappeared = st2.max_disappeared := hR.2.2.1
      have hk3 : ∀ k ∈ st3.objects.map Prod.fst,
          k ∈ st2.objects.map Prod.fst ∨ st2.next_id ≤ k := hR.2.2.2.1
      have hfr3 : ∀ k, k ∈ st3.objects.map Prod.fst → ¬ k ∈ st2.objects.map Prod.fst →
          ∃ o2, lookup? st3.objects k = some o2 ∧ o2.track_id = k ∧
            o2.velocity = (0, 0) ∧ o2.trajectory = [o2.centroid] := hR.2.2.2.2.2
      rw [hupd1, hupd2]
      have hoblen : objIds.length = (o :: os).length := List.length_map _ _
      have hrowslt : ∀ row ∈ rows, row < objIds.length := by
        intro row hrow
        exact List.mem_range.mp (List.mem_mergeSort.mp hrow)
      refine ⟨hI3, ?_, ?_, ?_, ?_, rfl, ?_, rfl, ?_, ?_⟩
      · exact le_trans (le_of_eq hn1.symm) (le_trans (le_of_eq hn2.symm) hn3)
      · exact hm3.trans (hm2.trans hm1)
      · intro k hk
        rcases hk3 k hk with hkm | hkm
        · exact Or.inl (hk1 ▸ hk2 _ hkm)
        · exact Or.inr (le_trans (le_of_eq hn1.symm) (le_trans (le_of_eq hn2.symm) hkm))
      · intro k hk hk0
        have hk2m : ¬ k ∈ st2.objects.map Prod.fst := fun hm => hk0 (hk1 ▸ hk2 _ hm)
        exact hfr3 k hk hk2m
      · intro hc
        exact absurd hc (List.cons_ne_nil _ _)
      · -- a detection far from every track is registered fresh
        intro c0 hc0 hfarA
        have husedC : ¬ c0 ∈ usedC := by
          intro hcu
          obtain ⟨r, hrlen, hrle⟩ := matchFold_usedC_far s objIds (d :: ds) cents D
            objIds.length rows hrowslt
            ((⟨nid, o :: os, dis, maxd⟩ : TrackerState), ([] : List Nat), ([] : List Nat))
            (by intro c hcc; simp at hcc) c0 hcu
          have hrlen2 : r < (o :: os).length := by
            rw [← hoblen]
            exact hrlen
          have hrle2 : dist2 (objCents.getD r (0, 0)) (cents.getD c0 (0, 0)) ≤
              s.MAX_TRACK_DISTANCE * s.MAX_TRACK_DISTANCE := hrle
          have he1 : objCents.getD r (0, 0) = ((o :: os)[r]).2.centroid :=
            getD_map_of_lt (fun kv2 => kv2.2.centroid) (o :: os) r (0, 0) hrlen2
          have he2 : cents.getD c0 (0, 0) = detCentroid ((d :: ds)[c0]) :=
            getD_map_of_lt detCentroid (d :: ds) c0 (0, 0) hc0
          rw [he1, he2] at hrle2
          have hfr := hfarA ((o :: os)[r]) (List.getElem_mem _)
          rw [List.getD_eq_getElem _ _ hc0] at hfr
          exact absurd hrle2 (not_le.mpr hfr)
        obtain ⟨k, hk4, o2, ho, hoc, hocls, hob, hov, hot⟩ :=
          regStepFold_mem (d :: ds) cents usedC (List.range nC) st2 hI2 c0
            (List.mem_range.mpr hc0) husedC
        refine ⟨k, ?_, o2, ho, ?_, hocls, hob, hov, hot⟩
        · exact le_trans (le_of_eq (hn2.trans hn1).symm) hk4
        · rw [hoc]
          have hcget : cents.getD c0 (0, 0) = detCentroid ((d :: ds)[c0]) :=
            getD_map_of_lt detCentroid (d :: ds) c0 (0, 0) hc0
          rw [hcget, List.getD_eq_getElem _ _ hc0]
      · -- a track far from every detection disappears one more frame
        intro kv hkv hne2 hfarB
        obtain ⟨r0, hr0len, hr0eq⟩ := List.mem_iff_getElem.mp hkv
        have hr0m : r0 < ((o :: os).map Prod.fst).length := by simpa using hr0len
        have htid : objIds.getD r0 0 = kv.1 := by
          have hh : ((o :: os).map Prod.fst).getD r0 0 = kv.1 := by
            rw [getD_map_of_lt Prod.fst (o :: os) r0 0 hr0len, hr0eq]
          exact hh
        have hinj2 : ∀ row, row < objIds.length → objIds.getD row 0 = kv.1 →
            row = r0 := by
          intro row hrl hre
          have hrl2 : row < (o :: os).length := by
            rw [← hoblen]
            exact hrl
          have hrlm : row < ((o :: os).map Prod.fst).length := by simpa using hrl2
          have hre2 : ((o :: os).map Prod.fst).getD row 0 = kv.1 := hre
          rw [getD_map_of_lt Prod.fst (o :: os) row 0 hrl2] at hre2
          have hm0 : ((o :: os).map Prod.fst)[row] = ((o :: os).map Prod.fst)[r0] := by
            rw [List.getElem_map, List.getElem_map, hre2, hr0eq]
          exact (List.Nodup.getElem_inj_iff h.1).mp hm0
        have hr0lenI : r0 < objIds.length := by
          rw [hoblen]
          exact hr0len
        have hfarRow : ∀ c, c < (d :: ds).length →
            s.MAX_TRACK_DISTANCE * s.MAX_TRACK_DISTANCE < D r0 c := by
          intro c hclen
          have hgoal : s.MAX_TRACK_DISTANCE * s.MAX_TRACK_DISTANCE <
              dist2 kv.2.centroid (detCentroid ((d :: ds).getD c default)) := by
            refine hfarB _ ?_
            rw [List.getD_eq_getElem _ _ hclen]
            exact List.getElem_mem _
          have he1 : objCents.getD r0 (0, 0) = kv.2.centroid := by
            have hh : ((o :: os).map (fun kv2 => kv2.2.centroid)).getD r0 (0, 0) =
                ((o :: os)[r0]).2.centroid :=
              getD_map_of_lt (fun kv2 => kv2.2.centroid) (o :: os) r0 (0, 0) hr0len
            rw [hr0eq] at hh
            exact hh
          have he2 : cents.getD c (0, 0) = detCentroid ((d :: ds).getD c default) := by
            have hh : ((d :: ds).map detCentroid).getD c (0, 0) =
                detCentroid ((d :: ds)[c]) :=
              getD_map_of_lt detCentroid (d :: ds) c (0, 0) hclen
            rw [List.getD_eq_getElem _ _ hclen]
            exact hh
          show s.MAX_TRACK_DISTANCE * s.MAX_TRACK_DISTANCE <
            dist2 (objCents.getD r0 (0, 0)) (cents.getD c (0, 0))
          rw [he1, he2]
          exact hgoal
        have husedR : ¬ r0 ∈ usedR :=
          matchFold_unusedR s objIds (d :: ds) cents D r0 (by simp) hfarRow rows
            ((⟨nid, o :: os, dis, maxd⟩ : TrackerState), ([] : List Nat), ([] : List Nat))
            (by simp)
        have hfarAll : ∀ row, row < objIds.length → objIds.getD row 0 = kv.1 →
            ∀ c, c < (d :: ds).length →
            s.MAX_TRACK_DISTANCE * s.MAX_TRACK_DISTANCE < D row c := by
          intro row hrl hre
          have hrr := hinj2 row hrl hre
          rw [hrr]
          exact hfarRow
        obtain ⟨hmt1, hmt2⟩ := matchFold_untouched s objIds (d :: ds) cents D kv.1
          objIds.length (by simp) hfarAll rows hrowslt
          ((⟨nid, o :: os, dis, maxd⟩ : TrackerState), ([] : List Nat), ([] : List Nat))
        have hmt1b : lookupD st1.disappeared kv.1 0 = lookupD dis kv.1 0 := hmt1
        have hmt2b : lookup? st1.objects kv.1 = lookup? (o :: os) kv.1 := hmt2
        have hHit := evictFold_hit objIds usedR r0 kv.1 htid hinj2 husedR
          (List.range objIds.length) (List.nodup_range _)
          (fun row hrow => List.mem_range.mp hrow) (List.mem_range.mpr hr0lenI) st1
        constructor
        · intro hgt
          have hgt2 : st1.max_disappeared < lookupD st1.disappeared kv.1 0 + 1 := by
            rw [hm1, hmt1b]
            exact hgt
          have hout : ¬ kv.1 ∈ st2.objects.map Prod.fst := hHit.1 hgt2
          intro hmem
          rcases hk3 kv.1 hmem with hmem2 | hmem2
          · exact hout hmem2
          · have hklt : kv.1 < nid := h.2.2.1 _ (List.mem_map_of_mem Prod.fst hkv)
            rw [hn2, hn1] at hmem2
            exact absurd hklt (Nat.not_lt.mpr hmem2)
        · intro hle
          have hle2 : lookupD st1.disappeared kv.1 0 + 1 ≤ st1.max_disappeared := by
            rw [hm1, hmt1b]
            exact hle
          obtain ⟨hd1, hd2⟩ := hHit.2 hle2
          have hklt : kv.1 < st2.next_id := by
            rw [hn2, hn1]
            exact h.2.2.1 _ (List.mem_map_of_mem Prod.fst hkv)
          have hdis3 : lookupD st3.disappeared kv.1 0 =
              lookupD st2.disappeared kv.1 0 :=
            regLikeFold_disappeared (regStep (d :: ds) cents usedC) hfR kv.1
              (List.range nC) st2 hklt
          obtain ⟨v, hv⟩ := lookup?_some_of_mem_keys (o :: os) kv.1
            (List.mem_map_of_mem Prod.fst hkv)
          have hmem2 : kv.1 ∈ st2.objects.map Prod.fst := by
            have hlk : lookup? st2.objects kv.1 = some v := by
              rw [hd2, hmt2b]
              exact hv
            have hmm : (kv.1, v) ∈ st2.objects := lookup?_mem st2.objects kv.1 v hlk
            have hmm2 : (kv.1, v).1 ∈ st2.objects.map Prod.fst :=
              List.mem_map_of_mem Prod.fst hmm
            exact hmm2
          have hobj3 : lookup? st3.objects kv.1 = lookup? st2.objects kv.1 :=
            hR.2.2.2.2.1 _ hmem2
          constructor
          · rw [hdis3, hd1, hmt1b]
          · rw [hobj3, hd2, hmt2b]

/-- Witness for C3: the fresh tracker state satisfies the invariant; a
first update with one detection keeps it, returns exactly the objects
of the final state, and registers the detection under the fresh id 0; a
second update whose only detection is beyond the 80px link distance
from track 0 keeps the invariant, registers the far detection under the
fresh id 1 (with its own centroid, zero velocity and one-point
trajectory), and increments the unmatched track's disappearance counter
to 1. -/
theorem C3_tracker_update_invariants_witness :
    TrackerInv ({} : TrackerState) ∧
    TrackerInv (CentroidTracker.update defaultSettings {} [personDet]).1 ∧
    (CentroidTracker.update defaultSettings {} [personDet]).2 =
      (CentroidTracker.update defaultSettings {} [personDet]).1.objects.map Prod.snd ∧
    (CentroidTracker.update defaultSettings {} [personDet]).1.objects.map Prod.fst
      = [0] ∧
    TrackerInv (CentroidTracker.update defaultSettings
      (CentroidTracker.update defaultSettings {} [personDet]).1 [farDet]).1 ∧
    (CentroidTracker.update defaultSettings
      (CentroidTracker.update defaultSettings {} [personDet]).1
      [farDet]).1.objects.map Prod.fst = [0, 1] ∧
    lookupD (CentroidTracker.update defaultSettings
      (CentroidTracker.update defaultSettings {} [personDet]).1
      [farDet]).1.disappeared 0 0 = 1 ∧
    (∃ k, (CentroidTracker.update defaultSettings {} [personDet]).1.next_id ≤ k ∧
      ∃ o, lookup? (CentroidTracker.update defaultSettings
        (CentroidTracker.update defaultSettings {} [personDet]).1
        [farDet]).1.objects k = some o ∧
      o.centroid = detCentroid ([farDet].getD 0 default) ∧
      o.class_name = ([farDet].getD 0 default).class_name ∧
      o.bbox = ([farDet].getD 0 default).bbox ∧
      o.velocity = (0, 0) ∧ o.trajectory = [o.centroid]) := by
  have h := C3_tracker_update_invariants defaultSettings {} [personDet] (by decide)
  have h2 := C3_tracker_update_invariants defaultSettings
    (CentroidTracker.update defaultSettings {} [personDet]).1 [farDet] h.1
  exact ⟨by decide, h.1, h.2.2.2.2.2.1, by with_unfolding_all decide, h2.1,
    by with_unfolding_all decide, by with_unfolding_all decide,
    h2.2.2.2.2.2.2.2.2.1 0 (by decide) (by with_unfolding_all decide)⟩

end HazardLens
